import Mathlib

/-!
# Game of Life server: a shallow embedding of `backend/websocket_server.go`

The Go program keeps one process-wide simulation state in package-level
variables (`width`, `height`, `grid`, `running`, `tickerStop`, `speed`,
`generation`) and mutates it from the command handler and from the ticker
loop.  Here that state is a record, every Go function is a function on the
record, and every run-time fault of the Go code (index out of range, `make`
with a negative length, `close` of a nil or closed channel) is the result
`none`.

Modelling conventions.

* Go `int` is the 64-bit signed integer.  The counter `generation` is
  incremented without bound by the ticker, so `generation++` is modelled
  with wrap-around (`wrapInt`).  Every other quantity the program computes
  stays far below `2^63` (cells are 0 or 1, the dimensions are at most
  1000 x 400, indices move by at most 3, the speed is at most 1000) and is
  computed in `Int`.
* `rand.Float64() < 0.2` is the next value of a stream `draws : Nat → Bool`;
  the state records how many values have been consumed (`rngPos`).
* `broadcast(msg)` appends `msg` to the log `sent`; the set of connected
  clients and the delivery to each of them is outside the model.
* `go runSimulation()` increments the counter `spawned`; the body of the
  spawned loop is the event `Event.tick`.
* `json.Marshal` / `json.Unmarshal` are outside the model: a decoded client
  message is a `ClientMessage`, an encoded broadcast is a `GridMessage`.
* The stepping code of `terminal_version/gol.go` is embedded in the namespace
  `Terminal`.
-/

namespace GameOfLife

/-! ## Slices -/

/-- The grid `[][]int`: a slice of rows. -/
abbrev Grid := List (List Int)

/-- Go slice read `xs[i]`; `none` is the index-out-of-range fault. -/
def index {α : Type} (xs : List α) (i : Int) : Option α :=
  if 0 ≤ i then xs[i.toNat]? else none

/-- Go slice write `xs[i] = v`; `none` is the index-out-of-range fault. -/
def assign {α : Type} (xs : List α) (i : Int) (v : α) : Option (List α) :=
  if 0 ≤ i ∧ i < (xs.length : Int) then some (xs.set i.toNat v) else none

/-- Go `make([]T, n)`: `n` zero values; `none` is the fault on a negative length. -/
def make {α : Type} (n : Int) (zero : α) : Option (List α) :=
  if 0 ≤ n then some (List.replicate n.toNat zero) else none

/-- Read of `grid[y][x]`. -/
def readCell (g : Grid) (x y : Int) : Option Int := do
  let row ← index g y
  index row x

/-- Write `grid[y][x] = v`. -/
def writeCell (g : Grid) (x y v : Int) : Option Grid := do
  let row ← index g y
  let row ← assign row x v
  assign g y row

/-- The smallest value of a Go `int` (64 bits). -/
def intMin : Int := -9223372036854775808

/-- The largest value of a Go `int` (64 bits). -/
def intMax : Int := 9223372036854775807

/-- The result of Go `int` arithmetic: the value modulo `2^64` in `[intMin, intMax]`. -/
def wrapInt (n : Int) : Int :=
  (n + 9223372036854775808) % 18446744073709551616 - 9223372036854775808

/-- The values taken by `i` in `for i := 0; i < n; i++`. -/
def upto (n : Int) : List Int := (List.range n.toNat).map Int.ofNat

/-! ## State -/

/-- The channel variable `tickerStop`: nil, an open channel, or a closed one. -/
inductive Chan where
  | nil
  | live
  | closed
  deriving DecidableEq, Repr

/-- The struct `GridMessage`. -/
structure GridMessage where
  grid : String
  generation : Int
  population : Int
  deriving DecidableEq, Repr

/-- A broadcast payload: the JSON encoding of a `GridMessage`, or raw text. -/
inductive Outbound where
  | json (m : GridMessage)
  | raw (text : String)
  deriving DecidableEq, Repr

/-- The struct `ClientMessage` (a decoded inbound JSON message). -/
structure ClientMessage where
  type : String
  width : Int
  height : Int
  pattern : String
  speed : Int
  deriving DecidableEq, Repr

/-- The package-level variables of the server. -/
structure State where
  width : Int
  height : Int
  grid : Grid
  running : Bool
  tickerStop : Chan
  speed : Int
  generation : Int
  spawned : Nat
  sent : List Outbound
  rngPos : Nat
  deriving DecidableEq, Repr

/-- The constant `maxWidth`. -/
def maxWidth : Int := 1000

/-- The constant `maxHeight`. -/
def maxHeight : Int := 400

/-! ## Lifecycle -/

/-- The function `startSimulation`: `tickerStop = make(chan bool)` is a fresh open
channel and `go runSimulation()` is counted in `spawned`.  The variable `ticker` is
written and read only inside the spawned loop and is not part of the state. -/
def startSimulation (s : State) : State :=
  if s.running then s
  else { s with running := true, tickerStop := Chan.live, spawned := s.spawned + 1 }

/-- The function `stopSimulation`; `close(tickerStop)` faults unless the channel is open. -/
def stopSimulation (s : State) : Option State :=
  if !s.running then some s
  else
    match s.tickerStop with
    | Chan.live => some { s with running := false, tickerStop := Chan.closed }
    | _ => none

/-- The function `broadcast`: the message is recorded in the log. -/
def broadcast (s : State) (msg : Outbound) : State :=
  { s with sent := s.sent ++ [msg] }

/-! ## Reading the grid -/

/-- The function `getPopulation`. -/
def getPopulation (s : State) : Option Int :=
  (upto s.height).foldlM (fun count y =>
    (upto s.width).foldlM (fun count x => do
      let c ← readCell s.grid x y
      pure (count + c)) count) 0

/-- The function `getGridAsString`. -/
def getGridAsString (s : State) : Option String :=
  (upto s.height).foldlM (fun out y => do
    let out ← (upto s.width).foldlM (fun out x => do
      let c ← readCell s.grid x y
      pure (if c = 1 then out ++ "█" else out ++ " ")) out
    pure (out ++ "\n")) ""

/-- The function `getGridMessage` (before JSON encoding). -/
def getGridMessage (s : State) : Option GridMessage := do
  let g ← getGridAsString s
  let p ← getPopulation s
  pure { grid := g, generation := s.generation, population := p }

/-! ## Stepping -/

/-- The function `countNeighbours`. -/
def countNeighbours (s : State) (x y : Int) : Option Int :=
  [-1, 0, 1].foldlM (fun count (dy : Int) =>
    [-1, 0, 1].foldlM (fun count (dx : Int) =>
      if dx = 0 ∧ dy = 0 then pure count
      else
        let nx := x + dx
        let ny := y + dy
        if nx ≥ 0 ∧ nx < s.width ∧ ny ≥ 0 ∧ ny < s.height then do
          let c ← readCell s.grid nx ny
          pure (count + c)
        else pure count) count) 0

/-- The function `updateGrid`; `generation++` wraps at the `int` limit. -/
def updateGrid (s : State) : Option State := do
  let newGrid ← make s.height ([] : List Int)
  let newGrid ← (upto newGrid.length).foldlM (fun newGrid y => do
    let row ← make s.width (0 : Int)
    let newGrid ← assign newGrid y row
    (upto s.width).foldlM (fun newGrid x => do
      let neighbors ← countNeighbours s x y
      let c ← readCell s.grid x y
      if c = 1 ∧ (neighbors = 2 ∨ neighbors = 3) then writeCell newGrid x y 1
      else if c = 0 ∧ neighbors = 3 then writeCell newGrid x y 1
      else pure newGrid) newGrid) newGrid
  pure { s with grid := newGrid, generation := wrapInt (s.generation + 1) }

/-! ## Seeding -/

/-- The random fill loop shared by `initGrid` and the `random` pattern: one draw per cell. -/
def randomRow (draws : Nat → Bool) (w y : Int) (acc : Grid × Nat) : Option (Grid × Nat) :=
  (upto w).foldlM (fun (acc : Grid × Nat) x =>
    if draws acc.2 then do
      let g ← writeCell acc.1 x y 1
      pure (g, acc.2 + 1)
    else pure (acc.1, acc.2 + 1)) acc

/-- The function `initGrid`. -/
def initGrid (draws : Nat → Bool) (s : State) : Option State := do
  let g ← make s.height ([] : List Int)
  let r ← (upto s.height).foldlM (fun (acc : Grid × Nat) y => do
    let row ← make s.width (0 : Int)
    let g ← assign acc.1 y row
    randomRow draws s.width y (g, acc.2)) (g, s.rngPos)
  pure { s with grid := r.1, rngPos := r.2, generation := 0 }

/-- The function `clearGrid`, on the grid alone. -/
def clearCells (g : Grid) (w h : Int) : Option Grid :=
  (upto h).foldlM (fun g y =>
    (upto w).foldlM (fun g x => writeCell g x y 0) g) g

/-- The function `clearGrid`. -/
def clearGrid (s : State) : Option State := do
  let g ← clearCells s.grid s.width s.height
  pure { s with grid := g }

/-- The function `loadGlider`. -/
def loadGlider (g : Grid) (x y : Int) : Option Grid := do
  let g ← writeCell g (x + 1) y 1
  let g ← writeCell g (x + 2) (y + 1) 1
  let g ← writeCell g x (y + 2) 1
  let g ← writeCell g (x + 1) (y + 2) 1
  writeCell g (x + 2) (y + 2) 1

/-- The function `loadBlinker`. -/
def loadBlinker (g : Grid) (x y : Int) : Option Grid := do
  let g ← writeCell g x y 1
  let g ← writeCell g (x + 1) y 1
  writeCell g (x + 2) y 1

/-- The function `loadToad`. -/
def loadToad (g : Grid) (x y : Int) : Option Grid := do
  let g ← writeCell g (x + 1) y 1
  let g ← writeCell g (x + 2) y 1
  let g ← writeCell g (x + 3) y 1
  let g ← writeCell g x (y + 1) 1
  let g ← writeCell g (x + 1) (y + 1) 1
  writeCell g (x + 2) (y + 1) 1

/-- The function `loadBeacon`. -/
def loadBeacon (g : Grid) (x y : Int) : Option Grid := do
  let g ← writeCell g x y 1
  let g ← writeCell g (x + 1) y 1
  let g ← writeCell g x (y + 1) 1
  let g ← writeCell g (x + 1) (y + 1) 1
  let g ← writeCell g (x + 2) (y + 2) 1
  let g ← writeCell g (x + 3) (y + 2) 1
  let g ← writeCell g (x + 2) (y + 3) 1
  writeCell g (x + 3) (y + 3) 1

/-- The function `loadPattern`; Go `/` on `int` truncates toward zero. -/
def loadPattern (draws : Nat → Bool) (s : State) (pattern : String) : Option State := do
  let s ← clearGrid s
  let s := { s with generation := 0 }
  let cx := Int.tdiv s.width 2
  let cy := Int.tdiv s.height 2
  if pattern = "glider" then do
    let g ← loadGlider s.grid (cx - 1) (cy - 1)
    pure { s with grid := g }
  else if pattern = "blinker" then do
    let g ← loadBlinker s.grid (cx - 1) cy
    pure { s with grid := g }
  else if pattern = "toad" then do
    let g ← loadToad s.grid (cx - 2) (cy - 1)
    pure { s with grid := g }
  else if pattern = "beacon" then do
    let g ← loadBeacon s.grid (cx - 2) (cy - 2)
    pure { s with grid := g }
  else if pattern = "random" then do
    let r ← (upto s.height).foldlM (fun (acc : Grid × Nat) y =>
      randomRow draws s.width y acc) (s.grid, s.rngPos)
    pure { s with grid := r.1, rngPos := r.2 }
  else pure s

/-! ## Commands -/

/-- The function `applyResize`. -/
def applyResize (draws : Nat → Bool) (s : State) (wReq hReq : Int) : Option State := do
  let wasRunning := s.running
  let s ← stopSimulation s
  let s := { s with width := wReq, height := hReq }
  let s ← initGrid draws s
  let m ← getGridMessage s
  let s := broadcast s (Outbound.json m)
  if wasRunning then pure (startSimulation s) else pure s

/-- The function `resetSimulation`; its argument is not used by the Go code. -/
def resetSimulation (draws : Nat → Bool) (s : State) (_pattern : String) : Option State := do
  let s ← stopSimulation s
  let s ← initGrid draws s
  let text ← getGridAsString s
  pure (broadcast s (Outbound.raw text))

/-- The JSON branch of the read loop in `handleConnections` (`switch cm.Type`). -/
def handleJSON (draws : Nat → Bool) (s : State) (cm : ClientMessage) : Option State :=
  if cm.type = "resize" then
    let wReq := cm.width
    let hReq := cm.height
    if wReq ≤ 0 ∨ hReq ≤ 0 then some s
    else
      let wReq := if wReq > maxWidth then maxWidth else wReq
      let hReq := if hReq > maxHeight then maxHeight else hReq
      applyResize draws s wReq hReq
  else if cm.type = "pattern" then do
    let s ← loadPattern draws s cm.pattern
    let m ← getGridMessage s
    pure (broadcast s (Outbound.json m))
  else if cm.type = "speed" then
    if cm.speed > 0 ∧ cm.speed ≤ 1000 then
      let s := { s with speed := cm.speed }
      if s.running then do
        let s ← stopSimulation s
        pure (startSimulation s)
      else some s
    else some s
  else some s

/-- The plain-text branch of the read loop in `handleConnections` (`switch msg`). -/
def handleText (draws : Nat → Bool) (s : State) (msg : String) : Option State :=
  if msg = "start" then some (startSimulation s)
  else if msg = "stop" then stopSimulation s
  else if msg = "reset" then resetSimulation draws s "random"
  else some s

/-- One thing that happens to the shared state: a decoded JSON message (a message
whose `type` is empty or unknown is logged and ignored), a plain-text message, or
one iteration of the ticker loop of `runSimulation`. -/
inductive Event where
  | json (cm : ClientMessage)
  | text (msg : String)
  | tick
  deriving DecidableEq, Repr

/-- The effect of one event on the state. -/
def step (draws : Nat → Bool) (s : State) : Event → Option State
  | Event.json cm => handleJSON draws s cm
  | Event.text msg => handleText draws s msg
  | Event.tick => do
    let s ← updateGrid s
    let m ← getGridMessage s
    pure (broadcast s (Outbound.json m))

/-- The effect of a sequence of events. -/
def run (draws : Nat → Bool) (s : State) (evs : List Event) : Option State :=
  evs.foldlM (step draws) s

/-- The package-level variable initialisers. -/
def bootState : State :=
  { width := 170, height := 42, grid := [], running := false, tickerStop := Chan.nil,
    speed := 100, generation := 0, spawned := 0, sent := [], rngPos := 0 }

/-- The state when `main` starts serving: `initGrid()` on the initialisers. -/
def initialState (draws : Nat → Bool) : Option State := initGrid draws bootState

/-! ## The terminal version (`terminal_version/gol.go`)

Its package-level variables are `grid`, `width` and `height`; only `grid` is written
by the stepping code, so the functions take the three as arguments and `updateGrid`
returns the new `grid`. -/

namespace Terminal

/-- The function `countNeightbours` of the terminal version. -/
def countNeightbours (grid : Grid) (width height : Int) (x y : Int) : Option Int :=
  [-1, 0, 1].foldlM (fun count (dy : Int) =>
    [-1, 0, 1].foldlM (fun count (dx : Int) =>
      if dx = 0 ∧ dy = 0 then pure count
      else
        let nx := x + dy
        let ny := y + dx
        if nx ≥ 0 ∧ nx < width ∧ ny ≥ 0 ∧ ny < height then do
          let c ← readCell grid nx ny
          pure (count + c)
        else pure count) count) 0

/-- The function `updateGrid` of the terminal version. -/
def updateGrid (grid : Grid) (width height : Int) : Option Grid := do
  let newGrid ← make height ([] : List Int)
  (upto height).foldlM (fun newGrid y => do
    let row ← make width (0 : Int)
    let newGrid ← assign newGrid y row
    (upto width).foldlM (fun newGrid x => do
      let neighbors ← countNeightbours grid width height x y
      let c ← readCell grid x y
      if c = 1 ∧ (neighbors = 2 ∨ neighbors = 3) then writeCell newGrid x y 1
      else if c = 0 ∧ neighbors = 3 then writeCell newGrid x y 1
      else pure newGrid) newGrid) newGrid

end Terminal

/-! ## Specification-side definitions -/

/-- The grid is `h` rows of `w` cells each. -/
def Rect (g : Grid) (w h : Int) : Prop :=
  (g.length : Int) = h ∧ ∀ row ∈ g, (row.length : Int) = w

instance (g : Grid) (w h : Int) : Decidable (Rect g w h) := by
  unfold Rect; infer_instance

/-- Every cell of the grid is 0 or 1. -/
def Binary (g : Grid) : Prop := ∀ row ∈ g, ∀ c ∈ row, c = 0 ∨ c = 1

instance (g : Grid) : Decidable (Binary g) := by
  unfold Binary; infer_instance

/-- A well-formed state: `height` rows of `width` cells, each 0 or 1. -/
def WellFormed (s : State) : Prop := Rect s.grid s.width s.height ∧ Binary s.grid

instance (s : State) : Decidable (WellFormed s) := by
  unfold WellFormed; infer_instance

/-- The offsets `(dx, dy)` with `dx, dy` in `{-1, 0, 1}`, not both 0. -/
def neighbourOffsets : List (Int × Int) :=
  (List.product [-1, 0, 1] [-1, 0, 1]).filter (fun d => ¬(d.1 = 0 ∧ d.2 = 0))

/-- The position `(x, y)` lies inside the grid and holds a live cell. -/
def liveAt (s : State) (x y : Int) : Prop :=
  0 ≤ x ∧ x < s.width ∧ 0 ≤ y ∧ y < s.height ∧ readCell s.grid x y = some 1

instance (s : State) (x y : Int) : Decidable (liveAt s x y) := by
  unfold liveAt; infer_instance

/-- The neighbour count in the words of the specification: the number of live cells
among the adjacent positions that lie inside the grid. -/
def specNeighbourCount (s : State) (x y : Int) : Nat :=
  neighbourOffsets.countP (fun d => decide (liveAt s (x + d.1) (y + d.2)))

/-- The next value of a cell in the words of the specification: a live cell with 2 or 3
live neighbours survives, a dead cell with exactly 3 is born, every other cell is dead. -/
def specNextCell (s : State) (x y : Int) : Int :=
  if (readCell s.grid x y = some 1 ∧
        (specNeighbourCount s x y = 2 ∨ specNeighbourCount s x y = 3)) ∨
      (readCell s.grid x y = some 0 ∧ specNeighbourCount s x y = 3) then 1 else 0

/-- The grid whose cell `(x, y)` is `f x y`, with `w` columns and `h` rows. -/
def tabulate (w h : Nat) (f : Int → Int → Int) : Grid :=
  (List.range h).map (fun (y : Nat) => (List.range w).map (fun (x : Nat) => f (x : Int) (y : Int)))

/-- A small well-formed state: a vertical blinker on a 3 x 3 grid. -/
def sampleState : State :=
  { bootState with width := 3, height := 3, grid := [[0, 1, 0], [0, 1, 0], [0, 1, 0]] }

/-- The population in the words of the specification: the number of positions
`(x, y)` of the grid with `grid[y][x] == 1`, counted afresh from the grid. -/
def specPopulation (s : State) : Nat :=
  ((Finset.range s.height.toNat ×ˢ Finset.range s.width.toNat).filter
    (fun p => readCell s.grid (p.2 : Int) (p.1 : Int) = some 1)).card

/-- The character of a cell: a filled block for 1, a space otherwise. -/
def glyph (c : Int) : String := if c = 1 then "█" else " "

/-- One row as text: the characters of its cells, left to right. -/
def renderRow (row : List Int) : String := String.join (row.map glyph)

/-- The rows joined by newline characters, a newline only between rows. -/
def specJoinedRows (g : Grid) : String := String.intercalate "\n" (g.map renderRow)

/-- The rows, each followed by a newline character. -/
def terminatedRows (g : Grid) : String :=
  String.join (g.map (fun row => renderRow row ++ "\n"))

/-- The writes `grid[y][x] = 1` for the listed positions `(x, y)`, in order. -/
def stamp (g : Grid) (cells : List (Int × Int)) : Option Grid :=
  cells.foldlM (fun g p => writeCell g p.1 p.2 1) g

/-- The grid has `h` rows, the first `k` of them have `w` cells, and every cell is 0 or 1:
the shape of the grid while the rows are being allocated one by one. -/
def Shaped (g : Grid) (w h k : Nat) : Prop :=
  g.length = h ∧ ∀ (i : Nat) (row : List Int), g[i]? = some row →
    (i < k → row.length = w) ∧ ∀ c ∈ row, c = 0 ∨ c = 1

/-- The live cells of a named pattern in the words of the specification, relative to
the centre `(cx, cy)`; no cells for any other name. -/
def specPatternCells (pattern : String) (cx cy : Int) : List (Int × Int) :=
  if pattern = "glider" then
    [(cx, cy - 1), (cx + 1, cy), (cx - 1, cy + 1), (cx, cy + 1), (cx + 1, cy + 1)]
  else if pattern = "blinker" then
    [(cx - 1, cy), (cx, cy), (cx + 1, cy)]
  else if pattern = "toad" then
    [(cx - 1, cy - 1), (cx, cy - 1), (cx + 1, cy - 1), (cx - 2, cy), (cx - 1, cy), (cx, cy)]
  else if pattern = "beacon" then
    [(cx - 2, cy - 2), (cx - 1, cy - 2), (cx - 2, cy - 1), (cx - 1, cy - 1),
      (cx, cy), (cx + 1, cy), (cx, cy + 1), (cx + 1, cy + 1)]
  else []

/-- The lifecycle invariant: while `running` is set, `tickerStop` is an open channel. -/
def ChanOK (s : State) : Prop := s.running = true → s.tickerStop = Chan.live

instance (s : State) : Decidable (ChanOK s) := by
  unfold ChanOK; infer_instance

/-- A 4 x 4 state in which every cell is live. -/
def fullState : State :=
  { bootState with
    width := 4
    height := 4
    grid := [[1, 1, 1, 1], [1, 1, 1, 1], [1, 1, 1, 1], [1, 1, 1, 1]] }

/-- The dimensions lie in the range a resize can produce. -/
def DimsOK (s : State) : Prop :=
  1 ≤ s.width ∧ s.width ≤ maxWidth ∧ 1 ≤ s.height ∧ s.height ≤ maxHeight

instance (s : State) : Decidable (DimsOK s) := by
  unfold DimsOK; infer_instance

/-- Every cell of the grid is dead. -/
def AllDead (g : Grid) : Prop := ∀ row ∈ g, ∀ c ∈ row, c = 0

instance (g : Grid) : Decidable (AllDead g) := by
  unfold AllDead; infer_instance

/-- The effect of `n` consecutive calls of `updateGrid`. -/
def updateGridN : Nat → State → Option State
  | 0, s => some s
  | n + 1, s => (updateGrid s).bind (updateGridN n)

/-- A 3 x 3 state in which every cell is dead. -/
def deadState : State :=
  { bootState with
    width := 3
    height := 3
    grid := [[0, 0, 0], [0, 0, 0], [0, 0, 0]] }

/-- A 1 x 1 state, as left by `resize(1, 1)`. -/
def tinyState : State :=
  { bootState with
    width := 1
    height := 1
    grid := [[0]] }

/-- The grid of `h` rows of `w` cells whose live cells are exactly the listed positions
`(x, y)` that lie inside it. -/
def paint (w h : Int) (cells : List (Int × Int)) : Grid :=
  tabulate w.toNat h.toNat (fun x y => if (x, y) ∈ cells then 1 else 0)

/-- The live cells of the state are exactly the listed positions, all inside the grid. -/
def LiveExactly (s : State) (cells : List (Int × Int)) : Prop :=
  0 ≤ s.width ∧ 0 ≤ s.height ∧
    (∀ c ∈ cells, 0 ≤ c.1 ∧ c.1 < s.width ∧ 0 ≤ c.2 ∧ c.2 < s.height) ∧
    s.grid = paint s.width s.height cells

instance (s : State) (cells : List (Int × Int)) : Decidable (LiveExactly s cells) := by
  unfold LiveExactly; infer_instance

/-- The number of listed cells among the eight neighbours of `(a, b)`. -/
def planeCount (cells : List (Int × Int)) (a b : Int) : Nat :=
  neighbourOffsets.countP (fun d => decide ((a + d.1, b + d.2) ∈ cells))

/-- The Game of Life rule at `(a, b)` when the live cells are the listed ones. -/
def planeNext (cells : List (Int × Int)) (a b : Int) : Prop :=
  ((a, b) ∈ cells ∧ (planeCount cells a b = 2 ∨ planeCount cells a b = 3)) ∨
    ((a, b) ∉ cells ∧ planeCount cells a b = 3)

instance (cells : List (Int × Int)) (a b : Int) : Decidable (planeNext cells a b) := by
  unfold planeNext; infer_instance

/-- The position `(a, b)` lies inside a grid of `w` by `h` cells. -/
def inside (w h a b : Int) : Prop := 0 ≤ a ∧ a < w ∧ 0 ≤ b ∧ b < h

instance (w h a b : Int) : Decidable (inside w h a b) := by
  unfold inside; infer_instance

/-- The listed positions moved by `(dx, dy)`. -/
def shift (dx dy : Int) (cells : List (Int × Int)) : List (Int × Int) :=
  cells.map (fun c => (c.1 + dx, c.2 + dy))

/-- The integers from `lo` to `hi`, both included. -/
def intRange (lo hi : Int) : List Int :=
  (List.range (hi + 1 - lo).toNat).map (fun (i : Nat) => lo + (i : Int))

/-- The horizontal blinker with its left cell at the origin. -/
def blinkerH : List (Int × Int) := [(0, 0), (1, 0), (2, 0)]

/-- The vertical blinker that the horizontal one turns into. -/
def blinkerV : List (Int × Int) := [(1, -1), (1, 0), (1, 1)]

/-- The cells written by `loadBlinker(x, y)`. -/
def blinkerAt (x y : Int) : List (Int × Int) := [(x, y), (x + 1, y), (x + 2, y)]

/-- The vertical blinker through the middle cell of `blinkerAt x y`. -/
def blinkerUpAt (x y : Int) : List (Int × Int) := [(x + 1, y - 1), (x + 1, y), (x + 1, y + 1)]

/-- The cells written by `loadGlider(x, y)`. -/
def gliderAt (x y : Int) : List (Int × Int) :=
  [(x + 1, y), (x + 2, y + 1), (x, y + 2), (x + 1, y + 2), (x + 2, y + 2)]

/-- The glider written by `loadGlider(0, 0)`. -/
def glider0 : List (Int × Int) := [(1, 0), (2, 1), (0, 2), (1, 2), (2, 2)]

/-- The glider one step later. -/
def glider1 : List (Int × Int) := [(0, 1), (2, 1), (1, 2), (2, 2), (1, 3)]

/-- The glider two steps later. -/
def glider2 : List (Int × Int) := [(2, 1), (0, 2), (2, 2), (1, 3), (2, 3)]

/-- The glider three steps later. -/
def glider3 : List (Int × Int) := [(1, 1), (2, 2), (3, 2), (1, 3), (2, 3)]

/-- A 3 x 3 state with a horizontal blinker in the top row. -/
def topBlinkerState : State :=
  { bootState with
    width := 3
    height := 3
    grid := [[1, 1, 1], [0, 0, 0], [0, 0, 0]] }

/-- A 3 x 1 state in which every cell is dead. -/
def stripState : State :=
  { bootState with
    width := 3
    height := 1
    grid := [[0, 0, 0]] }

/-- A 5 x 5 state with a horizontal blinker in the middle row. -/
def blinkerState : State :=
  { bootState with
    width := 5
    height := 5
    grid := [[0, 0, 0, 0, 0], [0, 0, 0, 0, 0], [0, 1, 1, 1, 0], [0, 0, 0, 0, 0],
      [0, 0, 0, 0, 0]] }

/-- A 4 x 4 state with the glider of `loadGlider(0, 0)`. -/
def gliderState : State :=
  { bootState with
    width := 4
    height := 4
    grid := [[0, 1, 0, 0], [0, 0, 1, 0], [1, 1, 1, 0], [0, 0, 0, 0]] }

/-- A 6 x 6 state in which every cell is dead. -/
def sixState : State :=
  { bootState with
    width := 6
    height := 6
    grid := List.replicate 6 (List.replicate 6 0) }

/-- The 6 x 6 state after `loadPattern("glider")`. -/
def sixGliderState : State :=
  { bootState with
    width := 6
    height := 6
    grid := [[0, 0, 0, 0, 0, 0], [0, 0, 0, 0, 0, 0], [0, 0, 0, 1, 0, 0],
      [0, 0, 0, 0, 1, 0], [0, 0, 1, 1, 1, 0], [0, 0, 0, 0, 0, 0]] }

/-- The sample state with the counter at the largest value of a Go `int`. -/
def overflowState : State :=
  { sampleState with generation := 9223372036854775807 }

/-! ## Machine integers -/

theorem wrapInt_of_inRange (n : Int) (h1 : intMin ≤ n) (h2 : n ≤ intMax) : wrapInt n = n := by
  unfold intMin at h1
  unfold intMax at h2
  unfold wrapInt
  omega

theorem wrapInt_inRange (n : Int) : intMin ≤ wrapInt n ∧ wrapInt n ≤ intMax := by
  unfold intMin intMax wrapInt
  omega

theorem wrapInt_add (a b : Int) : wrapInt (wrapInt a + b) = wrapInt (a + b) := by
  unfold wrapInt
  omega

/-- The increment does not wrap below the largest `int`. -/
theorem wrapInt_succ (g : Int) (h1 : intMin ≤ g) (h2 : g + 1 ≤ intMax) :
    wrapInt (g + 1) = g + 1 :=
  wrapInt_of_inRange (g + 1) (by omega) h2

/-- At the largest `int` the increment wraps to the smallest. -/
theorem wrapInt_intMax : wrapInt (intMax + 1) = intMin := by
  decide

/-! ## Basic facts about slices and loops -/

theorem upto_natCast (n : Nat) : upto (n : Int) = (List.range n).map Int.ofNat := by
  simp [upto]

theorem upto_succ (n : Nat) : upto ((n : Int) + 1) = upto (n : Int) ++ [(n : Int)] := by
  have h : ((n : Int) + 1).toNat = n + 1 := by omega
  simp [upto, h, List.range_succ]

theorem upto_toNat (n : Int) : upto n = upto (n.toNat : Int) := by
  have h : ((n.toNat : Int)).toNat = n.toNat := by omega
  unfold upto
  rw [h]

theorem index_natCast {α : Type} (xs : List α) (i : Nat) : index xs (i : Int) = xs[i]? := by
  simp [index]

theorem assign_natCast {α : Type} (xs : List α) (i : Nat) (v : α) (h : i < xs.length) :
    assign xs (i : Int) v = some (xs.set i v) := by
  simp [assign, h]

theorem readCell_natCast (g : Grid) (x y : Nat) :
    readCell g (x : Int) (y : Int) = (g[y]?).bind (fun row => row[x]?) := by
  simp [readCell, index_natCast]

theorem writeCell_natCast (g : Grid) (x y : Nat) (v : Int) (row : List Int)
    (hy : g[y]? = some row) (hx : x < row.length) :
    writeCell g (x : Int) (y : Int) v = some (g.set y (row.set x v)) := by
  have hlt : y < g.length := by
    rcases List.getElem?_eq_some.mp hy with ⟨h, _⟩
    exact h
  simp [writeCell, index_natCast, hy, assign_natCast, hx, hlt]

/-- Loop rule: an invariant that every iteration establishes for the next index holds
after `for i := 0; i < n; i++`, and the loop does not fault. -/
theorem foldlM_upto_inv {σ : Type} (P : Nat → σ → Prop) (n : Nat)
    (body : σ → Int → Option σ) (init : σ) (h0 : P 0 init)
    (hstep : ∀ (i : Nat) (acc : σ), i < n → P i acc →
      ∃ acc', body acc (i : Int) = some acc' ∧ P (i + 1) acc') :
    ∃ r, (upto (n : Int)).foldlM body init = some r ∧ P n r := by
  induction n with
  | zero => exact ⟨init, by simp [upto], h0⟩
  | succ k ih =>
    obtain ⟨r, hr, hP⟩ := ih (fun i acc hi hp => hstep i acc (Nat.lt_succ_of_lt hi) hp)
    obtain ⟨r', hr', hP'⟩ := hstep k r (Nat.lt_succ_self k) hP
    refine ⟨r', ?_, hP'⟩
    have : ((k + 1 : Nat) : Int) = (k : Int) + 1 := by push_cast; rfl
    rw [this, upto_succ, List.foldlM_append, hr]
    simp [hr']

theorem readCell_of_rect (g : Grid) (w h x y : Int) (hr : Rect g w h)
    (hx : 0 ≤ x) (hxw : x < w) (hy : 0 ≤ y) (hyh : y < h) :
    ∃ row c, g[y.toNat]? = some row ∧ (row.length : Int) = w ∧ row[x.toNat]? = some c ∧
      readCell g x y = some c := by
  obtain ⟨hlen, hrows⟩ := hr
  obtain ⟨xn, rfl⟩ := Int.eq_ofNat_of_zero_le hx
  obtain ⟨yn, rfl⟩ := Int.eq_ofNat_of_zero_le hy
  have hyl : yn < g.length := by omega
  have hrow : (g[yn].length : Int) = w := hrows _ (List.getElem_mem hyl)
  have hxl : xn < g[yn].length := by omega
  refine ⟨g[yn], g[yn][xn], ?_, hrow, ?_, ?_⟩
  · simp [List.getElem?_eq_getElem hyl]
  · simp [List.getElem?_eq_getElem hxl]
  · rw [readCell_natCast]
    simp [List.getElem?_eq_getElem hyl, List.getElem?_eq_getElem hxl]

theorem readCell_wellFormed (s : State) (h : WellFormed s) (x y : Int)
    (hx : 0 ≤ x) (hxw : x < s.width) (hy : 0 ≤ y) (hyh : y < s.height) :
    readCell s.grid x y = some 0 ∨ readCell s.grid x y = some 1 := by
  obtain ⟨row, c, hrow, _, hc, hread⟩ := readCell_of_rect s.grid _ _ x y h.1 hx hxw hy hyh
  have hmem : row ∈ s.grid := List.getElem?_mem hrow
  have hcm : c ∈ row := List.getElem?_mem hc
  rcases h.2 row hmem c hcm with h0 | h1
  · left; rw [hread, h0]
  · right; rw [hread, h1]

theorem neighbourOffsets_eq : neighbourOffsets =
    [(-1, -1), (-1, 0), (-1, 1), (0, -1), (0, 1), (1, -1), (1, 0), (1, 1)] := by
  decide

/-- One guarded read of `countNeighbours` adds 1 exactly for a live in-bounds cell. -/
theorem probe_eq (s : State) (h : WellFormed s) (nx ny count : Int) :
    (if nx ≥ 0 ∧ nx < s.width ∧ ny ≥ 0 ∧ ny < s.height then
        (readCell s.grid nx ny).bind (fun c => some (count + c))
      else some count) =
    some (count + ((if liveAt s nx ny then 1 else 0 : Nat) : Int)) := by
  by_cases hb : nx ≥ 0 ∧ nx < s.width ∧ ny ≥ 0 ∧ ny < s.height
  · rw [if_pos hb]
    obtain ⟨h1, h2, h3, h4⟩ := hb
    rcases readCell_wellFormed s h nx ny h1 h2 h3 h4 with h0 | h1'
    · simp [h0, liveAt]
    · simp [h1', liveAt, h1, h2, h3, h4]
  · rw [if_neg hb]
    have : ¬ liveAt s nx ny := by
      intro hl
      exact hb ⟨hl.1, hl.2.1, hl.2.2.1, hl.2.2.2.1⟩
    simp [this]

/-- One iteration of the inner loop of `countNeighbours`. -/
theorem countNeighbours_step (s : State) (h : WellFormed s) (x y dy count dx : Int) :
    (if dx = 0 ∧ dy = 0 then (pure count : Option Int)
      else
        let nx := x + dx
        let ny := y + dy
        if nx ≥ 0 ∧ nx < s.width ∧ ny ≥ 0 ∧ ny < s.height then do
          let c ← readCell s.grid nx ny
          pure (count + c)
        else pure count) =
    some (count + ((if dx = 0 ∧ dy = 0 then 0
      else if liveAt s (x + dx) (y + dy) then 1 else 0 : Nat) : Int)) := by
  by_cases hz : dx = 0 ∧ dy = 0
  · simp [hz]
  · rw [if_neg hz, if_neg hz]
    exact probe_eq s h (x + dx) (y + dy) count

/-- The code's neighbour count is the specification's, on every well-formed state. -/
theorem countNeighbours_eq_spec (s : State) (h : WellFormed s) (x y : Int) :
    countNeighbours s x y = some (specNeighbourCount s x y : Int) := by
  unfold countNeighbours specNeighbourCount
  rw [neighbourOffsets_eq]
  simp only [countNeighbours_step s h]
  simp only [List.foldlM_cons, List.foldlM_nil, List.countP_cons, List.countP_nil,
    pure_bind, Option.pure_def, Option.bind_eq_bind, Option.some_bind, decide_eq_true_eq]
  congr 1
  norm_num
  omega

theorem set_eq_self_of_getElem? {α : Type} (xs : List α) (i : Nat) (v : α)
    (h : xs[i]? = some v) : xs.set i v = xs := by
  apply List.ext_getElem?
  intro j
  rw [List.getElem?_set]
  by_cases hij : i = j
  · subst hij
    rcases List.getElem?_eq_some.mp h with ⟨hlt, _⟩
    simp [hlt, h]
  · simp [hij]

/-- A loop that overwrites entry `k` of a slice at iteration `k` leaves the slice of the
written values. -/
theorem foldlM_fill {α : Type} (n : Nat) (body : List α → Int → Option (List α))
    (val : Nat → α) (x0 : List α) (hlen : x0.length = n)
    (hbody : ∀ (k : Nat) (xs : List α), k < n → xs.length = n →
      (∀ i, k ≤ i → xs[i]? = x0[i]?) → body xs (k : Int) = some (xs.set k (val k))) :
    (upto (n : Int)).foldlM body x0 = some ((List.range n).map val) := by
  obtain ⟨r, hr, hlenr, hdone, _⟩ := foldlM_upto_inv
    (fun k xs => xs.length = n ∧ (∀ i, i < k → xs[i]? = some (val i)) ∧
      (∀ i, k ≤ i → xs[i]? = x0[i]?)) n body x0
    ⟨hlen, by intro i hi; omega, by intro i _; rfl⟩
    (by
      intro k xs hk ⟨hl, hd, hrest⟩
      refine ⟨xs.set k (val k), hbody k xs hk hl hrest, by simp [hl], ?_, ?_⟩
      · intro i hi
        rw [List.getElem?_set]
        by_cases hki : k = i
        · subst hki; simp [hl, hk]
        · simp [hki]; exact hd i (by omega)
      · intro i hi
        rw [List.getElem?_set]
        have hki : ¬ k = i := by omega
        simp [hki]; exact hrest i (by omega))
  rw [hr]
  congr 1
  apply List.ext_getElem?
  intro i
  by_cases hi : i < n
  · rw [hdone i hi]; simp [hi]
  · have h1 : r.length ≤ i := by omega
    have h2 : ((List.range n).map val).length ≤ i := by simp; omega
    rw [List.getElem?_eq_none h1, List.getElem?_eq_none h2]

/-- A loop that overwrites cell `k` of row `y` at iteration `k` leaves row `y` holding
the written values and the other rows untouched. -/
theorem foldlM_fill_row (w : Nat) (body : Grid → Int → Option Grid) (val : Nat → Int)
    (g0 : Grid) (y : Nat) (row0 : List Int) (hy : g0[y]? = some row0)
    (hlen : row0.length = w)
    (hbody : ∀ (k : Nat) (row : List Int), k < w → row.length = w →
      (∀ i, k ≤ i → row[i]? = row0[i]?) →
      body (g0.set y row) (k : Int) = some (g0.set y (row.set k (val k)))) :
    (upto (w : Int)).foldlM body g0 = some (g0.set y ((List.range w).map val)) := by
  obtain ⟨r, hr, row, hrow, hl, hdone, _⟩ := foldlM_upto_inv
    (fun k g => ∃ row, g = g0.set y row ∧ row.length = w ∧
      (∀ i, i < k → row[i]? = some (val i)) ∧ (∀ i, k ≤ i → row[i]? = row0[i]?))
    w body g0
    ⟨row0, (set_eq_self_of_getElem? g0 y row0 hy).symm, hlen,
      by intro i hi; omega, by intro i _; rfl⟩
    (by
      rintro k g hk ⟨row, rfl, hl, hd, hrest⟩
      refine ⟨g0.set y (row.set k (val k)), hbody k row hk hl hrest, row.set k (val k),
        rfl, by simp [hl], ?_, ?_⟩
      · intro i hi
        rw [List.getElem?_set]
        by_cases hki : k = i
        · subst hki; simp [hl, hk]
        · simp [hki]; exact hd i (by omega)
      · intro i hi
        rw [List.getElem?_set]
        have hki : ¬ k = i := by omega
        simp [hki]; exact hrest i (by omega))
  rw [hr, hrow]
  congr 2
  apply List.ext_getElem?
  intro i
  by_cases hi : i < w
  · rw [hdone i hi]; simp [hi]
  · have h1 : row.length ≤ i := by omega
    have h2 : ((List.range w).map val).length ≤ i := by simp; omega
    rw [List.getElem?_eq_none h1, List.getElem?_eq_none h2]

theorem readCell_tabulate (w h : Nat) (f : Int → Int → Int) (x y : Int)
    (hx : 0 ≤ x) (hxw : x < w) (hy : 0 ≤ y) (hyh : y < h) :
    readCell (tabulate w h f) x y = some (f x y) := by
  obtain ⟨xn, rfl⟩ := Int.eq_ofNat_of_zero_le hx
  obtain ⟨yn, rfl⟩ := Int.eq_ofNat_of_zero_le hy
  have h1 : xn < w := by omega
  have h2 : yn < h := by omega
  rw [readCell_natCast]
  simp [tabulate, List.getElem?_map, List.getElem?_range, h1, h2]

theorem rect_tabulate (w h : Nat) (f : Int → Int → Int) :
    Rect (tabulate w h f) (w : Int) (h : Int) := by
  constructor
  · simp [tabulate]
  · intro row hrow
    simp only [tabulate, List.mem_map] at hrow
    obtain ⟨y, _, rfl⟩ := hrow
    simp

theorem binary_tabulate (w h : Nat) (f : Int → Int → Int)
    (hf : ∀ x y, f x y = 0 ∨ f x y = 1) : Binary (tabulate w h f) := by
  intro row hrow c hc
  simp only [tabulate, List.mem_map] at hrow
  obtain ⟨y, _, rfl⟩ := hrow
  simp only [List.mem_map] at hc
  obtain ⟨x, _, rfl⟩ := hc
  exact hf _ _

theorem width_nonneg_of_rect (g : Grid) (w h : Int) (hr : Rect g w h) (hh : 0 < h) :
    0 ≤ w := by
  obtain ⟨hlen, hrows⟩ := hr
  have hl : 0 < g.length := by omega
  have := hrows _ (List.getElem_mem hl)
  omega

theorem make_natCast {α : Type} (n : Nat) (z : α) :
    make (n : Int) z = some (List.replicate n z) := by
  simp [make]

/-- The inner loop of `updateGrid` fills a fresh row with the next cell values. -/
theorem updateGrid_row (s : State) (h : WellFormed s) (W : Nat) (hW : s.width = (W : Int))
    (g0 : Grid) (y : Nat) (hy : (y : Int) < s.height)
    (hrow : g0[y]? = some (List.replicate W (0 : Int))) :
    (upto (W : Int)).foldlM (fun newGrid x => do
      let neighbors ← countNeighbours s x y
      let c ← readCell s.grid x y
      if c = 1 ∧ (neighbors = 2 ∨ neighbors = 3) then writeCell newGrid x y 1
      else if c = 0 ∧ neighbors = 3 then writeCell newGrid x y 1
      else pure newGrid) g0 =
    some (g0.set y ((List.range W).map (fun (x : Nat) => specNextCell s (x : Int) (y : Int)))) := by
  have hylt : y < g0.length := (List.getElem?_eq_some.mp hrow).1
  apply foldlM_fill_row W _ _ g0 y (List.replicate W 0) hrow (by simp)
  intro k row hk hl hrest
  have hk0 : row[k]? = some 0 := by
    rw [hrest k (le_refl k)]; simp [hk]
  have hget : (g0.set y row)[y]? = some row := by simp [hylt]
  have hw : writeCell (g0.set y row) (k : Int) (y : Int) 1 =
      some (g0.set y (row.set k 1)) := by
    rw [writeCell_natCast _ k y 1 row hget (by omega)]
    simp
  rw [countNeighbours_eq_spec s h]
  simp only [Option.bind_eq_bind, Option.some_bind]
  rcases readCell_wellFormed s h (k : Int) (y : Int) (by omega) (by omega) (by omega) hy
    with h0 | h1
  · rw [h0]
    simp only [Option.some_bind]
    by_cases h3 : specNeighbourCount s (k : Int) (y : Int) = 3
    · simp [specNextCell, h0, h3, hw]
    · have h3' : ¬ ((specNeighbourCount s (k : Int) (y : Int) : Int) = 3) := by
        intro hc; exact h3 (by exact_mod_cast hc)
      simp [specNextCell, h0, h3, h3', set_eq_self_of_getElem? row k 0 hk0]
  · rw [h1]
    simp only [Option.some_bind]
    by_cases h23 : specNeighbourCount s (k : Int) (y : Int) = 2 ∨
        specNeighbourCount s (k : Int) (y : Int) = 3
    · have h23' : (specNeighbourCount s (k : Int) (y : Int) : Int) = 2 ∨
          (specNeighbourCount s (k : Int) (y : Int) : Int) = 3 := by
        rcases h23 with a | a
        · left; exact_mod_cast a
        · right; exact_mod_cast a
      simp [specNextCell, h1, h23, h23', hw]
    · have h23' : ¬ ((specNeighbourCount s (k : Int) (y : Int) : Int) = 2 ∨
          (specNeighbourCount s (k : Int) (y : Int) : Int) = 3) := by
        intro hc
        apply h23
        rcases hc with a | a
        · left; exact_mod_cast a
        · right; exact_mod_cast a
      simp [specNextCell, h1, h23, h23', set_eq_self_of_getElem? row k 0 hk0]

/-- On a well-formed state `updateGrid` does not fault, and the new grid holds the
specification's next value in every cell. -/
theorem updateGrid_eq (s : State) (h : WellFormed s) :
    updateGrid s = some { s with
      grid := tabulate s.width.toNat s.height.toNat (specNextCell s),
      generation := wrapInt (s.generation + 1) } := by
  obtain ⟨H, hH⟩ : ∃ H : Nat, s.height = (H : Int) := ⟨s.grid.length, h.1.1.symm⟩
  have hloop : (upto (H : Int)).foldlM (fun newGrid y => do
      let row ← make s.width (0 : Int)
      let newGrid ← assign newGrid y row
      (upto s.width).foldlM (fun newGrid x => do
        let neighbors ← countNeighbours s x y
        let c ← readCell s.grid x y
        if c = 1 ∧ (neighbors = 2 ∨ neighbors = 3) then writeCell newGrid x y 1
        else if c = 0 ∧ neighbors = 3 then writeCell newGrid x y 1
        else pure newGrid) newGrid) (List.replicate H ([] : List Int)) =
      some (tabulate s.width.toNat H (specNextCell s)) := by
    apply foldlM_fill H _ _ (List.replicate H []) (by simp)
    intro k xs hk hl _
    have hw : 0 ≤ s.width := width_nonneg_of_rect _ _ _ h.1 (by omega)
    obtain ⟨W, hW⟩ := Int.eq_ofNat_of_zero_le hw
    have hWn : s.width.toNat = W := by omega
    rw [hW, make_natCast]
    simp only [Option.bind_eq_bind, Option.some_bind]
    rw [assign_natCast _ _ _ (by omega)]
    simp only [Option.some_bind]
    have := updateGrid_row s h W hW (xs.set k (List.replicate W 0)) k (by omega)
      (by simp [hl, hk])
    simp only [Option.bind_eq_bind] at this
    rw [this]
    simp
  simp only [Option.bind_eq_bind] at hloop
  unfold updateGrid
  rw [hH, make_natCast]
  simp only [Option.bind_eq_bind, Option.some_bind, List.length_replicate]
  rw [hloop]
  simp

theorem wellFormed_updateGrid (s : State) (h : WellFormed s) :
    WellFormed { s with
      grid := tabulate s.width.toNat s.height.toNat (specNextCell s),
      generation := wrapInt (s.generation + 1) } := by
  have hh : 0 ≤ s.height := by have := h.1.1; omega
  refine ⟨⟨?_, ?_⟩, ?_⟩
  · have := (rect_tabulate s.width.toNat s.height.toNat (specNextCell s)).1
    simp only [this]; omega
  · intro row hrow
    have hlen := (rect_tabulate s.width.toNat s.height.toNat (specNextCell s)).1
    have hpos : 0 < s.height := by
      have : 0 < (tabulate s.width.toNat s.height.toNat (specNextCell s)).length :=
        List.length_pos_of_mem hrow
      omega
    have hw := width_nonneg_of_rect _ _ _ h.1 hpos
    have := (rect_tabulate s.width.toNat s.height.toNat (specNextCell s)).2 row hrow
    simp only [this]; omega
  · apply binary_tabulate
    intro x y
    unfold specNextCell
    split <;> simp

/-- C1: on every well-formed grid (`height` rows of `width` cells, each 0 or 1) one
`updateGrid` does not fault, keeps the grid well-formed, and every cell `(x, y)` of the
new grid is 1 if and only if, in the old grid, the cell was 1 with 2 or 3 live
neighbours or it was 0 with exactly 3 live neighbours; the neighbour count computed
by `countNeighbours` is the number of live cells among the adjacent positions inside
the grid (no wraparound). -/
theorem C1_updateGrid_rule (s : State) (h : WellFormed s) :
    ∃ t, updateGrid s = some t ∧ WellFormed t ∧ t.width = s.width ∧ t.height = s.height ∧
      ∀ x y : Int, 0 ≤ x → x < s.width → 0 ≤ y → y < s.height →
        countNeighbours s x y = some (specNeighbourCount s x y : Int) ∧
        (readCell t.grid x y = some 0 ∨ readCell t.grid x y = some 1) ∧
        (readCell t.grid x y = some 1 ↔
          (readCell s.grid x y = some 1 ∧
            (specNeighbourCount s x y = 2 ∨ specNeighbourCount s x y = 3)) ∨
          (readCell s.grid x y = some 0 ∧ specNeighbourCount s x y = 3)) := by
  refine ⟨_, updateGrid_eq s h, wellFormed_updateGrid s h, rfl, rfl, ?_⟩
  intro x y hx hxw hy hyh
  have hread : readCell (tabulate s.width.toNat s.height.toNat (specNextCell s)) x y =
      some (specNextCell s x y) :=
    readCell_tabulate _ _ _ x y hx (by omega) hy (by omega)
  refine ⟨countNeighbours_eq_spec s h x y, ?_, ?_⟩
  · exact readCell_wellFormed _ (wellFormed_updateGrid s h) x y hx hxw hy hyh
  · show readCell (tabulate s.width.toNat s.height.toNat (specNextCell s)) x y = some 1 ↔ _
    rw [hread]
    unfold specNextCell
    split
    · rename_i hc
      simp only [true_iff]
      exact hc
    · rename_i hc
      constructor
      · intro h01
        simp at h01
      · intro hc'
        exact absurd hc' hc

/-- C1 at the sample state: the vertical blinker. -/
theorem C1_updateGrid_rule_witness :
    WellFormed sampleState ∧
    ∃ t, updateGrid sampleState = some t ∧ WellFormed t ∧ t.width = sampleState.width ∧
      t.height = sampleState.height ∧
      ∀ x y : Int, 0 ≤ x → x < sampleState.width → 0 ≤ y → y < sampleState.height →
        countNeighbours sampleState x y = some (specNeighbourCount sampleState x y : Int) ∧
        (readCell t.grid x y = some 0 ∨ readCell t.grid x y = some 1) ∧
        (readCell t.grid x y = some 1 ↔
          (readCell sampleState.grid x y = some 1 ∧
            (specNeighbourCount sampleState x y = 2 ∨
              specNeighbourCount sampleState x y = 3)) ∨
          (readCell sampleState.grid x y = some 0 ∧
            specNeighbourCount sampleState x y = 3)) :=
  ⟨by decide, C1_updateGrid_rule sampleState (by decide)⟩

/-! ## Population -/

/-- A loop that adds `v i` to an integer accumulator at iteration `i` adds the sum. -/
theorem foldlM_sum (n : Nat) (body : Int → Int → Option Int) (v : Nat → Int)
    (hbody : ∀ (i : Nat) (c : Int), i < n → body c (i : Int) = some (c + v i)) (c0 : Int) :
    (upto (n : Int)).foldlM body c0 = some (c0 + ∑ i in Finset.range n, v i) := by
  obtain ⟨r, hr, hP⟩ := foldlM_upto_inv
    (fun k c => c = c0 + ∑ i in Finset.range k, v i) n body c0 (by simp)
    (by
      intro i c hi hc
      refine ⟨c + v i, hbody i c hi, ?_⟩
      show c + v i = c0 + ∑ j in Finset.range (i + 1), v j
      rw [Finset.sum_range_succ, hc]; ring)
  rw [hr, hP]

/-- On a well-formed state `getPopulation` does not fault and returns the number of
positions that hold a 1. -/
theorem getPopulation_eq_spec (s : State) (h : WellFormed s) :
    getPopulation s = some (specPopulation s : Int) := by
  have hh : 0 ≤ s.height := by have := h.1.1; omega
  obtain ⟨H, hH⟩ := Int.eq_ofNat_of_zero_le hh
  have key : ∀ (y : Nat), y < H → ∀ c : Int,
      (upto s.width).foldlM (fun count x => do
        let c ← readCell s.grid x y
        pure (count + c)) c =
      some (c + ∑ x in Finset.range s.width.toNat,
        (if readCell s.grid (x : Int) (y : Int) = some 1 then 1 else 0 : Int)) := by
    intro y hy c
    rw [upto_toNat]
    apply foldlM_sum
    intro i c' hi
    rcases readCell_wellFormed s h (i : Int) (y : Int) (by omega) (by omega) (by omega)
      (by omega) with h0 | h1
    · simp [h0]
    · simp [h1]
  unfold getPopulation specPopulation
  rw [hH]
  rw [foldlM_sum H _ (fun y => ∑ x in Finset.range s.width.toNat,
    (if readCell s.grid (x : Int) (y : Int) = some 1 then 1 else 0 : Int))
    (fun i c hi => key i hi c) 0]
  rw [Finset.card_filter, Finset.sum_product]
  simp

/-! ## Rendering -/

theorem join_snoc (l : List String) (a : String) :
    String.join (l ++ [a]) = String.join l ++ a := by
  simp [String.join, List.foldl_append]

theorem foldl_append_data (l : List String) (acc : String) :
    (l.foldl (fun r s => r ++ s) acc).data = acc.data ++ l.flatMap String.data := by
  induction l generalizing acc with
  | nil => simp
  | cons a t ih => simp [ih, String.data_append]

theorem data_join (l : List String) : (String.join l).data = l.flatMap String.data := by
  simp [String.join, foldl_append_data]

theorem map_range_getD {α β : Type} (l : List α) (d : α) (f : α → β) :
    (List.range l.length).map (fun i => f (l[i]?.getD d)) = l.map f := by
  apply List.ext_getElem?
  intro i
  by_cases hi : i < l.length
  · simp [List.getElem?_range, hi, List.getElem?_eq_getElem hi]
  · have h1 : ((List.range l.length).map (fun i => f (l[i]?.getD d))).length ≤ i := by
      simp; omega
    have h2 : (l.map f).length ≤ i := by simp; omega
    rw [List.getElem?_eq_none h1, List.getElem?_eq_none h2]

/-- A loop that appends `v i` to a string accumulator at iteration `i` appends the
concatenation. -/
theorem foldlM_concat (n : Nat) (body : String → Int → Option String) (v : Nat → String)
    (hbody : ∀ (i : Nat) (out : String), i < n → body out (i : Int) = some (out ++ v i))
    (out0 : String) :
    (upto (n : Int)).foldlM body out0 =
      some (out0 ++ String.join ((List.range n).map v)) := by
  obtain ⟨r, hr, hP⟩ := foldlM_upto_inv
    (fun k out => out = out0 ++ String.join ((List.range k).map v)) n body out0
    (by simp [String.join])
    (by
      intro i out hi hc
      refine ⟨out ++ v i, hbody i out hi, ?_⟩
      show out ++ v i = out0 ++ String.join ((List.range (i + 1)).map v)
      rw [List.range_succ, List.map_append, List.map_singleton, join_snoc, hc,
        String.append_assoc])
  rw [hr, hP]

/-- On a rectangular grid `getGridAsString` does not fault and returns the rows in
order, each followed by a newline. -/
theorem getGridAsString_eq (s : State) (h : Rect s.grid s.width s.height) :
    getGridAsString s = some (terminatedRows s.grid) := by
  have hh : 0 ≤ s.height := by have := h.1; omega
  obtain ⟨H, hH⟩ := Int.eq_ofNat_of_zero_le hh
  have hlen : s.grid.length = H := by have := h.1; omega
  have key : ∀ (y : Nat), y < H → ∀ out : String,
      ((upto s.width).foldlM (fun out x => do
        let c ← readCell s.grid x y
        pure (if c = 1 then out ++ "█" else out ++ " ")) out).bind
        (fun out => some (out ++ "\n")) =
      some (out ++ (renderRow (s.grid[y]?.getD []) ++ "\n")) := by
    intro y hy out
    have hyl : y < s.grid.length := by omega
    have hrow : ((s.grid[y]).length : Int) = s.width := h.2 _ (List.getElem_mem hyl)
    have hW : s.width.toNat = (s.grid[y]).length := by omega
    rw [upto_toNat, hW]
    rw [foldlM_concat (s.grid[y]).length _
      (fun x => glyph ((s.grid[y])[x]?.getD 0)) _ out]
    · simp only [Option.some_bind]
      rw [map_range_getD (s.grid[y]) 0 glyph, String.append_assoc]
      simp [renderRow, List.getElem?_eq_getElem hyl]
    · intro i out' hi
      rw [readCell_natCast]
      simp only [List.getElem?_eq_getElem hyl, List.getElem?_eq_getElem hi,
        Option.some_bind, Option.bind_eq_bind, Option.getD_some, Option.pure_def, glyph]
      split <;> rfl
  unfold getGridAsString terminatedRows
  rw [hH]
  rw [foldlM_concat H _ (fun y => renderRow (s.grid[y]?.getD []) ++ "\n")
    (fun i out hi => key i hi out) ""]
  rw [← hlen, map_range_getD s.grid [] (fun row => renderRow row ++ "\n")]
  simp

/-! ## Cell writes -/

/-- A write that does not fault hits an existing cell and replaces exactly that cell. -/
theorem writeCell_inv (g g' : Grid) (x y v : Int) (h : writeCell g x y v = some g') :
    ∃ (xn yn : Nat) (row : List Int), x = (xn : Int) ∧ y = (yn : Int) ∧
      g[yn]? = some row ∧ xn < row.length ∧ g' = g.set yn (row.set xn v) := by
  unfold writeCell index assign at h
  by_cases hy : 0 ≤ y
  · obtain ⟨yn, rfl⟩ := Int.eq_ofNat_of_zero_le hy
    simp only [hy, if_true, Int.toNat_ofNat, Option.bind_eq_bind] at h
    cases hrow : g[yn]? with
    | none => simp [hrow] at h
    | some row =>
      simp only [hrow, Option.some_bind] at h
      by_cases hx : 0 ≤ x ∧ x < (row.length : Int)
      · obtain ⟨xn, rfl⟩ := Int.eq_ofNat_of_zero_le hx.1
        have hylt : yn < g.length := (List.getElem?_eq_some.mp hrow).1
        simp [hx.2, hylt] at h
        exact ⟨xn, yn, row, rfl, rfl, hrow, by omega, h.symm⟩
      · simp [hx] at h
  · simp [hy] at h

/-- A write inside a rectangular grid does not fault. -/
theorem writeCell_of_rect (g : Grid) (w h x y v : Int) (hr : Rect g w h)
    (hx : 0 ≤ x) (hxw : x < w) (hy : 0 ≤ y) (hyh : y < h) :
    ∃ g', writeCell g x y v = some g' := by
  obtain ⟨row, c, hrow, hlen, _, _⟩ := readCell_of_rect g w h x y hr hx hxw hy hyh
  obtain ⟨xn, rfl⟩ := Int.eq_ofNat_of_zero_le hx
  obtain ⟨yn, rfl⟩ := Int.eq_ofNat_of_zero_le hy
  simp only [Int.toNat_ofNat] at hrow
  exact ⟨_, writeCell_natCast g xn yn v row hrow (by omega)⟩

theorem rect_writeCell (g g' : Grid) (w h x y v : Int) (hr : Rect g w h)
    (hw : writeCell g x y v = some g') : Rect g' w h := by
  obtain ⟨xn, yn, row, rfl, rfl, hrow, hx, rfl⟩ := writeCell_inv g g' x y v hw
  refine ⟨by simpa using hr.1, ?_⟩
  intro r hr'
  rcases List.mem_or_eq_of_mem_set hr' with hmem | heq
  · exact hr.2 r hmem
  · subst heq
    simpa using hr.2 row (List.getElem?_mem hrow)

theorem binary_writeCell (g g' : Grid) (x y v : Int) (hb : Binary g) (hv : v = 0 ∨ v = 1)
    (hw : writeCell g x y v = some g') : Binary g' := by
  obtain ⟨xn, yn, row, rfl, rfl, hrow, hx, rfl⟩ := writeCell_inv g g' x y v hw
  intro r hr' c hc
  rcases List.mem_or_eq_of_mem_set hr' with hmem | heq
  · exact hb r hmem c hc
  · subst heq
    rcases List.mem_or_eq_of_mem_set hc with hmem | heq
    · exact hb row (List.getElem?_mem hrow) c hmem
    · subst heq; exact hv

/-- After a write the written cell holds the value and every other read is unchanged. -/
theorem readCell_writeCell (g g' : Grid) (x y v x' y' : Int)
    (hw : writeCell g x y v = some g') :
    readCell g' x' y' = if x' = x ∧ y' = y then some v else readCell g x' y' := by
  obtain ⟨xn, yn, row, rfl, rfl, hrow, hx, rfl⟩ := writeCell_inv g g' x y v hw
  have hylt : yn < g.length := (List.getElem?_eq_some.mp hrow).1
  by_cases hy' : 0 ≤ y'
  · obtain ⟨yn', rfl⟩ := Int.eq_ofNat_of_zero_le hy'
    by_cases hx' : 0 ≤ x'
    · obtain ⟨xn', rfl⟩ := Int.eq_ofNat_of_zero_le hx'
      rw [readCell_natCast, readCell_natCast, List.getElem?_set]
      by_cases hyy : yn = yn'
      · subst hyy
        by_cases hxx : xn = xn'
        · subst hxx
          simp [hylt, hx]
        · have hne : ¬ ((xn' : Int) = (xn : Int)) := by omega
          simp [hylt, hrow, List.getElem?_set, hxx, hne]
      · have hne : ¬ ((yn' : Int) = (yn : Int)) := by omega
        simp [hyy, hne]
    · have hne : ¬ (x' = (xn : Int)) := by omega
      simp [readCell, index, hx', hne]
  · have hne : ¬ (y' = (yn : Int)) := by omega
    simp [readCell, index, hy', hne]

/-- Stamping positions that lie inside a rectangular grid does not fault, keeps the
shape, and afterwards exactly the stamped positions read 1 in addition to the old
contents. -/
theorem stamp_spec (cells : List (Int × Int)) (g : Grid) (w h : Int) (hr : Rect g w h)
    (hin : ∀ p ∈ cells, 0 ≤ p.1 ∧ p.1 < w ∧ 0 ≤ p.2 ∧ p.2 < h) :
    ∃ g', stamp g cells = some g' ∧ Rect g' w h ∧
      ∀ x y : Int, readCell g' x y = if (x, y) ∈ cells then some 1 else readCell g x y := by
  induction cells generalizing g with
  | nil => exact ⟨g, rfl, hr, by simp⟩
  | cons p rest ih =>
    obtain ⟨h1, h2, h3, h4⟩ := hin p (List.mem_cons_self _ _)
    obtain ⟨g1, hg1⟩ := writeCell_of_rect g w h p.1 p.2 1 hr h1 h2 h3 h4
    obtain ⟨g', hg', hr', hread⟩ := ih g1 (rect_writeCell g g1 w h _ _ _ hr hg1)
      (fun q hq => hin q (List.mem_cons_of_mem _ hq))
    refine ⟨g', ?_, hr', ?_⟩
    · simp only [stamp, List.foldlM_cons, hg1, Option.bind_eq_bind, Option.some_bind]
      exact hg'
    · intro x y
      rw [hread x y, readCell_writeCell g g1 p.1 p.2 1 x y hg1]
      by_cases hmem : (x, y) ∈ rest
      · simp [hmem]
      · by_cases hp : x = p.1 ∧ y = p.2
        · have : (x, y) = p := by
            obtain ⟨a, b⟩ := hp
            exact Prod.ext a b
          simp [hmem, hp, this]
        · have : ¬ ((x, y) = p) := by
            intro hc; apply hp; rw [← hc]; exact ⟨rfl, rfl⟩
          simp [hmem, hp, this]

theorem binary_stamp (cells : List (Int × Int)) (g g' : Grid) (hb : Binary g)
    (hs : stamp g cells = some g') : Binary g' := by
  induction cells generalizing g with
  | nil =>
    simp [stamp] at hs
    subst hs; exact hb
  | cons p rest ih =>
    simp only [stamp, List.foldlM_cons, Option.bind_eq_bind, Option.bind_eq_some] at hs
    obtain ⟨g1, hg1, hrest⟩ := hs
    exact ih g1 (binary_writeCell g g1 _ _ 1 hb (Or.inr rfl) hg1) hrest

theorem rect_stamp (cells : List (Int × Int)) (g g' : Grid) (w h : Int) (hr : Rect g w h)
    (hs : stamp g cells = some g') : Rect g' w h := by
  induction cells generalizing g with
  | nil =>
    simp [stamp] at hs
    subst hs; exact hr
  | cons p rest ih =>
    simp only [stamp, List.foldlM_cons, Option.bind_eq_bind, Option.bind_eq_some] at hs
    obtain ⟨g1, hg1, hrest⟩ := hs
    exact ih g1 (rect_writeCell g g1 w h _ _ 1 hr hg1) hrest

/-! ## Clearing and seeding -/

/-- On a rectangular grid `clearGrid` does not fault and leaves every cell 0. -/
theorem clearCells_eq (g : Grid) (w h : Int) (hr : Rect g w h) :
    clearCells g w h = some (tabulate w.toNat h.toNat (fun _ _ => 0)) := by
  have hh : 0 ≤ h := by have := hr.1; omega
  obtain ⟨H, rfl⟩ := Int.eq_ofNat_of_zero_le hh
  have hlen : g.length = H := by have := hr.1; omega
  unfold clearCells tabulate
  simp only [Int.toNat_ofNat]
  apply foldlM_fill H _ _ g hlen
  intro k xs hk hl hrest
  have hw : 0 ≤ w := width_nonneg_of_rect _ _ _ hr (by omega)
  obtain ⟨W, rfl⟩ := Int.eq_ofNat_of_zero_le hw
  simp only [Int.toNat_ofNat]
  have hkg : k < g.length := by omega
  have hrow : xs[k]? = some g[k] := by
    rw [hrest k (le_refl k)]; exact List.getElem?_eq_getElem hkg
  have hrl : (g[k]).length = W := by
    have := hr.2 _ (List.getElem_mem hkg); omega
  have := foldlM_fill_row W (fun g x => writeCell g x (k : Int) 0) (fun _ => (0 : Int))
    xs k g[k] hrow hrl
    (by
      intro j row hj hjl _
      have hget : (xs.set k row)[k]? = some row := by simp [hl, hk]
      show writeCell (xs.set k row) (j : Int) (k : Int) 0 = some (xs.set k (row.set j 0))
      rw [writeCell_natCast _ j k 0 row hget (by omega)]
      simp)
  rw [this]

theorem clearGrid_eq (s : State) (hr : Rect s.grid s.width s.height) :
    clearGrid s = some { s with
      grid := tabulate s.width.toNat s.height.toNat (fun _ _ => 0) } := by
  simp [clearGrid, clearCells_eq s.grid s.width s.height hr]

theorem shaped_writeCell (g g' : Grid) (w h k : Nat) (x y v : Int) (hs : Shaped g w h k)
    (hv : v = 0 ∨ v = 1) (hw : writeCell g x y v = some g') : Shaped g' w h k := by
  obtain ⟨xn, yn, row, rfl, rfl, hrow, hx, rfl⟩ := writeCell_inv g g' x y v hw
  refine ⟨by simpa using hs.1, ?_⟩
  intro i r hir
  rw [List.getElem?_set] at hir
  by_cases hyi : yn = i
  · subst hyi
    have hylt : yn < g.length := (List.getElem?_eq_some.mp hrow).1
    simp [hylt] at hir
    subst hir
    refine ⟨fun hlt => by simpa using (hs.2 yn row hrow).1 hlt, ?_⟩
    intro c hc
    rcases List.mem_or_eq_of_mem_set hc with hmem | heq
    · exact (hs.2 yn row hrow).2 c hmem
    · subst heq; exact hv
  · simp [hyi] at hir
    exact hs.2 i r hir

/-- The random fill of one allocated row does not fault and keeps the shape. -/
theorem randomRow_shaped (draws : Nat → Bool) (w h k : Nat) (y : Nat) (hy : y < k)
    (hyh : y < h) (g : Grid) (pos : Nat) (hs : Shaped g w h k) :
    ∃ r, randomRow draws (w : Int) (y : Int) (g, pos) = some r ∧ Shaped r.1 w h k ∧
      r.2 = pos + w := by
  obtain ⟨r, hr, hP⟩ := foldlM_upto_inv
    (fun j (acc : Grid × Nat) => Shaped acc.1 w h k ∧ acc.2 = pos + j) w
    (fun (acc : Grid × Nat) x =>
      if draws acc.2 then do
        let g ← writeCell acc.1 x (y : Int) 1
        pure (g, acc.2 + 1)
      else pure (acc.1, acc.2 + 1)) (g, pos) ⟨hs, rfl⟩
    (by
      rintro j ⟨g1, p1⟩ hj ⟨hs1, hp1⟩
      simp only at hs1 hp1
      by_cases hd : draws p1
      · have hyl : y < g1.length := by have := hs1.1; omega
        have hrow : g1[y]? = some g1[y] := List.getElem?_eq_getElem hyl
        have hlen : (g1[y]).length = w := (hs1.2 y _ hrow).1 hy
        have hw := writeCell_natCast g1 j y 1 g1[y] hrow (by omega)
        refine ⟨(g1.set y ((g1[y]).set j 1), p1 + 1), ?_, ?_, ?_⟩
        · simp [hd, hw]
        · exact shaped_writeCell g1 _ w h k _ _ 1 hs1 (Or.inr rfl) hw
        · simp only; omega
      · refine ⟨(g1, p1 + 1), ?_, hs1, ?_⟩
        · simp [hd]
        · simp only; omega)
  exact ⟨r, hr, hP.1, hP.2⟩

theorem rect_of_shaped (g : Grid) (w h : Nat) (hs : Shaped g w h h) :
    Rect g (w : Int) (h : Int) ∧ Binary g := by
  refine ⟨⟨by have := hs.1; omega, ?_⟩, ?_⟩
  · intro row hrow
    obtain ⟨i, hi, rfl⟩ := List.getElem_of_mem hrow
    have := (hs.2 i _ (List.getElem?_eq_getElem hi)).1 (by have := hs.1; omega)
    omega
  · intro row hrow c hc
    obtain ⟨i, hi, rfl⟩ := List.getElem_of_mem hrow
    exact (hs.2 i _ (List.getElem?_eq_getElem hi)).2 c hc

theorem shaped_of_wellFormed (g : Grid) (w h : Nat) (hr : Rect g (w : Int) (h : Int))
    (hb : Binary g) : Shaped g w h h := by
  refine ⟨by have := hr.1; omega, ?_⟩
  intro i row hrow
  have hmem : row ∈ g := List.getElem?_mem hrow
  exact ⟨fun _ => by have := hr.2 row hmem; omega, hb row hmem⟩

/-- For a non-negative height (and a non-negative width when there is a row to
allocate) `initGrid` does not fault, whatever the old grid was; the new grid is
well-formed at the stored dimensions, `generation` is 0, and nothing else changes
except the number of random draws consumed. -/
theorem initGrid_spec (draws : Nat → Bool) (s : State) (hh : 0 ≤ s.height)
    (hw : 0 < s.height → 0 ≤ s.width) :
    ∃ g, initGrid draws s = some { s with
        grid := g, rngPos := s.rngPos + s.height.toNat * s.width.toNat, generation := 0 } ∧
      Rect g s.width s.height ∧ Binary g := by
  obtain ⟨H, hH⟩ := Int.eq_ofNat_of_zero_le hh
  by_cases hH0 : H = 0
  · subst hH0
    refine ⟨[], ?_, ⟨by simp [hH], by simp⟩, by intro row hrow; simp at hrow⟩
    unfold initGrid
    simp [hH, upto, make]
  obtain ⟨W, hW⟩ := Int.eq_ofNat_of_zero_le (hw (by omega))
  obtain ⟨r, hr, hP⟩ := foldlM_upto_inv
    (fun k (acc : Grid × Nat) => Shaped acc.1 W H k ∧ acc.2 = s.rngPos + k * W) H
    (fun (acc : Grid × Nat) y => do
      let row ← make s.width (0 : Int)
      let g ← assign acc.1 y row
      randomRow draws s.width y (g, acc.2)) (List.replicate H ([] : List Int), s.rngPos)
    ⟨⟨by simp, by
      intro i row hrow
      rw [List.getElem?_replicate] at hrow
      split at hrow
      · simp at hrow; subst hrow; simp
      · simp at hrow⟩, by simp⟩
    (by
      rintro k ⟨g1, p1⟩ hk ⟨hs1, hp1⟩
      simp only at hs1 hp1
      have hkl : k < g1.length := by have := hs1.1; omega
      have hshape : Shaped (g1.set k (List.replicate W (0 : Int))) W H (k + 1) := by
        refine ⟨by simpa using hs1.1, ?_⟩
        intro i row hrow
        rw [List.getElem?_set] at hrow
        by_cases hki : k = i
        · subst hki
          simp [hkl] at hrow
          subst hrow
          exact ⟨fun _ => by simp, by
            intro c hc
            left
            exact (List.mem_replicate.mp hc).2⟩
        · simp [hki] at hrow
          exact ⟨fun hlt => (hs1.2 i row hrow).1 (by omega), (hs1.2 i row hrow).2⟩
      obtain ⟨r, hr, hsr, hpr⟩ := randomRow_shaped draws W H (k + 1) k (by omega) hk
        (g1.set k (List.replicate W (0 : Int))) p1 hshape
      refine ⟨r, ?_, hsr, ?_⟩
      · rw [hW, make_natCast]
        simp only [Option.bind_eq_bind, Option.some_bind]
        rw [assign_natCast _ _ _ hkl]
        simp only [Option.some_bind]
        exact hr
      · rw [hpr, hp1]; ring)
  obtain ⟨hsh, hpos⟩ := hP
  obtain ⟨hrect, hbin⟩ := rect_of_shaped r.1 W H hsh
  refine ⟨r.1, ?_, by rw [hW, hH]; exact hrect, hbin⟩
  unfold initGrid
  rw [hH, make_natCast]
  simp only [Option.bind_eq_bind, Option.some_bind] at hr ⊢
  rw [hr]
  simp [hpos, hW]

/-! ## Patterns -/

theorem loadGlider_eq_stamp (g : Grid) (cx cy : Int) :
    loadGlider g (cx - 1) (cy - 1) = stamp g (specPatternCells "glider" cx cy) := by
  simp [loadGlider, stamp, specPatternCells]
  ring_nf

theorem loadBlinker_eq_stamp (g : Grid) (cx cy : Int) :
    loadBlinker g (cx - 1) cy = stamp g (specPatternCells "blinker" cx cy) := by
  simp [loadBlinker, stamp, specPatternCells]
  ring_nf

theorem loadToad_eq_stamp (g : Grid) (cx cy : Int) :
    loadToad g (cx - 2) (cy - 1) = stamp g (specPatternCells "toad" cx cy) := by
  simp [loadToad, stamp, specPatternCells]
  ring_nf

theorem loadBeacon_eq_stamp (g : Grid) (cx cy : Int) :
    loadBeacon g (cx - 2) (cy - 2) = stamp g (specPatternCells "beacon" cx cy) := by
  simp [loadBeacon, stamp, specPatternCells]
  ring_nf

/-- For every pattern name other than `random`, on a rectangular grid `loadPattern`
clears the grid, zeroes `generation` and stamps the cells of the named pattern (none
for an unknown name) around the centre. -/
theorem loadPattern_eq_stamp (draws : Nat → Bool) (s : State) (p : String)
    (hr : Rect s.grid s.width s.height) (hp : p ≠ "random") :
    loadPattern draws s p =
      (stamp (tabulate s.width.toNat s.height.toNat (fun _ _ => 0))
        (specPatternCells p (Int.tdiv s.width 2) (Int.tdiv s.height 2))).map
        (fun g => { s with grid := g, generation := 0 }) := by
  unfold loadPattern
  rw [clearGrid_eq s hr]
  simp only [Option.bind_eq_bind, Option.some_bind]
  by_cases h1 : p = "glider"
  · subst h1
    simp only [if_true, loadGlider_eq_stamp]
    cases stamp (tabulate s.width.toNat s.height.toNat (fun _ _ => 0))
      (specPatternCells "glider" (Int.tdiv s.width 2) (Int.tdiv s.height 2)) <;> rfl
  · by_cases h2 : p = "blinker"
    · subst h2
      simp only [if_neg h1, if_true, loadBlinker_eq_stamp]
      cases stamp (tabulate s.width.toNat s.height.toNat (fun _ _ => 0))
        (specPatternCells "blinker" (Int.tdiv s.width 2) (Int.tdiv s.height 2)) <;> rfl
    · by_cases h3 : p = "toad"
      · subst h3
        simp only [if_neg h1, if_neg h2, if_true, loadToad_eq_stamp]
        cases stamp (tabulate s.width.toNat s.height.toNat (fun _ _ => 0))
          (specPatternCells "toad" (Int.tdiv s.width 2) (Int.tdiv s.height 2)) <;> rfl
      · by_cases h4 : p = "beacon"
        · subst h4
          simp only [if_neg h1, if_neg h2, if_neg h3, if_true, loadBeacon_eq_stamp]
          cases stamp (tabulate s.width.toNat s.height.toNat (fun _ _ => 0))
            (specPatternCells "beacon" (Int.tdiv s.width 2) (Int.tdiv s.height 2)) <;> rfl
        · simp [if_neg h1, if_neg h2, if_neg h3, if_neg h4, if_neg hp, specPatternCells,
            stamp, h1, h2, h3, h4, hp]

theorem rect_zeros (s : State) (hr : Rect s.grid s.width s.height) :
    Rect (tabulate s.width.toNat s.height.toNat (fun _ _ => 0)) s.width s.height := by
  have hh : 0 ≤ s.height := by have := hr.1; omega
  have ht := rect_tabulate s.width.toNat s.height.toNat (fun _ _ => 0)
  refine ⟨by have := ht.1; omega, ?_⟩
  intro row hrow
  have hpos : 0 < s.height := by
    have : 0 < (tabulate s.width.toNat s.height.toNat (fun _ _ => 0)).length :=
      List.length_pos_of_mem hrow
    have := ht.1
    omega
  have hw := width_nonneg_of_rect _ _ _ hr hpos
  have := ht.2 row hrow
  omega

theorem binary_zeros (w h : Nat) : Binary (tabulate w h (fun _ _ => 0)) :=
  binary_tabulate w h _ (fun _ _ => Or.inl rfl)

/-- On a rectangular grid the `random` pattern does not fault and leaves a well-formed
grid of the same dimensions with `generation` 0. -/
theorem loadPattern_random (draws : Nat → Bool) (s : State)
    (hr : Rect s.grid s.width s.height) :
    ∃ g pos, loadPattern draws s "random" =
        some { s with grid := g, rngPos := pos, generation := 0 } ∧
      Rect g s.width s.height ∧ Binary g := by
  have hh : 0 ≤ s.height := by have := hr.1; omega
  obtain ⟨H, hH⟩ := Int.eq_ofNat_of_zero_le hh
  by_cases hH0 : H = 0
  · subst hH0
    refine ⟨[], s.rngPos, ?_, ?_, ?_⟩
    · unfold loadPattern
      rw [clearGrid_eq s hr]
      simp [hH, upto, tabulate]
    · exact ⟨by simp [hH], by simp⟩
    · intro row hrow; simp at hrow
  · have hw : 0 ≤ s.width := width_nonneg_of_rect _ _ _ hr (by omega)
    obtain ⟨W, hW⟩ := Int.eq_ofNat_of_zero_le hw
    have hz : Shaped (tabulate W H (fun _ _ => 0)) W H H :=
      shaped_of_wellFormed _ W H (rect_tabulate W H _) (binary_zeros W H)
    obtain ⟨r, hr', hP⟩ := foldlM_upto_inv
      (fun _ (acc : Grid × Nat) => Shaped acc.1 W H H) H
      (fun (acc : Grid × Nat) y => randomRow draws (W : Int) y acc)
      (tabulate W H (fun _ _ => 0), s.rngPos) hz
      (by
        rintro k ⟨g1, p1⟩ hk hs1
        obtain ⟨r, hr1, hs2, _⟩ := randomRow_shaped draws W H H k hk hk g1 p1 hs1
        exact ⟨r, hr1, hs2⟩)
    obtain ⟨hrect, hbin⟩ := rect_of_shaped r.1 W H hP
    refine ⟨r.1, r.2, ?_, by rw [hW, hH]; exact hrect, hbin⟩
    unfold loadPattern
    rw [clearGrid_eq s hr]
    simp only [Option.bind_eq_bind, Option.some_bind, hW, hH, Int.toNat_ofNat]
    rw [hr']
    simp

/-- Whenever `loadPattern` returns on a rectangular grid, the result is a well-formed
grid of the same dimensions with `generation` 0, and only the grid, `generation` and
the consumed random draws differ from the state before. -/
theorem loadPattern_frame (draws : Nat → Bool) (s t : State) (p : String)
    (hr : Rect s.grid s.width s.height) (ht : loadPattern draws s p = some t) :
    WellFormed t ∧ t = { s with grid := t.grid, rngPos := t.rngPos, generation := 0 } := by
  by_cases hp : p = "random"
  · subst hp
    obtain ⟨g, pos, hg, hrect, hbin⟩ := loadPattern_random draws s hr
    rw [hg] at ht
    cases ht
    exact ⟨⟨hrect, hbin⟩, rfl⟩
  · rw [loadPattern_eq_stamp draws s p hr hp] at ht
    simp only [Option.map_eq_some'] at ht
    obtain ⟨g, hg, rfl⟩ := ht
    exact ⟨⟨rect_stamp _ _ g _ _ (rect_zeros s hr) hg,
      binary_stamp _ _ g (binary_zeros _ _) hg⟩, rfl⟩

/-- When the live cells of a grid are exactly the positions of a duplicate-free list
inside the grid, the population is the length of the list. -/
theorem specPopulation_of_cells (t : State) (cells : List (Int × Int)) (hnd : cells.Nodup)
    (hin : ∀ p ∈ cells, 0 ≤ p.1 ∧ p.1 < t.width ∧ 0 ≤ p.2 ∧ p.2 < t.height)
    (hread : ∀ x y : Int, 0 ≤ x → x < t.width → 0 ≤ y → y < t.height →
      readCell t.grid x y = some (if (x, y) ∈ cells then 1 else 0)) :
    specPopulation t = cells.length := by
  have hset : (Finset.range t.height.toNat ×ˢ Finset.range t.width.toNat).filter
      (fun p => readCell t.grid (p.2 : Int) (p.1 : Int) = some 1) =
      cells.toFinset.image (fun c => (c.2.toNat, c.1.toNat)) := by
    ext ⟨a, b⟩
    simp only [Finset.mem_filter, Finset.mem_product, Finset.mem_range, Finset.mem_image,
      List.mem_toFinset, Prod.mk.injEq]
    constructor
    · rintro ⟨⟨ha, hb⟩, hlive⟩
      rw [hread (b : Int) (a : Int) (by omega) (by omega) (by omega) (by omega)] at hlive
      by_cases hm : ((b : Int), (a : Int)) ∈ cells
      · exact ⟨((b : Int), (a : Int)), hm, by simp⟩
      · simp [hm] at hlive
    · rintro ⟨c, hc, hca, hcb⟩
      obtain ⟨h1, h2, h3, h4⟩ := hin c hc
      have hb : (b : Int) = c.1 := by omega
      have ha : (a : Int) = c.2 := by omega
      refine ⟨⟨by omega, by omega⟩, ?_⟩
      rw [hread (b : Int) (a : Int) (by omega) (by omega) (by omega) (by omega)]
      have : ((b : Int), (a : Int)) = c := by rw [hb, ha]
      rw [this]
      simp [hc]
  unfold specPopulation
  rw [hset, Finset.card_image_of_injOn, List.toFinset_card_of_nodup hnd]
  intro c hc d hd hcd
  simp only [Finset.mem_coe, List.mem_toFinset] at hc hd
  obtain ⟨h1, _, h3, _⟩ := hin c hc
  obtain ⟨h1', _, h3', _⟩ := hin d hd
  simp only [Prod.mk.injEq] at hcd
  exact Prod.ext (by omega) (by omega)

theorem specPatternCells_nodup (p : String) (cx cy : Int) :
    (specPatternCells p cx cy).Nodup := by
  unfold specPatternCells
  split_ifs <;> simp <;> omega

/-- For a grid of at least 4 x 4 every cell of every pattern lies inside the grid. -/
theorem specPatternCells_inside (p : String) (w h : Int) (hw : 4 ≤ w) (hh : 4 ≤ h) :
    ∀ c ∈ specPatternCells p (w / 2) (h / 2), 0 ≤ c.1 ∧ c.1 < w ∧ 0 ≤ c.2 ∧ c.2 < h := by
  intro c hc
  unfold specPatternCells at hc
  split_ifs at hc <;> simp at hc <;> rcases hc with rfl | hc <;>
    first
    | (simp only; omega)
    | (rcases hc with rfl | hc <;>
        first
        | (simp only; omega)
        | (rcases hc with rfl | hc <;>
            first
            | (simp only; omega)
            | (rcases hc with rfl | hc <;>
                first
                | (simp only; omega)
                | (rcases hc with rfl | hc <;>
                    first
                    | (simp only; omega)
                    | (rcases hc with rfl | hc <;>
                        first
                        | (simp only; omega)
                        | (rcases hc with rfl | rfl <;> simp only <;> omega))))))

/-! ## What each operation changes -/

theorem initGrid_inv (draws : Nat → Bool) (s t : State) (h : initGrid draws s = some t) :
    ∃ g pos, t = { s with grid := g, rngPos := pos, generation := 0 } := by
  unfold initGrid at h
  simp only [Option.bind_eq_bind, Option.bind_eq_some, Option.pure_def, Option.some.injEq] at h
  obtain ⟨_, _, r, _, rfl⟩ := h
  exact ⟨r.1, r.2, rfl⟩

theorem updateGrid_inv (s t : State) (h : updateGrid s = some t) :
    ∃ g, t = { s with grid := g, generation := wrapInt (s.generation + 1) } := by
  unfold updateGrid at h
  simp only [Option.bind_eq_bind, Option.bind_eq_some, Option.pure_def, Option.some.injEq] at h
  obtain ⟨_, _, g, _, rfl⟩ := h
  exact ⟨g, rfl⟩

theorem loadPattern_inv (draws : Nat → Bool) (s t : State) (p : String)
    (h : loadPattern draws s p = some t) :
    ∃ g pos, t = { s with grid := g, rngPos := pos, generation := 0 } := by
  unfold loadPattern clearGrid at h
  simp only [Option.bind_eq_bind, Option.bind_eq_some, Option.pure_def, Option.some.injEq] at h
  obtain ⟨s1, ⟨g0, _, rfl⟩, h⟩ := h
  split_ifs at h
  all_goals
    first
    | (simp only [Option.bind_eq_some, Option.some.injEq] at h
       obtain ⟨g, _, rfl⟩ := h
       first
       | exact ⟨g, s.rngPos, rfl⟩
       | exact ⟨g.1, g.2, rfl⟩)
    | (simp only [Option.some.injEq] at h
       subst h
       exact ⟨g0, s.rngPos, rfl⟩)

theorem stopSimulation_inv (s t : State) (h : stopSimulation s = some t) :
    t = { s with running := false, tickerStop := t.tickerStop } ∧
      (s.running = false → t = s) ∧
      (s.running = true → s.tickerStop = Chan.live ∧ t.tickerStop = Chan.closed) := by
  unfold stopSimulation at h
  cases hr : s.running
  · simp [hr] at h
    subst h
    cases s
    simp only at hr
    simp [hr]
  · simp only [hr, Bool.not_true, Bool.false_eq_true, if_false] at h
    cases hc : s.tickerStop <;> simp [hc] at h
    subst h
    simp

/-- On a state that satisfies the lifecycle invariant `stopSimulation` does not fault. -/
theorem stopSimulation_ok (s : State) (hc : ChanOK s) :
    stopSimulation s = some (if s.running then
      { s with running := false, tickerStop := Chan.closed } else s) := by
  unfold stopSimulation
  cases hr : s.running
  · simp
  · simp [hc hr]

theorem chanOK_startSimulation (s : State) (hc : ChanOK s) : ChanOK (startSimulation s) := by
  unfold startSimulation ChanOK
  cases hr : s.running
  · simp
  · simp [hr]; exact hc hr

theorem chanOK_stopSimulation (s t : State) (h : stopSimulation s = some t) : ChanOK t := by
  have := (stopSimulation_inv s t h).1
  intro hrun
  rw [this] at hrun
  simp at hrun

theorem getGridMessage_inv (s : State) (m : GridMessage) (h : getGridMessage s = some m) :
    getGridAsString s = some m.grid ∧ getPopulation s = some m.population ∧
      m.generation = s.generation := by
  unfold getGridMessage at h
  simp only [Option.bind_eq_bind, Option.bind_eq_some, Option.pure_def, Option.some.injEq] at h
  obtain ⟨g, hg, p, hp, rfl⟩ := h
  exact ⟨hg, hp, rfl⟩

/-- On a well-formed state `getGridMessage` does not fault. -/
theorem getGridMessage_eq (s : State) (h : WellFormed s) :
    getGridMessage s =
      some (GridMessage.mk (terminatedRows s.grid) s.generation (specPopulation s : Int)) := by
  simp [getGridMessage, getGridAsString_eq s h.1, getPopulation_eq_spec s h]

theorem applyResize_inv (draws : Nat → Bool) (s t : State) (w h : Int)
    (ht : applyResize draws s w h = some t) :
    ∃ s1 s2 m, stopSimulation s = some s1 ∧
      initGrid draws { s1 with width := w, height := h } = some s2 ∧
      getGridMessage s2 = some m ∧
      t = (if s.running then startSimulation (broadcast s2 (Outbound.json m))
        else broadcast s2 (Outbound.json m)) := by
  unfold applyResize at ht
  simp only [Option.bind_eq_bind, Option.bind_eq_some, Option.pure_def] at ht
  obtain ⟨s1, h1, s2, h2, m, h3, h4⟩ := ht
  refine ⟨s1, s2, m, h1, h2, h3, ?_⟩
  split_ifs at h4 with hr
  · simp only [Option.some.injEq] at h4
    simp [hr, ← h4]
  · simp only [Option.some.injEq] at h4
    simp [hr, ← h4]

theorem resetSimulation_inv (draws : Nat → Bool) (s t : State) (p : String)
    (ht : resetSimulation draws s p = some t) :
    ∃ s1 s2 text, stopSimulation s = some s1 ∧ initGrid draws s1 = some s2 ∧
      getGridAsString s2 = some text ∧ t = broadcast s2 (Outbound.raw text) := by
  unfold resetSimulation at ht
  simp only [Option.bind_eq_bind, Option.bind_eq_some, Option.pure_def, Option.some.injEq] at ht
  obtain ⟨s1, h1, s2, h2, text, h3, h4⟩ := ht
  exact ⟨s1, s2, text, h1, h2, h3, h4.symm⟩

theorem startSimulation_frame (s : State) :
    (startSimulation s).grid = s.grid ∧ (startSimulation s).width = s.width ∧
      (startSimulation s).height = s.height ∧
      (startSimulation s).generation = s.generation ∧
      (startSimulation s).speed = s.speed ∧ (startSimulation s).sent = s.sent ∧
      (startSimulation s).rngPos = s.rngPos ∧ (startSimulation s).running = true := by
  unfold startSimulation
  cases hr : s.running <;> simp [hr]

theorem stopSimulation_frame (s t : State) (h : stopSimulation s = some t) :
    t.grid = s.grid ∧ t.width = s.width ∧ t.height = s.height ∧
      t.generation = s.generation ∧ t.speed = s.speed ∧ t.sent = s.sent ∧
      t.rngPos = s.rngPos ∧ t.spawned = s.spawned ∧ t.running = false := by
  have := (stopSimulation_inv s t h).1
  rw [this]
  simp

/-! ## Events keep the state well-formed -/

theorem wellFormed_broadcast (s : State) (m : Outbound) (h : WellFormed s) :
    WellFormed (broadcast s m) := h

theorem wellFormed_startSimulation (s : State) (h : WellFormed s) :
    WellFormed (startSimulation s) := by
  obtain ⟨hg, hw, hh, _⟩ := startSimulation_frame s
  unfold WellFormed
  rw [hg, hw, hh]
  exact h

theorem wellFormed_stopSimulation (s t : State) (h : WellFormed s)
    (ht : stopSimulation s = some t) : WellFormed t := by
  obtain ⟨hg, hw, hh, _⟩ := stopSimulation_frame s t ht
  unfold WellFormed
  rw [hg, hw, hh]
  exact h

theorem wellFormed_initGrid (draws : Nat → Bool) (s t : State) (hh : 0 ≤ s.height)
    (hw : 0 < s.height → 0 ≤ s.width) (ht : initGrid draws s = some t) :
    WellFormed t ∧ t.width = s.width ∧ t.height = s.height := by
  obtain ⟨g, hg, hrect, hbin⟩ := initGrid_spec draws s hh hw
  rw [hg] at ht
  cases ht
  exact ⟨⟨hrect, hbin⟩, rfl, rfl⟩

theorem wellFormed_applyResize (draws : Nat → Bool) (s t : State) (w h : Int)
    (hw : 0 ≤ w) (hh : 0 ≤ h) (ht : applyResize draws s w h = some t) :
    WellFormed t ∧ t.width = w ∧ t.height = h := by
  obtain ⟨s1, s2, m, _, h2, _, rfl⟩ := applyResize_inv draws s t w h ht
  obtain ⟨hwf, hw2, hh2⟩ := wellFormed_initGrid draws _ s2 hh (fun _ => hw) h2
  simp only at hw2 hh2
  split_ifs
  · obtain ⟨_, hw3, hh3, _⟩ := startSimulation_frame (broadcast s2 (Outbound.json m))
    exact ⟨wellFormed_startSimulation _ (wellFormed_broadcast _ _ hwf),
      by rw [hw3]; exact hw2, by rw [hh3]; exact hh2⟩
  · exact ⟨wellFormed_broadcast _ _ hwf, hw2, hh2⟩

theorem handleJSON_resize (draws : Nat → Bool) (s : State) (cm : ClientMessage)
    (hty : cm.type = "resize") :
    handleJSON draws s cm =
      if cm.width ≤ 0 ∨ cm.height ≤ 0 then some s
      else applyResize draws s (min cm.width 1000) (min cm.height 400) := by
  unfold handleJSON
  rw [if_pos hty]
  by_cases hbad : cm.width ≤ 0 ∨ cm.height ≤ 0
  · simp only [if_pos hbad]
  · simp only [if_neg hbad, maxWidth, maxHeight]
    have e1 : (if cm.width > 1000 then (1000 : Int) else cm.width) = min cm.width 1000 := by
      split_ifs <;> omega
    have e2 : (if cm.height > 400 then (400 : Int) else cm.height) = min cm.height 400 := by
      split_ifs <;> omega
    rw [e1, e2]

theorem handleJSON_pattern (draws : Nat → Bool) (s : State) (cm : ClientMessage)
    (hty : cm.type = "pattern") :
    handleJSON draws s cm =
      (loadPattern draws s cm.pattern).bind (fun s1 =>
        (getGridMessage s1).bind (fun m => some (broadcast s1 (Outbound.json m)))) := by
  unfold handleJSON
  have h1 : ¬ cm.type = "resize" := by rw [hty]; decide
  rw [if_neg h1, if_pos hty]
  rfl

theorem handleJSON_speed (draws : Nat → Bool) (s : State) (cm : ClientMessage)
    (hty : cm.type = "speed") :
    handleJSON draws s cm =
      if cm.speed > 0 ∧ cm.speed ≤ 1000 then
        (if s.running then
          (stopSimulation { s with speed := cm.speed }).bind
            (fun s1 => some (startSimulation s1))
        else some { s with speed := cm.speed })
      else some s := by
  unfold handleJSON
  have h1 : ¬ cm.type = "resize" := by rw [hty]; decide
  have h2 : ¬ cm.type = "pattern" := by rw [hty]; decide
  rw [if_neg h1, if_neg h2, if_pos hty]
  rfl

theorem handleJSON_other (draws : Nat → Bool) (s : State) (cm : ClientMessage)
    (h1 : cm.type ≠ "resize") (h2 : cm.type ≠ "pattern") (h3 : cm.type ≠ "speed") :
    handleJSON draws s cm = some s := by
  unfold handleJSON
  rw [if_neg h1, if_neg h2, if_neg h3]

/-- Every event that completes leaves a well-formed state well-formed. -/
theorem wellFormed_step (draws : Nat → Bool) (s t : State) (e : Event) (h : WellFormed s)
    (ht : step draws s e = some t) : WellFormed t := by
  have hh : 0 ≤ s.height := by have := h.1.1; omega
  cases e with
  | json cm =>
    simp only [step] at ht
    by_cases h1 : cm.type = "resize"
    · rw [handleJSON_resize draws s cm h1] at ht
      split_ifs at ht with hbad
      · cases ht; exact h
      · exact (wellFormed_applyResize draws s t _ _ (by omega) (by omega) ht).1
    · by_cases h2 : cm.type = "pattern"
      · rw [handleJSON_pattern draws s cm h2] at ht
        simp only [Option.bind_eq_some, Option.some.injEq] at ht
        obtain ⟨s1, hs1, m, _, rfl⟩ := ht
        exact wellFormed_broadcast _ _ (loadPattern_frame draws s s1 _ h.1 hs1).1
      · by_cases h3 : cm.type = "speed"
        · rw [handleJSON_speed draws s cm h3] at ht
          split_ifs at ht
          · simp only [Option.bind_eq_some, Option.some.injEq] at ht
            obtain ⟨s1, hs1, rfl⟩ := ht
            exact wellFormed_startSimulation _
              (wellFormed_stopSimulation { s with speed := cm.speed } s1 h hs1)
          · cases ht; exact h
          · cases ht; exact h
        · rw [handleJSON_other draws s cm h1 h2 h3] at ht
          cases ht; exact h
  | text msg =>
    simp only [step, handleText] at ht
    split_ifs at ht
    · cases ht; exact wellFormed_startSimulation s h
    · exact wellFormed_stopSimulation s t h ht
    · obtain ⟨s1, s2, text, hs1, hs2, _, rfl⟩ := resetSimulation_inv draws s t _ ht
      obtain ⟨hg, hw1, hh1, _⟩ := stopSimulation_frame s s1 hs1
      have hw : 0 < s.height → 0 ≤ s.width := fun hp => width_nonneg_of_rect _ _ _ h.1 hp
      exact wellFormed_broadcast _ _
        (wellFormed_initGrid draws s1 s2 (by rw [hh1]; exact hh)
          (by rw [hh1, hw1]; exact hw) hs2).1
    · cases ht; exact h
  | tick =>
    simp only [step, Option.bind_eq_bind, Option.bind_eq_some, Option.pure_def,
      Option.some.injEq] at ht
    obtain ⟨s1, hs1, m, _, rfl⟩ := ht
    rw [updateGrid_eq s h] at hs1
    cases hs1
    exact wellFormed_broadcast _ _ (wellFormed_updateGrid s h)

/-! ## The lifecycle invariant holds in every reachable state -/

theorem chanOK_initGrid (draws : Nat → Bool) (s t : State) (h : ChanOK s)
    (ht : initGrid draws s = some t) : ChanOK t := by
  obtain ⟨g, pos, rfl⟩ := initGrid_inv draws s t ht
  exact h

theorem chanOK_step (draws : Nat → Bool) (s t : State) (e : Event) (h : ChanOK s)
    (ht : step draws s e = some t) : ChanOK t := by
  cases e with
  | json cm =>
    simp only [step] at ht
    by_cases h1 : cm.type = "resize"
    · rw [handleJSON_resize draws s cm h1] at ht
      split_ifs at ht
      · cases ht; exact h
      · obtain ⟨s1, s2, m, hs1, hs2, _, rfl⟩ := applyResize_inv draws s t _ _ ht
        have hc1 : ChanOK s1 := chanOK_stopSimulation s s1 hs1
        have hc2 : ChanOK s2 := chanOK_initGrid draws
          { s1 with width := min cm.width 1000, height := min cm.height 400 } s2 hc1 hs2
        split_ifs
        · exact chanOK_startSimulation _ hc2
        · exact hc2
    · by_cases h2 : cm.type = "pattern"
      · rw [handleJSON_pattern draws s cm h2] at ht
        simp only [Option.bind_eq_some, Option.some.injEq] at ht
        obtain ⟨s1, hs1, m, _, rfl⟩ := ht
        obtain ⟨g, pos, rfl⟩ := loadPattern_inv draws s s1 _ hs1
        exact h
      · by_cases h3 : cm.type = "speed"
        · rw [handleJSON_speed draws s cm h3] at ht
          split_ifs at ht
          · simp only [Option.bind_eq_some, Option.some.injEq] at ht
            obtain ⟨s1, hs1, rfl⟩ := ht
            exact chanOK_startSimulation _ (chanOK_stopSimulation _ s1 hs1)
          · cases ht; exact h
          · cases ht; exact h
        · rw [handleJSON_other draws s cm h1 h2 h3] at ht
          cases ht; exact h
  | text msg =>
    simp only [step, handleText] at ht
    split_ifs at ht
    · cases ht; exact chanOK_startSimulation s h
    · exact chanOK_stopSimulation s t ht
    · obtain ⟨s1, s2, text, hs1, hs2, _, rfl⟩ := resetSimulation_inv draws s t _ ht
      exact chanOK_initGrid draws s1 s2 (chanOK_stopSimulation s s1 hs1) hs2
    · cases ht; exact h
  | tick =>
    simp only [step, Option.bind_eq_bind, Option.bind_eq_some, Option.pure_def,
      Option.some.injEq] at ht
    obtain ⟨s1, hs1, m, _, rfl⟩ := ht
    obtain ⟨g, rfl⟩ := updateGrid_inv s s1 hs1
    exact h

/-- Every state reached from a well-formed state that satisfies the lifecycle
invariant is again well-formed and satisfies the lifecycle invariant. -/
theorem invariant_run (draws : Nat → Bool) (evs : List Event) (s t : State)
    (hwf : WellFormed s) (hc : ChanOK s) (ht : run draws s evs = some t) :
    WellFormed t ∧ ChanOK t := by
  induction evs generalizing s with
  | nil =>
    simp [run] at ht
    subst ht; exact ⟨hwf, hc⟩
  | cons e rest ih =>
    simp only [run, List.foldlM_cons, Option.bind_eq_bind, Option.bind_eq_some] at ht
    obtain ⟨s1, hs1, hrest⟩ := ht
    exact ih s1 (wellFormed_step draws s s1 e hwf hs1) (chanOK_step draws s s1 e hc hs1) hrest

/-- Every state reached from the initial state is well-formed and satisfies the
lifecycle invariant. -/
theorem invariant_reachable (draws : Nat → Bool) (evs : List Event) (s0 t : State)
    (h0 : initialState draws = some s0) (ht : run draws s0 evs = some t) :
    WellFormed t ∧ ChanOK t := by
  obtain ⟨g, hg, hrect, hbin⟩ := initGrid_spec draws bootState (by decide) (fun _ => by decide)
  unfold initialState at h0
  rw [hg] at h0
  cases h0
  exact invariant_run draws evs _ t ⟨hrect, hbin⟩ (fun hrun => by cases hrun) ht
/-! ## Commands that complete -/

/-- On a state that satisfies the lifecycle invariant `applyResize` with positive
dimensions does not fault. -/
theorem applyResize_total (draws : Nat → Bool) (s : State) (w h : Int) (hw : 0 < w)
    (hh : 0 < h) (hc : ChanOK s) : ∃ t, applyResize draws s w h = some t := by
  obtain ⟨g, hg, hrect, hbin⟩ := initGrid_spec draws
    { (if s.running then { s with running := false, tickerStop := Chan.closed } else s) with
      width := w, height := h }
    (by simp only; omega) (fun _ => by simp only; omega)
  simp only at hrect
  unfold applyResize
  rw [stopSimulation_ok s hc]
  simp only [Option.bind_eq_bind, Option.some_bind]
  rw [hg]
  simp only [Option.some_bind]
  rw [getGridMessage_eq _ ⟨hrect, hbin⟩]
  simp only [Option.some_bind]
  split_ifs <;> exact ⟨_, rfl⟩

/-- On a well-formed state that satisfies the lifecycle invariant `resetSimulation`
does not fault. -/
theorem resetSimulation_total (draws : Nat → Bool) (s : State) (p : String)
    (hwf : WellFormed s) (hc : ChanOK s) : ∃ t, resetSimulation draws s p = some t := by
  have hh : 0 ≤ s.height := by have := hwf.1.1; omega
  have hw : 0 < s.height → 0 ≤ s.width := fun hp => width_nonneg_of_rect _ _ _ hwf.1 hp
  obtain ⟨g, hg, hrect, hbin⟩ := initGrid_spec draws
    (if s.running then { s with running := false, tickerStop := Chan.closed } else s)
    (by split_ifs <;> exact hh) (by split_ifs <;> exact hw)
  unfold resetSimulation
  rw [stopSimulation_ok s hc]
  simp only [Option.bind_eq_bind, Option.some_bind]
  rw [hg]
  simp only [Option.some_bind]
  rw [getGridAsString_eq _ hrect]
  exact ⟨_, rfl⟩

/-- On a rectangular grid of at least 4 x 4 `loadPattern` does not fault, whatever the
pattern name. -/
theorem loadPattern_total (draws : Nat → Bool) (s : State) (p : String)
    (hr : Rect s.grid s.width s.height) (hw : 4 ≤ s.width) (hh : 4 ≤ s.height) :
    ∃ t, loadPattern draws s p = some t := by
  by_cases hp : p = "random"
  · subst hp
    obtain ⟨g, pos, hg, _⟩ := loadPattern_random draws s hr
    exact ⟨_, hg⟩
  · have hcx : Int.tdiv s.width 2 = s.width / 2 := Int.tdiv_eq_ediv (by omega) (by decide)
    have hcy : Int.tdiv s.height 2 = s.height / 2 := Int.tdiv_eq_ediv (by omega) (by decide)
    have hin := specPatternCells_inside p s.width s.height hw hh
    rw [← hcx, ← hcy] at hin
    obtain ⟨g, hg, _⟩ := stamp_spec _ _ _ _ (rect_zeros s hr) hin
    rw [loadPattern_eq_stamp draws s p hr hp, hg]
    exact ⟨_, rfl⟩

/-- On a well-formed state one iteration of the ticker loop does not fault; it leaves
the dimensions and the lifecycle variables as they were and increments `generation`
modulo `2^64`. -/
theorem tick_total (draws : Nat → Bool) (s : State) (hwf : WellFormed s) :
    ∃ t, step draws s Event.tick = some t ∧ WellFormed t ∧
      t.generation = wrapInt (s.generation + 1) ∧ t.width = s.width ∧
      t.height = s.height ∧ t.running = s.running ∧ t.tickerStop = s.tickerStop := by
  simp only [step]
  rw [updateGrid_eq s hwf]
  simp only [Option.bind_eq_bind, Option.some_bind]
  rw [getGridMessage_eq _ (wellFormed_updateGrid s hwf)]
  exact ⟨_, rfl, wellFormed_broadcast _ _ (wellFormed_updateGrid s hwf), rfl, rfl, rfl, rfl,
    rfl⟩

/-- On a well-formed state of at least 4 x 4 that satisfies the lifecycle invariant
every event completes. -/
theorem step_total (draws : Nat → Bool) (s : State) (e : Event) (hwf : WellFormed s)
    (hc : ChanOK s) (hw : 4 ≤ s.width) (hh : 4 ≤ s.height) :
    ∃ t, step draws s e = some t := by
  cases e with
  | json cm =>
    simp only [step]
    by_cases h1 : cm.type = "resize"
    · rw [handleJSON_resize draws s cm h1]
      split_ifs with hbad
      · exact ⟨s, rfl⟩
      · exact applyResize_total draws s _ _ (by omega) (by omega) hc
    · by_cases h2 : cm.type = "pattern"
      · rw [handleJSON_pattern draws s cm h2]
        obtain ⟨s1, hs1⟩ := loadPattern_total draws s cm.pattern hwf.1 hw hh
        rw [hs1]
        simp only [Option.some_bind]
        rw [getGridMessage_eq s1 (loadPattern_frame draws s s1 _ hwf.1 hs1).1]
        exact ⟨_, rfl⟩
      · by_cases h3 : cm.type = "speed"
        · rw [handleJSON_speed draws s cm h3]
          split_ifs with hr hrun
          · have hc1 : ChanOK { s with speed := cm.speed } := hc
            rw [stopSimulation_ok _ hc1]
            exact ⟨_, rfl⟩
          · exact ⟨_, rfl⟩
          · exact ⟨_, rfl⟩
        · rw [handleJSON_other draws s cm h1 h2 h3]
          exact ⟨s, rfl⟩
  | text msg =>
    simp only [step, handleText]
    split_ifs
    · exact ⟨_, rfl⟩
    · exact ⟨_, stopSimulation_ok s hc⟩
    · exact resetSimulation_total draws s _ hwf hc
    · exact ⟨s, rfl⟩
  | tick =>
    obtain ⟨t, ht, _⟩ := tick_total draws s hwf
    exact ⟨t, ht⟩

/-- An event keeps the grid at least 4 x 4 unless it is a resize that asks for a
width or a height between 1 and 3. -/
theorem roomy_step (draws : Nat → Bool) (s t : State) (e : Event)
    (hw : 4 ≤ s.width) (hh : 4 ≤ s.height)
    (hsafe : ∀ cm, e = Event.json cm → cm.type = "resize" →
      cm.width ≤ 0 ∨ cm.height ≤ 0 ∨ (4 ≤ cm.width ∧ 4 ≤ cm.height))
    (ht : step draws s e = some t) : 4 ≤ t.width ∧ 4 ≤ t.height := by
  have keep : t.width = s.width → t.height = s.height → 4 ≤ t.width ∧ 4 ≤ t.height := by
    intro h1 h2
    rw [h1, h2]
    exact ⟨hw, hh⟩
  cases e with
  | json cm =>
    simp only [step] at ht
    by_cases h1 : cm.type = "resize"
    · rw [handleJSON_resize draws s cm h1] at ht
      split_ifs at ht with hbad
      · cases ht; exact ⟨hw, hh⟩
      · obtain ⟨_, hw1, hh1⟩ := wellFormed_applyResize draws s t _ _ (by omega) (by omega) ht
        have := hsafe cm rfl h1
        rw [hw1, hh1]
        omega
    · by_cases h2 : cm.type = "pattern"
      · rw [handleJSON_pattern draws s cm h2] at ht
        simp only [Option.bind_eq_some, Option.some.injEq] at ht
        obtain ⟨s1, hs1, m, _, rfl⟩ := ht
        obtain ⟨g, pos, rfl⟩ := loadPattern_inv draws s s1 _ hs1
        exact keep rfl rfl
      · by_cases h3 : cm.type = "speed"
        · rw [handleJSON_speed draws s cm h3] at ht
          split_ifs at ht
          · simp only [Option.bind_eq_some, Option.some.injEq] at ht
            obtain ⟨s1, hs1, rfl⟩ := ht
            obtain ⟨_, hw1, hh1, _⟩ := stopSimulation_frame _ s1 hs1
            obtain ⟨_, hw2, hh2, _⟩ := startSimulation_frame s1
            exact keep (by rw [hw2, hw1]) (by rw [hh2, hh1])
          · cases ht; exact keep rfl rfl
          · cases ht; exact ⟨hw, hh⟩
        · rw [handleJSON_other draws s cm h1 h2 h3] at ht
          cases ht; exact ⟨hw, hh⟩
  | text msg =>
    simp only [step, handleText] at ht
    split_ifs at ht
    · cases ht
      obtain ⟨_, hw2, hh2, _⟩ := startSimulation_frame s
      exact keep hw2 hh2
    · obtain ⟨_, hw1, hh1, _⟩ := stopSimulation_frame s t ht
      exact keep hw1 hh1
    · obtain ⟨s1, s2, text, hs1, hs2, _, rfl⟩ := resetSimulation_inv draws s t _ ht
      obtain ⟨_, hw1, hh1, _⟩ := stopSimulation_frame s s1 hs1
      obtain ⟨g, pos, rfl⟩ := initGrid_inv draws s1 s2 hs2
      exact keep hw1 hh1
    · cases ht; exact ⟨hw, hh⟩
  | tick =>
    simp only [step, Option.bind_eq_bind, Option.bind_eq_some, Option.pure_def,
      Option.some.injEq] at ht
    obtain ⟨s1, hs1, m, _, rfl⟩ := ht
    obtain ⟨g, rfl⟩ := updateGrid_inv s s1 hs1
    exact keep rfl rfl

/-- From a well-formed state of at least 4 x 4 that satisfies the lifecycle invariant,
every finite sequence of events completes, provided no resize in it asks for a width
or a height between 1 and 3 (after such a resize a pattern load can fault). -/
theorem run_total (draws : Nat → Bool) (evs : List Event) (s : State) (hwf : WellFormed s)
    (hc : ChanOK s) (hw : 4 ≤ s.width) (hh : 4 ≤ s.height)
    (hsafe : ∀ e ∈ evs, ∀ cm, e = Event.json cm → cm.type = "resize" →
      cm.width ≤ 0 ∨ cm.height ≤ 0 ∨ (4 ≤ cm.width ∧ 4 ≤ cm.height)) :
    ∃ t, run draws s evs = some t := by
  induction evs generalizing s with
  | nil => exact ⟨s, rfl⟩
  | cons e rest ih =>
    obtain ⟨s1, hs1⟩ := step_total draws s e hwf hc hw hh
    obtain ⟨hw1, hh1⟩ := roomy_step draws s s1 e hw hh
      (hsafe e (List.mem_cons_self _ _)) hs1
    obtain ⟨t, ht⟩ := ih s1 (wellFormed_step draws s s1 e hwf hs1)
      (chanOK_step draws s s1 e hc hs1) hw1 hh1
      (fun e' he' => hsafe e' (List.mem_cons_of_mem _ he'))
    refine ⟨t, ?_⟩
    simp only [run, List.foldlM_cons, Option.bind_eq_bind]
    rw [hs1]
    exact ht

/-- From a well-formed state whose counter is within the `int` range, `n` ticks
complete and leave `generation` at the old value plus `n` modulo `2^64`. -/
theorem ticks_run (draws : Nat → Bool) (n : Nat) (s : State) (hwf : WellFormed s)
    (h1 : intMin ≤ s.generation) (h2 : s.generation ≤ intMax) :
    ∃ t, run draws s (List.replicate n Event.tick) = some t ∧ WellFormed t ∧
      t.generation = wrapInt (s.generation + (n : Int)) := by
  induction n generalizing s with
  | zero =>
    refine ⟨s, rfl, hwf, ?_⟩
    rw [Nat.cast_zero, add_zero, wrapInt_of_inRange _ h1 h2]
  | succ k ih =>
    obtain ⟨s1, hs1, hwf1, hg1, _⟩ := tick_total draws s hwf
    have hr := wrapInt_inRange (s.generation + 1)
    rw [← hg1] at hr
    obtain ⟨t, ht, hwft, hgt⟩ := ih s1 hwf1 hr.1 hr.2
    refine ⟨t, ?_, hwft, ?_⟩
    · simp only [run, List.replicate_succ, List.foldlM_cons, Option.bind_eq_bind]
      rw [hs1]
      exact ht
    · rw [hgt, hg1, wrapInt_add]
      congr 1
      push_cast
      ring

/-! ## The population is recomputed from the grid -/

/-- C2: on every well-formed state `getPopulation` returns the number of positions
`(x, y)` with `grid[y][x] == 1`, counted afresh from the current grid, and the
`population` field of the message built by `getGridMessage` is that number; the same
holds in the state after `updateGrid`, after `loadPattern`, after `applyResize`, and
after every event, for the new grid. -/
theorem C2_population_fresh (draws : Nat → Bool) (s : State) (h : WellFormed s) :
    getPopulation s = some (specPopulation s : Int) ∧
    (∃ m, getGridMessage s = some m ∧ m.population = (specPopulation s : Int)) ∧
    (∃ t, updateGrid s = some t ∧ getPopulation t = some (specPopulation t : Int)) ∧
    (∀ p t, loadPattern draws s p = some t →
      getPopulation t = some (specPopulation t : Int)) ∧
    (∀ w h t, 0 < w → 0 < h → applyResize draws s w h = some t →
      getPopulation t = some (specPopulation t : Int)) ∧
    (∀ e t, step draws s e = some t →
      getPopulation t = some (specPopulation t : Int) ∧
      ∃ m, getGridMessage t = some m ∧ m.population = (specPopulation t : Int)) := by
  refine ⟨getPopulation_eq_spec s h, ⟨_, getGridMessage_eq s h, rfl⟩,
    ⟨_, updateGrid_eq s h, getPopulation_eq_spec _ (wellFormed_updateGrid s h)⟩, ?_, ?_, ?_⟩
  · intro p t ht
    exact getPopulation_eq_spec t (loadPattern_frame draws s t p h.1 ht).1
  · intro w h' t hw hh ht
    exact getPopulation_eq_spec t
      (wellFormed_applyResize draws s t w h' (by omega) (by omega) ht).1
  · intro e t ht
    have hwf := wellFormed_step draws s t e h ht
    exact ⟨getPopulation_eq_spec t hwf, _, getGridMessage_eq t hwf, rfl⟩

/-- C2 at the sample state: the population of the vertical blinker is 3. -/
theorem C2_population_fresh_witness :
    WellFormed sampleState ∧ specPopulation sampleState = 3 ∧
      getPopulation sampleState = some (specPopulation sampleState : Int) :=
  ⟨by decide, by decide,
    (C2_population_fresh (fun _ => false) sampleState (by decide)).1⟩

/-! ## Resize -/

/-- C3: a resize request with `w > 0` and `h > 0`, handled in a state that satisfies
the lifecycle invariant, completes; afterwards the stored dimensions are exactly
`(min w 1000, min h 400)` and the grid has exactly that many rows and columns. -/
theorem C3_resize_clamps (draws : Nat → Bool) (s : State) (cm : ClientMessage)
    (hty : cm.type = "resize") (hw : 0 < cm.width) (hh : 0 < cm.height) (hc : ChanOK s) :
    ∃ t, handleJSON draws s cm = some t ∧
      t.width = min cm.width 1000 ∧ t.height = min cm.height 400 ∧
      (t.grid.length : Int) = t.height ∧ (∀ row ∈ t.grid, (row.length : Int) = t.width) ∧
      t.generation = 0 ∧ t.running = s.running := by
  rw [handleJSON_resize draws s cm hty, if_neg (by omega)]
  obtain ⟨g, hg, hrect, hbin⟩ := initGrid_spec draws
    { (if s.running then { s with running := false, tickerStop := Chan.closed } else s) with
      width := min cm.width 1000, height := min cm.height 400 }
    (by simp only; omega) (fun _ => by simp only; omega)
  simp only at hrect
  unfold applyResize
  rw [stopSimulation_ok s hc]
  simp only [Option.bind_eq_bind, Option.some_bind]
  rw [hg]
  simp only [Option.some_bind]
  rw [getGridMessage_eq _ ⟨hrect, hbin⟩]
  simp only [Option.some_bind]
  cases hr : s.running
  · simp only [Bool.false_eq_true, if_false, Option.pure_def]
    exact ⟨_, rfl, rfl, rfl, hrect.1, hrect.2, rfl, hr⟩
  · simp only [if_true, Option.pure_def]
    refine ⟨_, rfl, ?_, ?_, ?_, ?_, ?_, ?_⟩
    · simp [startSimulation, broadcast]
    · simp [startSimulation, broadcast]
    · simpa [startSimulation, broadcast] using hrect.1
    · simpa [startSimulation, broadcast] using hrect.2
    · simp [startSimulation, broadcast]
    · simp [startSimulation, broadcast]

/-- C3 at `resize(5000, 5000)` on the initial variables: the dimensions become
`(1000, 400)`. -/
theorem C3_resize_clamps_witness :
    ∃ t, handleJSON (fun _ => false) bootState
        { type := "resize", width := 5000, height := 5000, pattern := "", speed := 0 } =
        some t ∧ t.width = 1000 ∧ t.height = 400 :=
  match C3_resize_clamps (fun _ => false) bootState
      { type := "resize", width := 5000, height := 5000, pattern := "", speed := 0 }
      rfl (by decide) (by decide) (by decide) with
  | ⟨t, h1, h2, h3, _⟩ => ⟨t, h1, h2, h3⟩

/-- C4: a resize request with `w ≤ 0` or `h ≤ 0` leaves the whole state exactly as it
was: dimensions, grid, generation, speed, running flag, channel and spawned tasks are
unchanged and nothing is added to the broadcast log. -/
theorem C4_resize_rejected (draws : Nat → Bool) (s : State) (cm : ClientMessage)
    (hty : cm.type = "resize") (hbad : cm.width ≤ 0 ∨ cm.height ≤ 0) :
    handleJSON draws s cm = some s ∧ step draws s (Event.json cm) = some s := by
  have := handleJSON_resize draws s cm hty
  rw [if_pos hbad] at this
  exact ⟨this, this⟩

/-- C4 at `resize(0, 10)` on the sample state. -/
theorem C4_resize_rejected_witness :
    handleJSON (fun _ => true) sampleState
        { type := "resize", width := 0, height := 10, pattern := "", speed := 0 } =
      some sampleState :=
  (C4_resize_rejected (fun _ => true) sampleState
    { type := "resize", width := 0, height := 10, pattern := "", speed := 0 }
    rfl (by decide)).1

/-! ## Speed -/

/-- C5: a speed command with value `ms` outside `(0, 1000]` leaves the whole state
unchanged (speed, running, grid, generation, width, height and everything else); with
`ms` inside, handled in a state that satisfies the lifecycle invariant, it completes,
the stored speed becomes `ms`, the running flag is the same as before (a running
simulation is stopped and started again, which spawns one new ticker task on a fresh
open channel; a stopped one only has its speed stored), and grid, generation, width,
height and broadcast log are unchanged. -/
theorem C5_speed_command (draws : Nat → Bool) (s : State) (cm : ClientMessage)
    (hty : cm.type = "speed") (hc : ChanOK s) :
    (¬(0 < cm.speed ∧ cm.speed ≤ 1000) → handleJSON draws s cm = some s) ∧
    (0 < cm.speed ∧ cm.speed ≤ 1000 →
      ∃ t, handleJSON draws s cm = some t ∧ t.speed = cm.speed ∧ t.running = s.running ∧
        t.grid = s.grid ∧ t.generation = s.generation ∧ t.width = s.width ∧
        t.height = s.height ∧ t.sent = s.sent ∧
        (s.running = false → t = { s with speed := cm.speed }) ∧
        (s.running = true → t.tickerStop = Chan.live ∧ t.spawned = s.spawned + 1)) := by
  have hform := handleJSON_speed draws s cm hty
  have hin : 0 < cm.speed ∧ cm.speed ≤ 1000 →
      handleJSON draws s cm = some (if s.running then
        { s with speed := cm.speed, running := true, tickerStop := Chan.live,
                 spawned := s.spawned + 1 }
        else { s with speed := cm.speed }) := by
    intro hr
    rw [hform, if_pos hr]
    cases hrun : s.running
    · simp
    · have hlive : s.tickerStop = Chan.live := hc hrun
      simp [stopSimulation, startSimulation, hlive]
  refine ⟨?_, ?_⟩
  · intro hout
    rw [hform, if_neg hout]
  · intro hr
    refine ⟨_, hin hr, ?_⟩
    cases hrun : s.running <;> simp

/-- C5 at the sample state (stopped, speed 100): the value 50 is stored and nothing
else changes; the value 0 is ignored. -/
theorem C5_speed_command_witness :
    ChanOK sampleState ∧
      handleJSON (fun _ => false) sampleState
          { type := "speed", width := 0, height := 0, pattern := "", speed := 50 } =
        some { sampleState with speed := 50 } ∧
      handleJSON (fun _ => false) sampleState
          { type := "speed", width := 0, height := 0, pattern := "", speed := 0 } =
        some sampleState :=
  ⟨by decide,
    match (C5_speed_command (fun _ => false) sampleState
        { type := "speed", width := 0, height := 0, pattern := "", speed := 50 }
        rfl (by decide)).2 (by decide) with
    | ⟨t, h1, _, _, _, _, _, _, _, h9, _⟩ => by rw [h1, h9 rfl],
    (C5_speed_command (fun _ => false) sampleState
        { type := "speed", width := 0, height := 0, pattern := "", speed := 0 }
        rfl (by decide)).1 (by decide)⟩

/-! ## Start and stop -/

/-- C6: `startSimulation` twice gives the same state as once, with `running` set and
exactly as many ticker tasks spawned as by one call (one from a stopped state, none
from a running one); `stopSimulation` twice gives the same result as once, a stop that
completes leaves `running` clear and a second stop then changes nothing and does not
close the channel again; stop completes on every state that satisfies the lifecycle
invariant, in particular on every stopped state such as the initial one. -/
theorem C6_lifecycle_idempotent (s : State) :
    startSimulation (startSimulation s) = startSimulation s ∧
    (startSimulation s).running = true ∧
    (startSimulation (startSimulation s)).spawned = s.spawned + (if s.running then 0 else 1) ∧
    (startSimulation (startSimulation s)).spawned = (startSimulation s).spawned ∧
    (stopSimulation s).bind stopSimulation = stopSimulation s ∧
    (∀ t, stopSimulation s = some t →
      t.running = false ∧ stopSimulation t = some t ∧ t.spawned = s.spawned) ∧
    (ChanOK s → ∃ t, stopSimulation s = some t) ∧
    (s.running = false → stopSimulation s = some s) ∧
    stopSimulation bootState = some bootState := by
  have hstop : ∀ t, stopSimulation s = some t →
      t.running = false ∧ stopSimulation t = some t ∧ t.spawned = s.spawned := by
    intro t ht
    obtain ⟨_, _, _, _, _, _, _, hsp, hrun⟩ := stopSimulation_frame s t ht
    exact ⟨hrun, by simp [stopSimulation, hrun], hsp⟩
  refine ⟨?_, ?_, ?_, ?_, ?_, hstop, ?_, ?_, by decide⟩
  · cases hr : s.running <;> simp [startSimulation, hr]
  · cases hr : s.running <;> simp [startSimulation, hr]
  · cases hr : s.running <;> simp [startSimulation, hr]
  · cases hr : s.running <;> simp [startSimulation, hr]
  · cases hs : stopSimulation s with
    | none => rfl
    | some t => simpa using (hstop t hs).2.1
  · intro hc
    exact ⟨_, stopSimulation_ok s hc⟩
  · intro hr
    simp [stopSimulation, hr]

/-- C6 at the sample state: start, start, stop, stop. -/
theorem C6_lifecycle_idempotent_witness :
    ChanOK (startSimulation sampleState) ∧
      (startSimulation (startSimulation sampleState)).spawned = 1 ∧
      ∃ t, stopSimulation (startSimulation sampleState) = some t ∧
        stopSimulation t = some t :=
  ⟨by decide, (C6_lifecycle_idempotent sampleState).2.2.1,
    match (C6_lifecycle_idempotent (startSimulation sampleState)).2.2.2.2.2.2.1
        (by decide) with
    | ⟨t, ht⟩ =>
      ⟨t, ht, ((C6_lifecycle_idempotent (startSimulation sampleState)).2.2.2.2.2.1
        t ht).2.1⟩⟩

/-! ## The grid string -/

theorem join_cons (a : String) (l : List String) :
    String.join (a :: l) = a ++ String.join l := by
  apply String.ext
  simp [data_join, String.data_append]

theorem intercalate_go_append (sep acc : String) (l : List String) :
    String.intercalate.go acc sep l ++ sep =
      acc ++ sep ++ String.join (l.map (fun r => r ++ sep)) := by
  induction l generalizing acc with
  | nil => simp [String.intercalate.go, String.join]
  | cons a t ih =>
    simp only [String.intercalate.go, List.map_cons, join_cons]
    rw [ih]
    simp only [String.append_assoc]

/-- Rows that are each followed by a newline are the newline-joined rows plus one
trailing newline, when there is at least one row. -/
theorem terminatedRows_eq_joined (g : Grid) (hne : g ≠ []) :
    terminatedRows g = specJoinedRows g ++ "\n" := by
  cases g with
  | nil => exact absurd rfl hne
  | cons row rest =>
    simp only [terminatedRows, specJoinedRows, List.map_cons, String.intercalate, join_cons]
    rw [intercalate_go_append]
    simp [String.append_assoc, List.map_map, Function.comp_def]

theorem renderRow_data (row : List Int) :
    (renderRow row).data = row.map (fun c => if c = 1 then '█' else ' ') := by
  unfold renderRow
  rw [data_join]
  induction row with
  | nil => rfl
  | cons c t ih =>
    simp only [List.map_cons, List.flatMap_cons, ih, glyph]
    split <;> rfl

theorem terminatedRows_data (g : Grid) :
    (terminatedRows g).data =
      g.flatMap (fun row => row.map (fun c => if c = 1 then '█' else ' ') ++ ['\n']) := by
  unfold terminatedRows
  rw [data_join]
  induction g with
  | nil => rfl
  | cons row t ih =>
    simp only [List.map_cons, List.flatMap_cons, ih, String.data_append, renderRow_data]

theorem count_newline_row (row : List Int) :
    (row.map (fun c => if c = 1 then '█' else ' ')).count '\n' = 0 := by
  induction row with
  | nil => rfl
  | cons c t ih =>
    simp only [List.map_cons]
    rw [List.count_cons, ih]
    split <;> decide

theorem count_newline_rows (g : Grid) :
    (g.flatMap (fun row => row.map (fun c => if c = 1 then '█' else ' ') ++ ['\n'])).count
      '\n' = g.length := by
  induction g with
  | nil => rfl
  | cons row t ih =>
    simp only [List.flatMap_cons, List.count_append, ih, count_newline_row,
      List.length_cons]
    simp [List.count_cons]
    omega

theorem count_glyph_rows (g : Grid) (w : Nat) (hrows : ∀ row ∈ g, row.length = w) :
    (g.flatMap (fun row => row.map (fun c => if c = 1 then '█' else ' ') ++ ['\n'])).countP
      (fun c => c ≠ '\n') = g.length * w := by
  induction g with
  | nil => simp
  | cons row t ih =>
    have hrow := hrows row (List.mem_cons_self _ _)
    have ht := ih (fun r hr => hrows r (List.mem_cons_of_mem _ hr))
    simp only [List.flatMap_cons, List.countP_append, ht, List.length_cons]
    have hc : List.countP (fun c => decide (c ≠ '\n'))
        (row.map (fun c => if c = 1 then '█' else ' ')) =
        (row.map (fun c => if c = 1 then '█' else ' ')).length := by
      apply List.countP_eq_length.mpr
      intro c hc
      simp only [List.mem_map] at hc
      obtain ⟨v, _, rfl⟩ := hc
      split <;> decide
    rw [hc, List.length_map, hrow]
    simp [List.countP_cons]
    ring

/-- C7 (as amended): on every well-formed grid `getGridAsString` completes and returns
row 0, newline, row 1, newline, ..., row `height - 1`, newline: every row, the last
one included, is followed by a newline character, so the string is the newline-joined
rows plus one trailing newline; each row is exactly `width` characters, a filled block
for a cell equal to 1 and a space for a cell equal to 0; the string has `height`
newlines and `height * width` other characters. -/
theorem C7_grid_string (s : State) (h : WellFormed s) :
    ∃ out, getGridAsString s = some out ∧
      out = terminatedRows s.grid ∧
      (0 < s.height → out = specJoinedRows s.grid ++ "\n") ∧
      (∀ row ∈ s.grid, ((renderRow row).length : Int) = s.width ∧
        (renderRow row).data = row.map (fun c => if c = 1 then '█' else ' ')) ∧
      out.data.count '\n' = s.height.toNat ∧
      out.data.countP (fun c => c ≠ '\n') = s.height.toNat * s.width.toNat := by
  refine ⟨_, getGridAsString_eq s h.1, rfl, ?_, ?_, ?_, ?_⟩
  · intro hpos
    apply terminatedRows_eq_joined
    intro hnil
    have := h.1.1
    rw [hnil] at this
    simp at this
    omega
  · intro row hrow
    refine ⟨?_, renderRow_data row⟩
    have := h.1.2 row hrow
    simp only [String.length, renderRow_data, List.length_map]
    exact this
  · rw [terminatedRows_data, count_newline_rows]
    have := h.1.1
    omega
  · rw [terminatedRows_data, count_glyph_rows s.grid s.width.toNat]
    · have := h.1.1
      have e : s.height.toNat = s.grid.length := by omega
      rw [e]
    · intro row hrow
      have := h.1.2 row hrow
      omega

/-- C7 at the sample state. -/
theorem C7_grid_string_witness :
    WellFormed sampleState ∧ getGridAsString sampleState = some " █ \n █ \n █ \n" :=
  ⟨by decide,
    match C7_grid_string sampleState (by decide) with
    | ⟨out, h1, h2, _⟩ => by
      rw [h1, h2]
      decide⟩

/-- C7 (counterexample to "a newline only between rows"): on the 3 x 3 sample grid
the string ends in a newline, so it is not the rows joined with a newline only between
them, and it holds 3 newlines, not 2. -/
theorem C7_joined_counterexample :
    getGridAsString sampleState = some " █ \n █ \n █ \n" ∧
      specJoinedRows sampleState.grid = " █ \n █ \n █ " ∧
      getGridAsString sampleState ≠ some (specJoinedRows sampleState.grid) ∧
      (" █ \n █ \n █ \n".data.count '\n' = 3) := by
  decide

/-! ## The generation counter -/

theorem generation_applyResize (draws : Nat → Bool) (s t : State) (w h : Int)
    (ht : applyResize draws s w h = some t) : t.generation = 0 := by
  obtain ⟨s1, s2, m, _, h2, _, rfl⟩ := applyResize_inv draws s t w h ht
  obtain ⟨g, pos, rfl⟩ := initGrid_inv draws _ s2 h2
  split_ifs
  · rw [(startSimulation_frame _).2.2.2.1]; rfl
  · rfl

theorem generation_resetSimulation (draws : Nat → Bool) (s t : State) (p : String)
    (ht : resetSimulation draws s p = some t) : t.generation = 0 := by
  obtain ⟨s1, s2, text, _, h2, _, rfl⟩ := resetSimulation_inv draws s t p ht
  obtain ⟨g, pos, rfl⟩ := initGrid_inv draws _ s2 h2
  rfl

theorem generation_loadPattern (draws : Nat → Bool) (s t : State) (p : String)
    (ht : loadPattern draws s p = some t) : t.generation = 0 := by
  obtain ⟨g, pos, rfl⟩ := loadPattern_inv draws s t p ht
  rfl

theorem generation_updateGrid (s t : State) (ht : updateGrid s = some t) :
    t.generation = wrapInt (s.generation + 1) := by
  obtain ⟨g, rfl⟩ := updateGrid_inv s t ht
  rfl

theorem generation_speed (draws : Nat → Bool) (s t : State) (cm : ClientMessage)
    (hty : cm.type = "speed") (ht : handleJSON draws s cm = some t) :
    t.generation = s.generation := by
  rw [handleJSON_speed draws s cm hty] at ht
  split_ifs at ht
  · simp only [Option.bind_eq_some, Option.some.injEq] at ht
    obtain ⟨s1, hs1, rfl⟩ := ht
    rw [(startSimulation_frame s1).2.2.2.1, (stopSimulation_frame _ s1 hs1).2.2.2.1]
  · cases ht; rfl
  · cases ht; rfl

/-- A tick adds 1 to `generation` modulo `2^64`; every other event leaves it as it
was or sets it to 0. -/
theorem generation_step (draws : Nat → Bool) (s t : State) (e : Event)
    (ht : step draws s e = some t) :
    (e = Event.tick → t.generation = wrapInt (s.generation + 1)) ∧
    (e ≠ Event.tick → t.generation = s.generation ∨ t.generation = 0) := by
  cases e with
  | json cm =>
    refine ⟨fun h => (by cases h), fun _ => ?_⟩
    simp only [step] at ht
    by_cases h1 : cm.type = "resize"
    · rw [handleJSON_resize draws s cm h1] at ht
      split_ifs at ht
      · cases ht; exact Or.inl rfl
      · exact Or.inr (generation_applyResize draws s t _ _ ht)
    · by_cases h2 : cm.type = "pattern"
      · rw [handleJSON_pattern draws s cm h2] at ht
        simp only [Option.bind_eq_some, Option.some.injEq] at ht
        obtain ⟨s1, hs1, m, _, rfl⟩ := ht
        exact Or.inr (generation_loadPattern draws s s1 _ hs1)
      · by_cases h3 : cm.type = "speed"
        · exact Or.inl (generation_speed draws s t cm h3 ht)
        · rw [handleJSON_other draws s cm h1 h2 h3] at ht
          cases ht; exact Or.inl rfl
  | text msg =>
    refine ⟨fun h => (by cases h), fun _ => ?_⟩
    simp only [step, handleText] at ht
    split_ifs at ht
    · cases ht; exact Or.inl (startSimulation_frame s).2.2.2.1
    · exact Or.inl (stopSimulation_frame s t ht).2.2.2.1
    · exact Or.inr (generation_resetSimulation draws s t _ ht)
    · cases ht; exact Or.inl rfl
  | tick =>
    refine ⟨fun _ => ?_, fun h => absurd rfl h⟩
    simp only [step, Option.bind_eq_bind, Option.bind_eq_some, Option.pure_def,
      Option.some.injEq] at ht
    obtain ⟨s1, hs1, m, _, rfl⟩ := ht
    exact generation_updateGrid s s1 hs1

/-- Along a run with at most `2^63 - 1` ticks the counter never wraps: it stays between
0 and the number of ticks so far (plus its starting value). -/
theorem generation_run_bound (draws : Nat → Bool) (evs : List Event) (s t : State)
    (h0 : 0 ≤ s.generation)
    (hb : s.generation + ((evs.count Event.tick : Nat) : Int) ≤ intMax)
    (ht : run draws s evs = some t) :
    0 ≤ t.generation ∧
      t.generation ≤ s.generation + ((evs.count Event.tick : Nat) : Int) := by
  induction evs generalizing s with
  | nil =>
    simp [run] at ht
    subst ht
    simp [h0]
  | cons e rest ih =>
    simp only [run, List.foldlM_cons, Option.bind_eq_bind, Option.bind_eq_some] at ht
    obtain ⟨s1, hs1, hrest⟩ := ht
    obtain ⟨htick, hother⟩ := generation_step draws s s1 e hs1
    by_cases he : e = Event.tick
    · subst he
      have hc : (Event.tick :: rest).count Event.tick = rest.count Event.tick + 1 := by
        simp
      rw [hc] at hb ⊢
      push_cast at hb ⊢
      have hmin : intMin ≤ s.generation := by unfold intMin; omega
      have hg : s1.generation = s.generation + 1 := by
        rw [htick rfl]
        exact wrapInt_succ s.generation hmin (by omega)
      obtain ⟨r1, r2⟩ := ih s1 (by omega) (by omega) hrest
      omega
    · have hc : (e :: rest).count Event.tick = rest.count Event.tick := by
        first
          | rw [List.count_cons_of_ne he]
          | rw [List.count_cons_of_ne (Ne.symm he)]
      rw [hc] at hb ⊢
      rcases hother he with hg | hg
      · obtain ⟨r1, r2⟩ := ih s1 (by omega) (by omega) hrest
        omega
      · obtain ⟨r1, r2⟩ := ih s1 (by omega) (by omega) hrest
        omega

/-- The initial state exists: `initGrid` at 170 x 42 does not fault. -/
theorem initialState_spec (draws : Nat → Bool) :
    ∃ s0, initialState draws = some s0 ∧ WellFormed s0 ∧ s0.width = 170 ∧ s0.height = 42 ∧
      s0.generation = 0 ∧ s0.running = false ∧ s0.speed = 100 := by
  obtain ⟨g, hg, hrect, hbin⟩ := initGrid_spec draws bootState (by decide) (fun _ => by decide)
  exact ⟨_, hg, ⟨hrect, hbin⟩, rfl, rfl, rfl, rfl, rfl⟩

/-- C8 (as amended): the generation counter starts at 0; every `updateGrid` that
completes adds 1 to it modulo `2^64` (and `updateGrid` completes on every well-formed
state), which is exactly 1 more whenever the counter is below the largest `int`; it is
exactly 0 after every `applyResize`, every `resetSimulation` and every `loadPattern`,
whatever it was before, and these complete (resize with positive dimensions on every
state that satisfies the lifecycle invariant, reset on every well-formed such state,
pattern load on every rectangular grid of at least 4 x 4); start, stop and the speed
command leave it as it was; and in every state reached from the initial state by a
sequence of events with at most `2^63 - 1` ticks it is non-negative and at most the
number of ticks. -/
theorem C8_generation (draws : Nat → Bool) :
    bootState.generation = 0 ∧
    (∃ s0, initialState draws = some s0 ∧ s0.generation = 0) ∧
    (∀ s t, updateGrid s = some t → t.generation = wrapInt (s.generation + 1)) ∧
    (∀ s t, updateGrid s = some t → intMin ≤ s.generation → s.generation + 1 ≤ intMax →
      t.generation = s.generation + 1) ∧
    (∀ s, WellFormed s → intMin ≤ s.generation → s.generation + 1 ≤ intMax →
      ∃ t, updateGrid s = some t ∧ t.generation = s.generation + 1) ∧
    (∀ s w h t, applyResize draws s w h = some t → t.generation = 0) ∧
    (∀ s w h, ChanOK s → 0 < w → 0 < h →
      ∃ t, applyResize draws s w h = some t ∧ t.generation = 0) ∧
    (∀ s p t, resetSimulation draws s p = some t → t.generation = 0) ∧
    (∀ s p, WellFormed s → ChanOK s →
      ∃ t, resetSimulation draws s p = some t ∧ t.generation = 0) ∧
    (∀ s p t, loadPattern draws s p = some t → t.generation = 0) ∧
    (∀ s p, Rect s.grid s.width s.height → 4 ≤ s.width → 4 ≤ s.height →
      ∃ t, loadPattern draws s p = some t ∧ t.generation = 0) ∧
    (∀ s, (startSimulation s).generation = s.generation) ∧
    (∀ s t, stopSimulation s = some t → t.generation = s.generation) ∧
    (∀ s cm t, cm.type = "speed" → handleJSON draws s cm = some t →
      t.generation = s.generation) ∧
    (∀ s0 evs t, initialState draws = some s0 → run draws s0 evs = some t →
      ((evs.count Event.tick : Nat) : Int) ≤ intMax →
      0 ≤ t.generation ∧ t.generation ≤ ((evs.count Event.tick : Nat) : Int)) := by
  obtain ⟨s0, hs0, _, _, _, hgen, _⟩ := initialState_spec draws
  refine ⟨rfl, ⟨s0, hs0, hgen⟩, generation_updateGrid, ?_, ?_,
    fun s w h t ht => generation_applyResize draws s t w h ht, ?_,
    fun s p t ht => generation_resetSimulation draws s t p ht, ?_,
    fun s p t ht => generation_loadPattern draws s t p ht, ?_,
    fun s => (startSimulation_frame s).2.2.2.1,
    fun s t ht => (stopSimulation_frame s t ht).2.2.2.1,
    fun s cm t hty ht => generation_speed draws s t cm hty ht, ?_⟩
  · intro s t ht h1 h2
    rw [generation_updateGrid s t ht]
    exact wrapInt_succ s.generation h1 h2
  · intro s h h1 h2
    refine ⟨_, updateGrid_eq s h, ?_⟩
    exact wrapInt_succ s.generation h1 h2
  · intro s w h hc hw hh
    obtain ⟨t, ht⟩ := applyResize_total draws s w h hw hh hc
    exact ⟨t, ht, generation_applyResize draws s t w h ht⟩
  · intro s p hwf hc
    obtain ⟨t, ht⟩ := resetSimulation_total draws s p hwf hc
    exact ⟨t, ht, generation_resetSimulation draws s t p ht⟩
  · intro s p hr hw hh
    obtain ⟨t, ht⟩ := loadPattern_total draws s p hr hw hh
    exact ⟨t, ht, generation_loadPattern draws s t p ht⟩
  · intro s1 evs t hs1 ht hcount
    rw [hs0] at hs1
    cases hs1
    have := generation_run_bound draws evs s0 t (by rw [hgen]) (by rw [hgen]; omega) ht
    rw [hgen] at this
    omega

/-- C8 at the sample state (generation 0): one `updateGrid` gives generation 1 and a
reset completes with generation 0; and three ticks from the initial state complete and
leave a generation between 0 and 3. -/
theorem C8_generation_witness :
    WellFormed sampleState ∧ ChanOK sampleState ∧
      (∃ t, updateGrid sampleState = some t ∧ t.generation = sampleState.generation + 1) ∧
      (∃ t, resetSimulation (fun _ => false) sampleState "random" = some t ∧
        t.generation = 0) ∧
      (∃ s0 t, initialState (fun _ => false) = some s0 ∧
        run (fun _ => false) s0 [Event.tick, Event.tick, Event.tick] = some t ∧
        0 ≤ t.generation ∧ t.generation ≤ 3) :=
  ⟨by decide, by decide,
    (C8_generation (fun _ => false)).2.2.2.2.1 sampleState (by decide) (by decide)
      (by decide),
    (C8_generation (fun _ => false)).2.2.2.2.2.2.2.2.1 sampleState "random" (by decide)
      (by decide),
    match initialState_spec (fun _ => false) with
    | ⟨s0, h0, hwf, _, _, hgen, _⟩ =>
      match ticks_run (fun _ => false) 3 s0 hwf (by rw [hgen]; decide)
          (by rw [hgen]; decide) with
      | ⟨t, ht, _, _⟩ =>
        ⟨s0, t, h0, ht,
          (C8_generation (fun _ => false)).2.2.2.2.2.2.2.2.2.2.2.2.2.2 s0
            [Event.tick, Event.tick, Event.tick] t h0 ht (by decide)⟩⟩

/-- C8 (counterexample to "increased by exactly 1 by every updateGrid step" and to
"non-negative"): on the well-formed state whose counter is the largest `int`,
`9223372036854775807`, `updateGrid` leaves `-9223372036854775808`, which is neither the
old value plus 1 nor non-negative; and that counter value is reached from the initial
state by `2^63 - 1` ticks, after which one more tick makes the counter negative. -/
theorem C8_overflow_counterexample :
    WellFormed overflowState ∧ overflowState.generation = 9223372036854775807 ∧
    (updateGrid overflowState).map State.generation = some (-9223372036854775808) ∧
    (∃ s0 s t, initialState (fun _ => false) = some s0 ∧
      run (fun _ => false) s0 (List.replicate 9223372036854775807 Event.tick) = some s ∧
      s.generation = 9223372036854775807 ∧
      step (fun _ => false) s Event.tick = some t ∧
      t.generation = -9223372036854775808 ∧ ¬ 0 ≤ t.generation ∧
      t.generation ≠ s.generation + 1) := by
  refine ⟨by decide, rfl, by decide, ?_⟩
  obtain ⟨s0, hs0, hwf, _, _, hgen, _⟩ := initialState_spec (fun _ => false)
  obtain ⟨s, hs, hwfs, hg⟩ := ticks_run (fun _ => false) 9223372036854775807 s0 hwf
    (by rw [hgen]; decide) (by rw [hgen]; decide)
  have hgs : s.generation = 9223372036854775807 := by
    rw [hg, hgen]
    decide
  obtain ⟨t, ht, _, hgt, _⟩ := tick_total (fun _ => false) s hwfs
  have hgt2 : t.generation = -9223372036854775808 := by
    rw [hgt, hgs]
    decide
  refine ⟨s0, s, t, hs0, hs, hgs, ht, hgt2, ?_, ?_⟩
  · rw [hgt2]; decide
  · rw [hgt2, hgs]; decide


/-! ## Pattern loading -/

/-- C9: on a grid of `width ≥ 4` by `height ≥ 4`, whatever its cells held before,
`loadPattern` with one of the names glider, blinker, toad, beacon completes, keeps the
dimensions, zeroes `generation`, and leaves exactly the cells of the named pattern
around `(cx, cy) = (width / 2, height / 2)` live and every other cell dead; all those
cells lie inside the grid, and the population is 5, 3, 6 and 8 respectively. -/
theorem C9_loadPattern_cells (draws : Nat → Bool) (s : State) (p : String)
    (hp : p = "glider" ∨ p = "blinker" ∨ p = "toad" ∨ p = "beacon")
    (hr : Rect s.grid s.width s.height) (hw : 4 ≤ s.width) (hh : 4 ≤ s.height) :
    ∃ t, loadPattern draws s p = some t ∧
      t.width = s.width ∧ t.height = s.height ∧ t.generation = 0 ∧ WellFormed t ∧
      (∀ c ∈ specPatternCells p (s.width / 2) (s.height / 2),
        0 ≤ c.1 ∧ c.1 < s.width ∧ 0 ≤ c.2 ∧ c.2 < s.height) ∧
      (∀ x y : Int, 0 ≤ x → x < s.width → 0 ≤ y → y < s.height →
        readCell t.grid x y =
          some (if (x, y) ∈ specPatternCells p (s.width / 2) (s.height / 2) then 1 else 0)) ∧
      getPopulation t =
        some ((specPatternCells p (s.width / 2) (s.height / 2)).length : Int) ∧
      (specPatternCells p (s.width / 2) (s.height / 2)).length =
        (if p = "glider" then 5 else if p = "blinker" then 3
          else if p = "toad" then 6 else 8) := by
  have hne : p ≠ "random" := by
    rcases hp with rfl | rfl | rfl | rfl <;> decide
  have hcx : Int.tdiv s.width 2 = s.width / 2 := Int.tdiv_eq_ediv (by omega) (by decide)
  have hcy : Int.tdiv s.height 2 = s.height / 2 := Int.tdiv_eq_ediv (by omega) (by decide)
  have hinside := specPatternCells_inside p s.width s.height hw hh
  obtain ⟨g, hg, hrect, hread⟩ := stamp_spec
    (specPatternCells p (s.width / 2) (s.height / 2))
    (tabulate s.width.toNat s.height.toNat (fun _ _ => 0)) s.width s.height
    (rect_zeros s hr) hinside
  have hbin : Binary g := binary_stamp _ _ g (binary_zeros _ _) hg
  have hcells : ∀ x y : Int, 0 ≤ x → x < s.width → 0 ≤ y → y < s.height →
      readCell g x y =
        some (if (x, y) ∈ specPatternCells p (s.width / 2) (s.height / 2) then 1 else 0) := by
    intro x y hx hxw hy hyh
    rw [hread x y, readCell_tabulate _ _ _ x y hx (by omega) hy (by omega)]
    split <;> rfl
  have hwf : WellFormed { s with grid := g, generation := 0 } := ⟨hrect, hbin⟩
  refine ⟨{ s with grid := g, generation := 0 }, ?_, rfl, rfl, rfl, hwf, hinside, hcells,
    ?_, ?_⟩
  · rw [loadPattern_eq_stamp draws s p hr hne, hcx, hcy, hg]
    rfl
  · rw [getPopulation_eq_spec _ hwf,
      specPopulation_of_cells { s with grid := g, generation := 0 } _
        (specPatternCells_nodup p _ _) hinside hcells]
  · rcases hp with rfl | rfl | rfl | rfl <;> simp [specPatternCells]

/-- C9 on a 4 x 4 grid whose cells were all live: the toad. -/
theorem C9_loadPattern_cells_witness :
    (loadPattern (fun _ => true) fullState "toad").map (fun t => t.grid) =
      some [[0, 0, 0, 0], [0, 1, 1, 1], [1, 1, 1, 0], [0, 0, 0, 0]] ∧
    ∃ t, loadPattern (fun _ => true) fullState "toad" = some t ∧
      getPopulation t = some 6 :=
  ⟨by decide,
    match C9_loadPattern_cells (fun _ => true) fullState "toad"
        (by decide) (by decide) (by decide) (by decide) with
    | ⟨t, h1, _, _, _, _, _, _, h8, _⟩ => ⟨t, h1, h8⟩⟩

/-- C10: for every pattern name other than glider, blinker, toad, beacon and random
(the empty string included) and every prior grid of the stored dimensions,
`loadPattern` completes and leaves a grid of the same dimensions in which every cell
is dead, with population 0 and `generation` 0; nothing else in the state changes. -/
theorem C10_unknown_pattern (draws : Nat → Bool) (s : State) (p : String)
    (h1 : p ≠ "glider") (h2 : p ≠ "blinker") (h3 : p ≠ "toad") (h4 : p ≠ "beacon")
    (h5 : p ≠ "random") (hr : Rect s.grid s.width s.height) :
    ∃ t, loadPattern draws s p = some t ∧
      t = { s with grid := t.grid, generation := 0 } ∧
      Rect t.grid s.width s.height ∧
      (∀ x y : Int, 0 ≤ x → x < s.width → 0 ≤ y → y < s.height →
        readCell t.grid x y = some 0) ∧
      (∀ row ∈ t.grid, ∀ c ∈ row, c = 0) ∧
      getPopulation t = some 0 := by
  have hcells : specPatternCells p (Int.tdiv s.width 2) (Int.tdiv s.height 2) = [] := by
    simp [specPatternCells, h1, h2, h3, h4]
  have hz := rect_zeros s hr
  have hread : ∀ x y : Int, 0 ≤ x → x < s.width → 0 ≤ y → y < s.height →
      readCell (tabulate s.width.toNat s.height.toNat (fun _ _ => 0)) x y = some 0 := by
    intro x y hx hxw hy hyh
    exact readCell_tabulate _ _ _ x y hx (by omega) hy (by omega)
  have hwf : WellFormed { s with
      grid := tabulate s.width.toNat s.height.toNat (fun _ _ => 0), generation := 0 } :=
    ⟨hz, binary_zeros _ _⟩
  refine ⟨{ s with
      grid := tabulate s.width.toNat s.height.toNat (fun _ _ => 0), generation := 0 },
    ?_, rfl, hz, hread, ?_, ?_⟩
  · rw [loadPattern_eq_stamp draws s p hr h5, hcells]
    rfl
  · intro row hrow c hc
    simp only [tabulate, List.mem_map] at hrow
    obtain ⟨y, _, rfl⟩ := hrow
    simp only [List.mem_map] at hc
    obtain ⟨x, _, rfl⟩ := hc
    rfl
  · rw [getPopulation_eq_spec _ hwf,
      specPopulation_of_cells { s with
          grid := tabulate s.width.toNat s.height.toNat (fun _ _ => 0), generation := 0 }
        [] List.nodup_nil (by simp)
        (by
          intro x y hx hxw hy hyh
          simpa using hread x y hx hxw hy hyh)]
    rfl

/-- C10 at the sample state with the empty pattern name. -/
theorem C10_unknown_pattern_witness :
    Rect sampleState.grid sampleState.width sampleState.height ∧
      ∃ t, loadPattern (fun _ => true) sampleState "" = some t ∧
        getPopulation t = some 0 :=
  ⟨by decide,
    match C10_unknown_pattern (fun _ => true) sampleState ""
        (by decide) (by decide) (by decide) (by decide) (by decide) (by decide) with
    | ⟨t, h1, _, _, _, _, h6⟩ => ⟨t, h1, h6⟩⟩

/-! ## The state invariant -/

theorem dims_step (draws : Nat → Bool) (s t : State) (e : Event) (h : DimsOK s)
    (ht : step draws s e = some t) : DimsOK t := by
  have keep : t.width = s.width → t.height = s.height → DimsOK t := by
    intro hw hh
    unfold DimsOK at *
    rw [hw, hh]
    exact h
  cases e with
  | json cm =>
    simp only [step] at ht
    by_cases h1 : cm.type = "resize"
    · rw [handleJSON_resize draws s cm h1] at ht
      split_ifs at ht with hbad
      · cases ht; exact h
      · obtain ⟨_, hw, hh⟩ := wellFormed_applyResize draws s t _ _ (by omega) (by omega) ht
        unfold DimsOK maxWidth maxHeight
        rw [hw, hh]
        omega
    · by_cases h2 : cm.type = "pattern"
      · rw [handleJSON_pattern draws s cm h2] at ht
        simp only [Option.bind_eq_some, Option.some.injEq] at ht
        obtain ⟨s1, hs1, m, _, rfl⟩ := ht
        obtain ⟨g, pos, rfl⟩ := loadPattern_inv draws s s1 _ hs1
        exact keep rfl rfl
      · by_cases h3 : cm.type = "speed"
        · rw [handleJSON_speed draws s cm h3] at ht
          split_ifs at ht
          · simp only [Option.bind_eq_some, Option.some.injEq] at ht
            obtain ⟨s1, hs1, rfl⟩ := ht
            obtain ⟨_, hw1, hh1, _⟩ := stopSimulation_frame _ s1 hs1
            obtain ⟨_, hw2, hh2, _⟩ := startSimulation_frame s1
            exact keep (by rw [hw2, hw1]) (by rw [hh2, hh1])
          · cases ht; exact keep rfl rfl
          · cases ht; exact h
        · rw [handleJSON_other draws s cm h1 h2 h3] at ht
          cases ht; exact h
  | text msg =>
    simp only [step, handleText] at ht
    split_ifs at ht
    · cases ht
      obtain ⟨_, hw2, hh2, _⟩ := startSimulation_frame s
      exact keep hw2 hh2
    · obtain ⟨_, hw1, hh1, _⟩ := stopSimulation_frame s t ht
      exact keep hw1 hh1
    · obtain ⟨s1, s2, text, hs1, hs2, _, rfl⟩ := resetSimulation_inv draws s t _ ht
      obtain ⟨_, hw1, hh1, _⟩ := stopSimulation_frame s s1 hs1
      obtain ⟨g, pos, rfl⟩ := initGrid_inv draws s1 s2 hs2
      exact keep hw1 hh1
    · cases ht; exact h
  | tick =>
    simp only [step, Option.bind_eq_bind, Option.bind_eq_some, Option.pure_def,
      Option.some.injEq] at ht
    obtain ⟨s1, hs1, m, _, rfl⟩ := ht
    obtain ⟨g, rfl⟩ := updateGrid_inv s s1 hs1
    exact keep rfl rfl

theorem dims_run (draws : Nat → Bool) (evs : List Event) (s t : State) (h : DimsOK s)
    (ht : run draws s evs = some t) : DimsOK t := by
  induction evs generalizing s with
  | nil =>
    simp [run] at ht
    subst ht; exact h
  | cons e rest ih =>
    simp only [run, List.foldlM_cons, Option.bind_eq_bind, Option.bind_eq_some] at ht
    obtain ⟨s1, hs1, hrest⟩ := ht
    exact ih s1 (dims_step draws s s1 e h hs1) hrest

/-- C11: the initial state exists (`initGrid` at 170 x 42, stopped, generation 0), and
in every state reached from it by any finite sequence of events that completes (JSON
messages with any type, any integers and any pattern name, the plain-text messages,
and ticks) the dimensions satisfy `1 ≤ width ≤ 1000` and `1 ≤ height ≤ 400`, the grid
has exactly `height` rows of exactly `width` cells, and every cell is 0 or 1. -/
theorem C11_state_invariant (draws : Nat → Bool) :
    ∃ s0, initialState draws = some s0 ∧ s0.width = 170 ∧ s0.height = 42 ∧
      s0.running = false ∧ s0.generation = 0 ∧
      ∀ evs t, run draws s0 evs = some t →
        1 ≤ t.width ∧ t.width ≤ 1000 ∧ 1 ≤ t.height ∧ t.height ≤ 400 ∧
        (t.grid.length : Int) = t.height ∧
        (∀ row ∈ t.grid, (row.length : Int) = t.width) ∧
        (∀ row ∈ t.grid, ∀ c ∈ row, c = 0 ∨ c = 1) := by
  obtain ⟨s0, hs0, hwf, hw, hh, hgen, hrun, _⟩ := initialState_spec draws
  refine ⟨s0, hs0, hw, hh, hrun, hgen, ?_⟩
  intro evs t ht
  have hd0 : DimsOK s0 := by
    unfold DimsOK maxWidth maxHeight
    rw [hw, hh]
    decide
  obtain ⟨h1, h2, h3, h4⟩ := dims_run draws evs s0 t hd0 ht
  obtain ⟨⟨⟨hlen, hrows⟩, hbin⟩, _⟩ := invariant_run draws evs s0 t hwf
    (fun hr => by rw [hrun] at hr; cases hr) ht
  exact ⟨h1, h2, h3, h4, hlen, hrows, hbin⟩

/-- C11 along a run of ten events from the initial state: a resize to 5000 x 5000
(clamped to 1000 x 400), a tick, start, a speed change, a tick, a glider load, a tick,
a resize to 7 x 5, a reset and a tick.  The run completes and the state it reaches
satisfies the invariant. -/
theorem C11_state_invariant_witness :
    ∃ s0 t, initialState (fun n => n % 3 == 0) = some s0 ∧
      run (fun n => n % 3 == 0) s0
        [Event.json { type := "resize", width := 5000, height := 5000, pattern := "",
                      speed := 0 },
         Event.tick,
         Event.text "start",
         Event.json { type := "speed", width := 0, height := 0, pattern := "",
                      speed := 50 },
         Event.tick,
         Event.json { type := "pattern", width := 0, height := 0, pattern := "glider",
                      speed := 0 },
         Event.tick,
         Event.json { type := "resize", width := 7, height := 5, pattern := "",
                      speed := 0 },
         Event.text "reset",
         Event.tick] = some t ∧
      1 ≤ t.width ∧ t.width ≤ 1000 ∧ 1 ≤ t.height ∧ t.height ≤ 400 ∧
      (t.grid.length : Int) = t.height ∧
      (∀ row ∈ t.grid, (row.length : Int) = t.width) ∧
      (∀ row ∈ t.grid, ∀ c ∈ row, c = 0 ∨ c = 1) :=
  match C11_state_invariant (fun n => n % 3 == 0) with
  | ⟨s0, h0, hw, hh, _, _, hinv⟩ =>
    match run_total (fun n => n % 3 == 0) _ s0
        (invariant_reachable _ [] s0 s0 h0 rfl).1
        (invariant_reachable _ [] s0 s0 h0 rfl).2
        (by rw [hw]; decide) (by rw [hh]; decide)
        (by
          intro e he cm hcm hty
          simp only [List.mem_cons, List.mem_singleton, List.not_mem_nil, or_false] at he
          rcases he with rfl | rfl | rfl | rfl | rfl | rfl | rfl | rfl | rfl | rfl <;>
            cases hcm <;> decide) with
    | ⟨t, ht⟩ => ⟨s0, t, h0, ht, hinv _ t ht⟩

/-! ## The all-dead grid -/

theorem tabulate_congr (w h : Nat) (f f' : Int → Int → Int)
    (hf : ∀ (x y : Nat), x < w → y < h → f (x : Int) (y : Int) = f' (x : Int) (y : Int)) :
    tabulate w h f = tabulate w h f' := by
  unfold tabulate
  apply List.map_congr_left
  intro y hy
  apply List.map_congr_left
  intro x hx
  exact hf x y (List.mem_range.mp hx) (List.mem_range.mp hy)

/-- A rectangular grid is determined by the values read from its cells. -/
theorem grid_eq_tabulate (g : Grid) (w h : Int) (f : Int → Int → Int) (hr : Rect g w h)
    (hf : ∀ x y : Int, 0 ≤ x → x < w → 0 ≤ y → y < h → readCell g x y = some (f x y)) :
    g = tabulate w.toNat h.toNat f := by
  have hlen : g.length = h.toNat := by have := hr.1; omega
  apply List.ext_getElem
  · simp [tabulate, hlen]
  · intro i hi _
    have hrow : ((g[i]).length : Int) = w := hr.2 _ (List.getElem_mem hi)
    simp only [tabulate, List.getElem_map, List.getElem_range]
    apply List.ext_getElem
    · simp; omega
    · intro j hj _
      have := hf (j : Int) (i : Int) (by omega) (by omega) (by omega) (by omega)
      rw [readCell_natCast] at this
      simp only [List.getElem?_eq_getElem hi, List.getElem?_eq_getElem hj,
        Option.some_bind, Option.some.injEq] at this
      simp [this]

theorem readCell_mem (g : Grid) (x y c : Int) (h : readCell g x y = some c) :
    ∃ row ∈ g, c ∈ row := by
  unfold readCell index at h
  simp only [Option.bind_eq_bind, Option.bind_eq_some] at h
  obtain ⟨row, hrow, hc⟩ := h
  split_ifs at hrow hc
  exact ⟨row, List.getElem?_mem hrow, List.getElem?_mem hc⟩

theorem binary_of_allDead (g : Grid) (h : AllDead g) : Binary g :=
  fun row hrow c hc => Or.inl (h row hrow c hc)

theorem specNextCell_allDead (s : State) (hd : AllDead s.grid) (x y : Int) :
    specNextCell s x y = 0 := by
  have hno : ∀ a b : Int, readCell s.grid a b ≠ some 1 := by
    intro a b hab
    obtain ⟨row, hrow, hc⟩ := readCell_mem _ _ _ _ hab
    have := hd row hrow 1 hc
    omega
  have hcount : specNeighbourCount s x y = 0 := by
    unfold specNeighbourCount
    rw [List.countP_eq_zero]
    intro d _
    simp only [decide_eq_true_eq]
    intro hl
    exact hno _ _ hl.2.2.2.2
  unfold specNextCell
  rw [if_neg]
  rintro (⟨h1, _⟩ | ⟨_, h3⟩)
  · exact hno x y h1
  · rw [hcount] at h3
    omega

/-- One `updateGrid` on an all-dead rectangular grid returns the same grid. -/
theorem updateGrid_allDead (s : State) (hr : Rect s.grid s.width s.height)
    (hd : AllDead s.grid) :
    updateGrid s = some { s with generation := wrapInt (s.generation + 1) } := by
  have hwf : WellFormed s := ⟨hr, binary_of_allDead _ hd⟩
  rw [updateGrid_eq s hwf]
  have hgrid : s.grid = tabulate s.width.toNat s.height.toNat (specNextCell s) := by
    apply grid_eq_tabulate _ _ _ _ hr
    intro x y hx hxw hy hyh
    rw [specNextCell_allDead s hd]
    rcases readCell_wellFormed s hwf x y hx hxw hy hyh with h0 | h1
    · exact h0
    · obtain ⟨row, hrow, hc⟩ := readCell_mem _ _ _ _ h1
      have := hd row hrow 1 hc
      omega
  rw [← hgrid]

/-- C12: if every cell of a grid of `height` rows of `width` cells is dead, `updateGrid`
completes and every cell of the new grid is dead (the grid is unchanged), and the same
holds after any number `n` of consecutive steps, which add `n` to `generation` as long
as the counter stays within the `int` range. -/
theorem C12_all_dead_fixed (s : State) (hr : Rect s.grid s.width s.height)
    (hd : AllDead s.grid) :
    (∃ t, updateGrid s = some t ∧ AllDead t.grid ∧ t.grid = s.grid ∧
      t.width = s.width ∧ t.height = s.height) ∧
    ∀ n : Nat, ∃ t, updateGridN n s = some t ∧ AllDead t.grid ∧ t.grid = s.grid ∧
      t.width = s.width ∧ t.height = s.height ∧
      (intMin ≤ s.generation → s.generation + (n : Int) ≤ intMax →
        t.generation = s.generation + (n : Int)) := by
  refine ⟨⟨_, updateGrid_allDead s hr hd, hd, rfl, rfl, rfl⟩, ?_⟩
  intro n
  induction n generalizing s with
  | zero => exact ⟨s, rfl, hd, rfl, rfl, rfl, fun _ _ => by simp⟩
  | succ k ih =>
    obtain ⟨t, ht, hdt, hg, hw, hh, hgen⟩ :=
      ih { s with generation := wrapInt (s.generation + 1) } hr hd
    refine ⟨t, ?_, hdt, hg, hw, hh, ?_⟩
    · simp only [updateGridN, updateGrid_allDead s hr hd, Option.some_bind]
      exact ht
    · intro h1 h2
      push_cast at h2
      have hk : (0 : Int) ≤ (k : Int) := Int.ofNat_nonneg k
      have e : wrapInt (s.generation + 1) = s.generation + 1 :=
        wrapInt_succ s.generation h1 (by omega)
      have := hgen (by show intMin ≤ wrapInt (s.generation + 1); rw [e]; omega)
        (by show wrapInt (s.generation + 1) + (k : Int) ≤ intMax; rw [e]; omega)
      rw [this]
      show wrapInt (s.generation + 1) + (k : Int) = s.generation + ((k + 1 : Nat) : Int)
      rw [e]
      push_cast
      ring

/-- C12 on the 3 x 3 all-dead state, for one step and for ten. -/
theorem C12_all_dead_fixed_witness :
    Rect deadState.grid deadState.width deadState.height ∧ AllDead deadState.grid ∧
      (∃ t, updateGrid deadState = some t ∧ AllDead t.grid) ∧
      ∃ t, updateGridN 10 deadState = some t ∧ AllDead t.grid :=
  ⟨by decide, by decide,
    match (C12_all_dead_fixed deadState (by decide) (by decide)).1 with
    | ⟨t, h1, h2, _⟩ => ⟨t, h1, h2⟩,
    match (C12_all_dead_fixed deadState (by decide) (by decide)).2 10 with
    | ⟨t, h1, h2, _⟩ => ⟨t, h1, h2⟩⟩

/-! ## Pattern loading: what it leaves alone, and where it faults -/

/-- C16: whenever `loadPattern` completes, for every pattern name, it has changed only
the grid contents, `generation` and the count of consumed random draws: the running
flag, the stop channel, the number of spawned ticker tasks, the speed, the width and
the height are the same as before; the same holds for the whole `pattern` command,
which in addition appends one message to the broadcast log. -/
theorem C16_loadPattern_frame (draws : Nat → Bool) (s t : State) (p : String)
    (ht : loadPattern draws s p = some t) :
    (t.running = s.running ∧ t.tickerStop = s.tickerStop ∧ t.spawned = s.spawned ∧
      t.speed = s.speed ∧ t.width = s.width ∧ t.height = s.height ∧ t.sent = s.sent) ∧
    ∀ cm u, cm.type = "pattern" → cm.pattern = p → handleJSON draws s cm = some u →
      u.running = s.running ∧ u.tickerStop = s.tickerStop ∧ u.spawned = s.spawned ∧
      u.speed = s.speed ∧ u.width = s.width ∧ u.height = s.height ∧
      u.grid = t.grid ∧ u.generation = 0 ∧ ∃ m, u.sent = s.sent ++ [Outbound.json m] := by
  obtain ⟨g, pos, rfl⟩ := loadPattern_inv draws s t p ht
  refine ⟨⟨rfl, rfl, rfl, rfl, rfl, rfl, rfl⟩, ?_⟩
  intro cm u hty hp hu
  rw [handleJSON_pattern draws s cm hty, hp, ht] at hu
  simp only [Option.some_bind, Option.bind_eq_some, Option.some.injEq] at hu
  obtain ⟨m, _, rfl⟩ := hu
  exact ⟨rfl, rfl, rfl, rfl, rfl, rfl, rfl, rfl, m, rfl⟩

/-- C16 at the sample state with the blinker. -/
theorem C16_loadPattern_frame_witness :
    loadPattern (fun _ => false) sampleState "blinker" =
      some { sampleState with grid := [[0, 0, 0], [1, 1, 1], [0, 0, 0]] } ∧
    sampleState.running = false ∧ sampleState.speed = 100 :=
  ⟨by decide,
    (C16_loadPattern_frame (fun _ => false) sampleState
      { sampleState with grid := [[0, 0, 0], [1, 1, 1], [0, 0, 0]] } "blinker"
      (by decide)).1.1.symm,
    (C16_loadPattern_frame (fun _ => false) sampleState
      { sampleState with grid := [[0, 0, 0], [1, 1, 1], [0, 0, 0]] } "blinker"
      (by decide)).1.2.2.2.1.symm⟩

/-- A stamp that completes on a rectangular grid wrote only inside the grid. -/
theorem stamp_inside (cells : List (Int × Int)) (g g' : Grid) (w h : Int) (hr : Rect g w h)
    (hs : stamp g cells = some g') :
    ∀ p ∈ cells, 0 ≤ p.1 ∧ p.1 < w ∧ 0 ≤ p.2 ∧ p.2 < h := by
  induction cells generalizing g with
  | nil => intro p hp; simp at hp
  | cons c rest ih =>
    simp only [stamp, List.foldlM_cons, Option.bind_eq_bind, Option.bind_eq_some] at hs
    obtain ⟨g1, hg1, hrest⟩ := hs
    have hr1 := rect_writeCell g g1 w h _ _ 1 hr hg1
    obtain ⟨xn, yn, row, hx, hy, hrow, hxl, _⟩ := writeCell_inv g g1 _ _ _ hg1
    have hyl : yn < g.length := (List.getElem?_eq_some.mp hrow).1
    have hrl := hr.2 row (List.getElem?_mem hrow)
    have hgl := hr.1
    intro p hp
    rcases List.mem_cons.mp hp with rfl | hmem
    · exact ⟨by omega, by omega, by omega, by omega⟩
    · exact ih g1 hr1 hrest p hmem

/-- On a rectangular grid `loadPattern` with a name other than `random` completes
exactly when every cell of the named pattern lies inside the grid. -/
theorem loadPattern_isSome_iff (draws : Nat → Bool) (s : State) (p : String)
    (hr : Rect s.grid s.width s.height) (hp : p ≠ "random") :
    (∃ t, loadPattern draws s p = some t) ↔
      ∀ c ∈ specPatternCells p (Int.tdiv s.width 2) (Int.tdiv s.height 2),
        0 ≤ c.1 ∧ c.1 < s.width ∧ 0 ≤ c.2 ∧ c.2 < s.height := by
  rw [loadPattern_eq_stamp draws s p hr hp]
  constructor
  · rintro ⟨t, ht⟩
    simp only [Option.map_eq_some'] at ht
    obtain ⟨g, hg, _⟩ := ht
    exact stamp_inside _ _ g _ _ (rect_zeros s hr) hg
  · intro hin
    obtain ⟨g, hg, _⟩ := stamp_spec _ _ _ _ (rect_zeros s hr) hin
    exact ⟨_, by rw [hg]; rfl⟩

/-- C19 (failing input): the 1 x 1 state is well-formed, has dimensions in the range a
resize can produce, and is what `resize(1, 1)` leaves; on it `loadPattern` faults
(index out of range) for glider, blinker, toad and beacon, and so does the `pattern`
command; on the 3 x 3 sample state toad and beacon fault.  Only `random` and unknown
names complete there. -/
theorem C19_pattern_out_of_range :
    WellFormed tinyState ∧ DimsOK tinyState ∧
    (handleJSON (fun _ => false) sampleState
        { type := "resize", width := 1, height := 1, pattern := "", speed := 0 }).map
      (fun t => (t.width, t.height, t.grid)) = some (1, 1, [[0]]) ∧
    loadPattern (fun _ => false) tinyState "glider" = none ∧
    loadPattern (fun _ => false) tinyState "blinker" = none ∧
    loadPattern (fun _ => false) tinyState "toad" = none ∧
    loadPattern (fun _ => false) tinyState "beacon" = none ∧
    handleJSON (fun _ => false) tinyState
        { type := "pattern", width := 0, height := 0, pattern := "glider", speed := 0 } =
      none ∧
    loadPattern (fun _ => false) sampleState "toad" = none ∧
    loadPattern (fun _ => false) sampleState "beacon" = none ∧
    (loadPattern (fun _ => true) tinyState "random").isSome = true ∧
    (loadPattern (fun _ => false) tinyState "").isSome = true := by
  decide

/-! ## The terminal version steps like the server -/

/-- One iteration of the inner loop of the terminal `countNeightbours`, which adds
`dy` to `x` and `dx` to `y`. -/
theorem countNeightbours_step (s : State) (h : WellFormed s) (x y dy count dx : Int) :
    (if dx = 0 ∧ dy = 0 then (pure count : Option Int)
      else
        let nx := x + dy
        let ny := y + dx
        if nx ≥ 0 ∧ nx < s.width ∧ ny ≥ 0 ∧ ny < s.height then do
          let c ← readCell s.grid nx ny
          pure (count + c)
        else pure count) =
    some (count + ((if dx = 0 ∧ dy = 0 then 0
      else if liveAt s (x + dy) (y + dx) then 1 else 0 : Nat) : Int)) := by
  by_cases hz : dx = 0 ∧ dy = 0
  · simp [hz]
  · rw [if_neg hz, if_neg hz]
    exact probe_eq s h (x + dy) (y + dx) count

/-- The terminal neighbour count is the specification's, on every well-formed grid. -/
theorem countNeightbours_eq_spec (s : State) (h : WellFormed s) (x y : Int) :
    Terminal.countNeightbours s.grid s.width s.height x y =
      some (specNeighbourCount s x y : Int) := by
  unfold Terminal.countNeightbours specNeighbourCount
  rw [neighbourOffsets_eq]
  simp only [countNeightbours_step s h]
  simp only [List.foldlM_cons, List.foldlM_nil, List.countP_cons, List.countP_nil,
    pure_bind, Option.pure_def, Option.bind_eq_bind, Option.some_bind, decide_eq_true_eq]
  congr 1
  norm_num
  omega

/-- The inner loop of `updateGrid`, for any neighbour count function that agrees with
the specification's count. -/
theorem updateGrid_row_of (s : State) (h : WellFormed s)
    (cnt : Int → Int → Option Int)
    (hcnt : ∀ x y : Int, cnt x y = some (specNeighbourCount s x y : Int))
    (W : Nat) (hW : s.width = (W : Int))
    (g0 : Grid) (y : Nat) (hy : (y : Int) < s.height)
    (hrow : g0[y]? = some (List.replicate W (0 : Int))) :
    (upto (W : Int)).foldlM (fun newGrid x => do
      let neighbors ← cnt x y
      let c ← readCell s.grid x y
      if c = 1 ∧ (neighbors = 2 ∨ neighbors = 3) then writeCell newGrid x y 1
      else if c = 0 ∧ neighbors = 3 then writeCell newGrid x y 1
      else pure newGrid) g0 =
    some (g0.set y ((List.range W).map (fun (x : Nat) => specNextCell s (x : Int) (y : Int)))) := by
  have hylt : y < g0.length := (List.getElem?_eq_some.mp hrow).1
  apply foldlM_fill_row W _ _ g0 y (List.replicate W 0) hrow (by simp)
  intro k row hk hl hrest
  have hk0 : row[k]? = some 0 := by
    rw [hrest k (le_refl k)]; simp [hk]
  have hget : (g0.set y row)[y]? = some row := by simp [hylt]
  have hw : writeCell (g0.set y row) (k : Int) (y : Int) 1 =
      some (g0.set y (row.set k 1)) := by
    rw [writeCell_natCast _ k y 1 row hget (by omega)]
    simp
  simp only [hcnt]
  simp only [Option.bind_eq_bind, Option.some_bind]
  rcases readCell_wellFormed s h (k : Int) (y : Int) (by omega) (by omega) (by omega) hy
    with h0 | h1
  · rw [h0]
    simp only [Option.some_bind]
    by_cases h3 : specNeighbourCount s (k : Int) (y : Int) = 3
    · simp [specNextCell, h0, h3, hw]
    · have h3' : ¬ ((specNeighbourCount s (k : Int) (y : Int) : Int) = 3) := by
        intro hc; exact h3 (by exact_mod_cast hc)
      simp [specNextCell, h0, h3, h3', set_eq_self_of_getElem? row k 0 hk0]
  · rw [h1]
    simp only [Option.some_bind]
    by_cases h23 : specNeighbourCount s (k : Int) (y : Int) = 2 ∨
        specNeighbourCount s (k : Int) (y : Int) = 3
    · have h23' : (specNeighbourCount s (k : Int) (y : Int) : Int) = 2 ∨
          (specNeighbourCount s (k : Int) (y : Int) : Int) = 3 := by
        rcases h23 with a | a
        · left; exact_mod_cast a
        · right; exact_mod_cast a
      simp [specNextCell, h1, h23, h23', hw]
    · have h23' : ¬ ((specNeighbourCount s (k : Int) (y : Int) : Int) = 2 ∨
          (specNeighbourCount s (k : Int) (y : Int) : Int) = 3) := by
        intro hc
        apply h23
        rcases hc with a | a
        · left; exact_mod_cast a
        · right; exact_mod_cast a
      simp [specNextCell, h1, h23, h23', set_eq_self_of_getElem? row k 0 hk0]

/-- On a well-formed grid the terminal `updateGrid` does not fault, and the new grid
holds the specification's next value in every cell. -/
theorem terminal_updateGrid_eq (s : State) (h : WellFormed s) :
    Terminal.updateGrid s.grid s.width s.height =
      some (tabulate s.width.toNat s.height.toNat (specNextCell s)) := by
  obtain ⟨H, hH⟩ : ∃ H : Nat, s.height = (H : Int) := ⟨s.grid.length, h.1.1.symm⟩
  unfold Terminal.updateGrid
  rw [hH, make_natCast]
  simp only [Option.bind_eq_bind, Option.some_bind, Int.toNat_ofNat]
  apply foldlM_fill H _ _ (List.replicate H []) (by simp)
  intro k xs hk hl _
  have hw : 0 ≤ s.width := width_nonneg_of_rect _ _ _ h.1 (by omega)
  obtain ⟨W, hW⟩ := Int.eq_ofNat_of_zero_le hw
  rw [hW, make_natCast]
  simp only [Option.some_bind]
  rw [assign_natCast _ _ _ (by omega)]
  simp only [Option.some_bind]
  have := updateGrid_row_of s h
    (fun x y => Terminal.countNeightbours s.grid (W : Int) (H : Int) x y)
    (by
      intro x y
      have := countNeightbours_eq_spec s h x y
      rw [hW, hH] at this
      exact this)
    W hW (xs.set k (List.replicate W 0)) k (by omega) (by simp [hl, hk])
  simp only [Option.bind_eq_bind] at this
  rw [this]
  simp

/-- C18: on every well-formed grid and for every cell `(x, y)` the terminal
`countNeightbours` (which adds `dy` to `x` and `dx` to `y`) returns the same count as
the server's `countNeighbours`, and the terminal `updateGrid` completes with exactly
the grid that the server's `updateGrid` produces. -/
theorem C18_terminal_same_step (s : State) (h : WellFormed s) :
    (∀ x y : Int, Terminal.countNeightbours s.grid s.width s.height x y =
      countNeighbours s x y) ∧
    (∀ x y : Int, ∃ n : Int, countNeighbours s x y = some n) ∧
    ∃ g, Terminal.updateGrid s.grid s.width s.height = some g ∧
      (updateGrid s).map (fun t => t.grid) = some g := by
  refine ⟨?_, ?_, ?_⟩
  · intro x y
    rw [countNeightbours_eq_spec s h, countNeighbours_eq_spec s h]
  · intro x y
    exact ⟨_, countNeighbours_eq_spec s h x y⟩
  · exact ⟨_, terminal_updateGrid_eq s h, by rw [updateGrid_eq s h]; rfl⟩

/-- C18 at the sample state: both versions turn the vertical blinker into the
horizontal one. -/
theorem C18_terminal_same_step_witness :
    WellFormed sampleState ∧
      Terminal.updateGrid sampleState.grid sampleState.width sampleState.height =
        some [[0, 0, 0], [1, 1, 1], [0, 0, 0]] ∧
      ∃ g, Terminal.updateGrid sampleState.grid sampleState.width sampleState.height =
          some g ∧ (updateGrid sampleState).map (fun t => t.grid) = some g :=
  ⟨by decide, by decide, (C18_terminal_same_step sampleState (by decide)).2.2⟩

/-! ## Grids given by their live cells -/

theorem paint_congr (w h : Int) (c1 c2 : List (Int × Int))
    (hc : ∀ a b : Int, (a, b) ∈ c1 ↔ (a, b) ∈ c2) : paint w h c1 = paint w h c2 := by
  unfold paint
  apply tabulate_congr
  intro x y _ _
  by_cases hm : ((x : Int), (y : Int)) ∈ c1
  · rw [if_pos hm, if_pos ((hc _ _).mp hm)]
  · rw [if_neg hm, if_neg (fun h2 => hm ((hc _ _).mpr h2))]

theorem liveExactly_congr (s : State) (c1 c2 : List (Int × Int))
    (hc : ∀ a b : Int, (a, b) ∈ c1 ↔ (a, b) ∈ c2) (h : LiveExactly s c1) :
    LiveExactly s c2 := by
  obtain ⟨hw, hh, hin, hg⟩ := h
  refine ⟨hw, hh, ?_, by rw [hg, paint_congr _ _ c1 c2 hc]⟩
  intro c hmem
  exact hin c ((hc c.1 c.2).mpr hmem)

/-- A state whose live cells are exactly the listed ones is well-formed, and a cell
reads 1 exactly at the listed positions. -/
theorem liveExactly_spec (s : State) (cells : List (Int × Int)) (h : LiveExactly s cells) :
    WellFormed s ∧
    (∀ a b : Int, 0 ≤ a → a < s.width → 0 ≤ b → b < s.height →
      readCell s.grid a b = some (if (a, b) ∈ cells then 1 else 0)) ∧
    (∀ a b : Int, liveAt s a b ↔ (a, b) ∈ cells) := by
  obtain ⟨hw, hh, hin, hg⟩ := h
  have hW : ((s.width.toNat : Nat) : Int) = s.width := by omega
  have hH : ((s.height.toNat : Nat) : Int) = s.height := by omega
  have hread : ∀ a b : Int, 0 ≤ a → a < s.width → 0 ≤ b → b < s.height →
      readCell s.grid a b = some (if (a, b) ∈ cells then 1 else 0) := by
    intro a b ha haw hb hbh
    rw [hg]
    exact readCell_tabulate _ _ _ a b ha (by omega) hb (by omega)
  refine ⟨⟨?_, ?_⟩, hread, ?_⟩
  · have := rect_tabulate s.width.toNat s.height.toNat
      (fun x y => if (x, y) ∈ cells then 1 else 0)
    rw [hW, hH] at this
    rw [hg]
    exact this
  · rw [hg]
    apply binary_tabulate
    intro x y
    split
    · right; rfl
    · left; rfl
  · intro a b
    constructor
    · rintro ⟨ha, haw, hb, hbh, hl⟩
      rw [hread a b ha haw hb hbh] at hl
      by_cases hm : (a, b) ∈ cells
      · exact hm
      · simp [hm] at hl
    · intro hm
      obtain ⟨ha, haw, hb, hbh⟩ := hin (a, b) hm
      refine ⟨ha, haw, hb, hbh, ?_⟩
      rw [hread a b ha haw hb hbh, if_pos hm]

/-- The converse: a well-formed state of non-negative width whose live positions are
exactly the listed ones is the painted grid. -/
theorem liveExactly_of_liveAt (s : State) (cells : List (Int × Int)) (hwf : WellFormed s)
    (hw : 0 ≤ s.width) (hl : ∀ a b : Int, liveAt s a b ↔ (a, b) ∈ cells) :
    LiveExactly s cells := by
  refine ⟨hw, by have := hwf.1.1; omega, ?_, ?_⟩
  · intro c hc
    have := (hl c.1 c.2).mpr hc
    exact ⟨this.1, this.2.1, this.2.2.1, this.2.2.2.1⟩
  · apply grid_eq_tabulate _ _ _ _ hwf.1
    intro x y hx hxw hy hyh
    rcases readCell_wellFormed s hwf x y hx hxw hy hyh with h0 | h1
    · have : (x, y) ∉ cells := by
        intro hm
        have := ((hl x y).mpr hm).2.2.2.2
        rw [h0] at this
        simp at this
      rw [h0, if_neg this]
    · have : (x, y) ∈ cells := (hl x y).mp ⟨hx, hxw, hy, hyh, h1⟩
      rw [h1, if_pos this]

theorem specNeighbourCount_eq_planeCount (s : State) (cells : List (Int × Int))
    (h : LiveExactly s cells) (a b : Int) :
    specNeighbourCount s a b = planeCount cells a b := by
  have hl := (liveExactly_spec s cells h).2.2
  unfold specNeighbourCount planeCount
  apply List.countP_congr
  intro d _
  simp only [decide_eq_true_eq]
  exact hl _ _

theorem specNextCell_eq_planeNext (s : State) (cells : List (Int × Int))
    (h : LiveExactly s cells) (a b : Int) (ha : 0 ≤ a) (haw : a < s.width) (hb : 0 ≤ b)
    (hbh : b < s.height) :
    specNextCell s a b = if planeNext cells a b then 1 else 0 := by
  have hread := (liveExactly_spec s cells h).2.1 a b ha haw hb hbh
  unfold specNextCell planeNext
  rw [hread, specNeighbourCount_eq_planeCount s cells h]
  by_cases hm : (a, b) ∈ cells
  · simp [hm]
  · simp [hm]

/-- One step on a grid given by its live cells: if `next` lists exactly the positions
inside the grid at which the rule gives a live cell, `updateGrid` completes and the
live cells of the new grid are exactly `next`. -/
theorem updateGrid_liveExactly (s : State) (cells next : List (Int × Int))
    (h : LiveExactly s cells)
    (hnext : ∀ a b : Int, (a, b) ∈ next ↔
      (inside s.width s.height a b ∧ planeNext cells a b)) :
    updateGrid s = some { s with
        grid := paint s.width s.height next, generation := wrapInt (s.generation + 1) } ∧
      LiveExactly { s with
        grid := paint s.width s.height next, generation := wrapInt (s.generation + 1) } next := by
  have hwf := (liveExactly_spec s cells h).1
  have hgrid : tabulate s.width.toNat s.height.toNat (specNextCell s) =
      paint s.width s.height next := by
    unfold paint
    apply tabulate_congr
    intro x y hx hy
    have hx' : (x : Int) < s.width := by omega
    have hy' : (y : Int) < s.height := by omega
    rw [specNextCell_eq_planeNext s cells h _ _ (by omega) hx' (by omega) hy']
    by_cases hp : planeNext cells (x : Int) (y : Int)
    · have : ((x : Int), (y : Int)) ∈ next :=
        (hnext _ _).mpr ⟨⟨by omega, hx', by omega, hy'⟩, hp⟩
      rw [if_pos hp, if_pos this]
    · have : ((x : Int), (y : Int)) ∉ next := fun hm => hp ((hnext _ _).mp hm).2
      rw [if_neg hp, if_neg this]
  refine ⟨by rw [updateGrid_eq s hwf, hgrid], h.1, h.2.1, ?_, rfl⟩
  intro c hc
  exact ((hnext c.1 c.2).mp hc).1

/-- The population of a grid given by a duplicate-free list of live cells is the
length of the list. -/
theorem getPopulation_liveExactly (s : State) (cells : List (Int × Int))
    (h : LiveExactly s cells) (hnd : cells.Nodup) :
    getPopulation s = some (cells.length : Int) := by
  obtain ⟨hwf, hread, _⟩ := liveExactly_spec s cells h
  rw [getPopulation_eq_spec s hwf, specPopulation_of_cells s cells hnd h.2.2.1 hread]

/-! ## The rule on lists of cells: translation and finite checks -/

theorem mem_shift (dx dy : Int) (cells : List (Int × Int)) (a b : Int) :
    (a, b) ∈ shift dx dy cells ↔ (a - dx, b - dy) ∈ cells := by
  unfold shift
  simp only [List.mem_map, Prod.mk.injEq]
  constructor
  · rintro ⟨c, hc, h1, h2⟩
    have : (a - dx, b - dy) = c := Prod.ext (by simp only; omega) (by simp only; omega)
    rw [this]; exact hc
  · intro h
    exact ⟨(a - dx, b - dy), h, by simp only; omega, by simp only; omega⟩

theorem planeCount_shift (dx dy : Int) (cells : List (Int × Int)) (a b : Int) :
    planeCount (shift dx dy cells) a b = planeCount cells (a - dx) (b - dy) := by
  unfold planeCount
  apply List.countP_congr
  intro d _
  simp only [decide_eq_true_eq]
  rw [mem_shift]
  have e1 : a + d.1 - dx = a - dx + d.1 := by ring
  have e2 : b + d.2 - dy = b - dy + d.2 := by ring
  rw [e1, e2]

theorem planeNext_shift (dx dy : Int) (cells : List (Int × Int)) (a b : Int) :
    planeNext (shift dx dy cells) a b ↔ planeNext cells (a - dx) (b - dy) := by
  unfold planeNext
  rw [planeCount_shift, mem_shift]

theorem mem_intRange (lo hi a : Int) : a ∈ intRange lo hi ↔ lo ≤ a ∧ a ≤ hi := by
  unfold intRange
  simp only [List.mem_map, List.mem_range]
  constructor
  · rintro ⟨i, hi', rfl⟩
    omega
  · intro h
    exact ⟨(a - lo).toNat, by omega, by omega⟩

/-- No listed cell lies strictly between the bounds: the count at a far position is 0. -/
theorem planeCount_far (cells : List (Int × Int)) (lo1 hi1 lo2 hi2 a b : Int)
    (hbox : ∀ c ∈ cells, lo1 < c.1 ∧ c.1 < hi1 ∧ lo2 < c.2 ∧ c.2 < hi2)
    (hfar : a < lo1 ∨ hi1 < a ∨ b < lo2 ∨ hi2 < b) :
    planeCount cells a b = 0 ∧ (a, b) ∉ cells := by
  constructor
  · unfold planeCount
    rw [List.countP_eq_zero]
    intro d hd
    simp only [decide_eq_true_eq]
    intro hm
    obtain ⟨h1, h2, h3, h4⟩ := hbox _ hm
    simp only at h1 h2 h3 h4
    rw [neighbourOffsets_eq] at hd
    simp only [List.mem_cons, List.mem_singleton, List.not_mem_nil, or_false] at hd
    rcases hd with rfl | rfl | rfl | rfl | rfl | rfl | rfl | rfl <;> simp only at h1 h2 h3 h4 <;>
      omega
  · intro hm
    obtain ⟨h1, h2, h3, h4⟩ := hbox _ hm
    simp only at h1 h2 h3 h4
    omega

/-- A finite check of the rule: when the live cells lie strictly inside a box and the
candidate next cells lie in the box, it is enough to compare the two at the positions
of the box. -/
theorem next_check (P : Int → Int → Prop) (cells next : List (Int × Int))
    (lo1 hi1 lo2 hi2 : Int)
    (hbox : ∀ c ∈ cells, lo1 < c.1 ∧ c.1 < hi1 ∧ lo2 < c.2 ∧ c.2 < hi2)
    (hbox' : ∀ c ∈ next, lo1 ≤ c.1 ∧ c.1 ≤ hi1 ∧ lo2 ≤ c.2 ∧ c.2 ≤ hi2)
    (hfin : ∀ a ∈ intRange lo1 hi1, ∀ b ∈ intRange lo2 hi2,
      ((a, b) ∈ next ↔ (P a b ∧ planeNext cells a b))) :
    ∀ a b : Int, (a, b) ∈ next ↔ (P a b ∧ planeNext cells a b) := by
  intro a b
  by_cases hin : lo1 ≤ a ∧ a ≤ hi1 ∧ lo2 ≤ b ∧ b ≤ hi2
  · exact hfin a ((mem_intRange _ _ _).mpr ⟨hin.1, hin.2.1⟩) b
      ((mem_intRange _ _ _).mpr ⟨hin.2.2.1, hin.2.2.2⟩)
  · have hfar : a < lo1 ∨ hi1 < a ∨ b < lo2 ∨ hi2 < b := by omega
    obtain ⟨hc, hm⟩ := planeCount_far cells lo1 hi1 lo2 hi2 a b hbox hfar
    constructor
    · intro hmem
      obtain ⟨h1, h2, h3, h4⟩ := hbox' _ hmem
      simp only at h1 h2 h3 h4
      omega
    · rintro ⟨_, hp⟩
      unfold planeNext at hp
      rw [hc] at hp
      rcases hp with ⟨_, h2 | h3⟩ | ⟨_, h3⟩ <;> omega

/-! ## Blinker and glider -/

theorem plane_blinkerH : ∀ a b : Int,
    (a, b) ∈ blinkerV ↔ (True ∧ planeNext blinkerH a b) :=
  next_check (fun _ _ => True) blinkerH blinkerV (-2) 4 (-3) 3
    (by decide) (by decide) (by decide)

theorem plane_blinkerV : ∀ a b : Int,
    (a, b) ∈ blinkerH ↔ (True ∧ planeNext blinkerV a b) :=
  next_check (fun _ _ => True) blinkerV blinkerH (-2) 4 (-3) 3
    (by decide) (by decide) (by decide)

theorem plane_glider0 : ∀ a b : Int,
    (a, b) ∈ glider1 ↔ (True ∧ planeNext glider0 a b) :=
  next_check (fun _ _ => True) glider0 glider1 (-1) 4 (-1) 4
    (by decide) (by decide) (by decide)

theorem plane_glider1 : ∀ a b : Int,
    (a, b) ∈ glider2 ↔ (True ∧ planeNext glider1 a b) :=
  next_check (fun _ _ => True) glider1 glider2 (-1) 4 (-1) 4
    (by decide) (by decide) (by decide)

theorem plane_glider2 : ∀ a b : Int,
    (a, b) ∈ glider3 ↔ (True ∧ planeNext glider2 a b) :=
  next_check (fun _ _ => True) glider2 glider3 (-1) 4 (-1) 4
    (by decide) (by decide) (by decide)

theorem plane_glider3 : ∀ a b : Int,
    (a, b) ∈ shift 1 1 glider0 ↔ (True ∧ planeNext glider3 a b) :=
  next_check (fun _ _ => True) glider3 (shift 1 1 glider0) (-1) 5 (-1) 5
    (by decide) (by decide) (by decide)

/-- One step of a pattern placed at `(dx, dy)`: when the pattern turns into `rel'` in
the plane and `rel'` placed at `(dx, dy)` fits inside the grid, `updateGrid` completes
and the live cells are exactly `rel'` placed at `(dx, dy)`. -/
theorem updateGrid_shift (rel rel' : List (Int × Int))
    (hplane : ∀ u v : Int, (u, v) ∈ rel' ↔ (True ∧ planeNext rel u v))
    (s : State) (dx dy : Int) (h : LiveExactly s (shift dx dy rel))
    (hfit : ∀ c ∈ rel', inside s.width s.height (c.1 + dx) (c.2 + dy)) :
    updateGrid s = some { s with
        grid := paint s.width s.height (shift dx dy rel'),
        generation := wrapInt (s.generation + 1) } ∧
      LiveExactly { s with
        grid := paint s.width s.height (shift dx dy rel'),
        generation := wrapInt (s.generation + 1) } (shift dx dy rel') := by
  apply updateGrid_liveExactly s _ _ h
  intro a b
  rw [mem_shift, planeNext_shift, hplane]
  constructor
  · rintro ⟨_, hp⟩
    have hm : (a - dx, b - dy) ∈ rel' := (hplane _ _).mpr ⟨trivial, hp⟩
    have := hfit _ hm
    simp only [sub_add_cancel] at this
    exact ⟨this, hp⟩
  · rintro ⟨_, hp⟩
    exact ⟨trivial, hp⟩

theorem blinkerAt_eq (x y : Int) : blinkerAt x y = shift x y blinkerH := by
  simp [blinkerAt, shift, blinkerH, add_comm]

theorem blinkerUpAt_eq (x y : Int) : blinkerUpAt x y = shift x y blinkerV := by
  simp [blinkerUpAt, shift, blinkerV, add_comm, sub_eq_add_neg]

theorem gliderAt_eq (x y : Int) : gliderAt x y = shift x y glider0 := by
  simp [gliderAt, shift, glider0, add_comm]

theorem gliderAt_succ_eq (x y : Int) :
    gliderAt (x + 1) (y + 1) = shift x y (shift 1 1 glider0) := by
  simp [gliderAt, shift, glider0]
  refine ⟨⟨?_, ?_⟩, ⟨?_, ?_⟩, ⟨?_, ?_⟩, ⟨?_, ?_⟩, ⟨?_, ?_⟩⟩ <;> ring

/-- The step of a placed pattern, stated for the state that `updateGrid` returns. -/
theorem step_shift (rel rel' : List (Int × Int))
    (hplane : ∀ u v : Int, (u, v) ∈ rel' ↔ (True ∧ planeNext rel u v))
    (s : State) (dx dy : Int) (h : LiveExactly s (shift dx dy rel))
    (hfit : ∀ c ∈ rel', inside s.width s.height (c.1 + dx) (c.2 + dy)) :
    ∃ t, updateGrid s = some t ∧ LiveExactly t (shift dx dy rel') ∧
      t.width = s.width ∧ t.height = s.height ∧
      t.generation = wrapInt (s.generation + 1) := by
  obtain ⟨hu, hl⟩ := updateGrid_shift rel rel' hplane s dx dy h hfit
  exact ⟨_, hu, hl, rfl, rfl, rfl⟩

theorem grid_eq_of_liveExactly (s t : State) (cells : List (Int × Int))
    (hs : LiveExactly s cells) (ht : LiveExactly t cells) (hw : t.width = s.width)
    (hh : t.height = s.height) : t.grid = s.grid := by
  rw [hs.2.2.2, ht.2.2.2, hw, hh]

/-- C13 (as amended): for every grid whose live cells are exactly the three
horizontally adjacent cells `(x, y), (x+1, y), (x+2, y)` written by `loadBlinker(x, y)`,
inside the grid and with a grid row above and a grid row below them (`1 ≤ y` and
`y + 1 < height`), two consecutive `updateGrid` calls complete and return the grid to
exactly the original one; the grid after one call is the vertical blinker through the
middle cell and differs from the original, and `generation` has grown by exactly 2
(as long as the counter stays within the `int` range; in general by 2 modulo `2^64`). -/
theorem C13_blinker_period (s : State) (x y : Int) (h : LiveExactly s (blinkerAt x y))
    (hy : 1 ≤ y) (hyh : y + 1 < s.height) :
    ∃ t1 t2, updateGrid s = some t1 ∧ updateGrid t1 = some t2 ∧
      updateGridN 2 s = some t2 ∧
      LiveExactly t1 (blinkerUpAt x y) ∧ LiveExactly t2 (blinkerAt x y) ∧
      t2.grid = s.grid ∧ t1.grid ≠ s.grid ∧
      t2.generation = wrapInt (s.generation + 2) ∧
      (intMin ≤ s.generation → s.generation + 2 ≤ intMax →
        t2.generation = s.generation + 2) := by
  have hin := h.2.2.1
  have hx0 := hin (x, y) (by simp [blinkerAt])
  have hx2 := hin (x + 2, y) (by simp [blinkerAt])
  simp only at hx0 hx2
  have h' : LiveExactly s (shift x y blinkerH) := by rw [← blinkerAt_eq]; exact h
  obtain ⟨t1, hu1, hl1, hw1, hh1, hg1⟩ := step_shift blinkerH blinkerV plane_blinkerH s x y h'
    (by
      intro c hc
      simp only [blinkerV, List.mem_cons, List.mem_singleton, List.not_mem_nil,
        or_false] at hc
      rcases hc with rfl | rfl | rfl <;> exact ⟨by omega, by omega, by omega, by omega⟩)
  obtain ⟨t2, hu2, hl2, hw2, hh2, hg2⟩ := step_shift blinkerV blinkerH plane_blinkerV t1 x y
    hl1
    (by
      rw [hw1, hh1]
      intro c hc
      simp only [blinkerH, List.mem_cons, List.mem_singleton, List.not_mem_nil,
        or_false] at hc
      rcases hc with rfl | rfl | rfl <;> exact ⟨by omega, by omega, by omega, by omega⟩)
  rw [← blinkerUpAt_eq] at hl1
  rw [← blinkerAt_eq] at hl2
  have hgen : t2.generation = wrapInt (s.generation + 2) := by
    rw [hg2, hg1, wrapInt_add]
    congr 1
    ring
  refine ⟨t1, t2, hu1, hu2, ?_, hl1, hl2, ?_, ?_, hgen, ?_⟩
  · simp only [updateGridN, hu1, hu2, Option.some_bind]
  · exact grid_eq_of_liveExactly s t2 _ h hl2 (by rw [hw2, hw1]) (by rw [hh2, hh1])
  · intro heq
    have r0 := (liveExactly_spec s _ h).2.1 x y hx0.1 hx0.2.1 hx0.2.2.1 hx0.2.2.2
    have r1 := (liveExactly_spec t1 _ hl1).2.1 x y hx0.1 (by rw [hw1]; exact hx0.2.1)
      hx0.2.2.1 (by rw [hh1]; exact hx0.2.2.2)
    rw [heq, r0] at r1
    simp [blinkerAt, blinkerUpAt] at r1
  · intro h1 h2
    rw [hgen]
    exact wrapInt_of_inRange _ (by omega) h2

/-- C13 on a 5 x 5 grid with the blinker in the middle row. -/
theorem C13_blinker_period_witness :
    LiveExactly blinkerState (blinkerAt 1 2) ∧
      ∃ t1 t2, updateGrid blinkerState = some t1 ∧ updateGrid t1 = some t2 ∧
        t2.grid = blinkerState.grid ∧ t1.grid ≠ blinkerState.grid :=
  ⟨by decide,
    match C13_blinker_period blinkerState 1 2 (by decide) (by decide) (by decide) with
    | ⟨t1, t2, h1, h2, _, _, _, h6, h7, _, _⟩ => ⟨t1, t2, h1, h2, h6, h7⟩⟩

/-- C13 (counterexample to "for every grid size and every blinker that fits"): a
horizontal blinker in the top row of a 3 x 3 grid is gone after two steps; and on a
3 x 1 grid `loadPattern("blinker")` completes, stamps the three cells, and two steps
later every cell is dead. -/
theorem C13_edge_counterexample :
    LiveExactly topBlinkerState (blinkerAt 0 0) ∧
    (updateGridN 1 topBlinkerState).map (fun t => t.grid) =
      some [[0, 1, 0], [0, 1, 0], [0, 0, 0]] ∧
    (updateGridN 2 topBlinkerState).map (fun t => t.grid) =
      some [[0, 0, 0], [0, 0, 0], [0, 0, 0]] ∧
    (loadPattern (fun _ => false) stripState "blinker").map (fun t => t.grid) =
      some [[1, 1, 1]] ∧
    ((loadPattern (fun _ => false) stripState "blinker").bind (updateGridN 2)).map
      (fun t => t.grid) = some [[0, 0, 0]] := by
  decide

/-! ## The glider -/

theorem updateGridN_add (m n : Nat) (s : State) :
    updateGridN (m + n) s = (updateGridN m s).bind (updateGridN n) := by
  induction m generalizing s with
  | zero => simp [updateGridN]
  | succ k ih =>
    have e : k + 1 + n = (k + n) + 1 := by omega
    rw [e]
    simp only [updateGridN]
    cases hu : updateGrid s with
    | none => rfl
    | some t => simp only [Option.some_bind]; exact ih t

theorem updateGridN_one (s : State) : updateGridN 1 s = updateGrid s := by
  simp only [updateGridN]
  cases updateGrid s <;> rfl

theorem nodup_shift (dx dy : Int) (cells : List (Int × Int)) (h : cells.Nodup) :
    (shift dx dy cells).Nodup := by
  unfold shift
  apply List.Nodup.map _ h
  intro c d hcd
  simp only [Prod.mk.injEq] at hcd
  exact Prod.ext (by omega) (by omega)

theorem length_shift (dx dy : Int) (cells : List (Int × Int)) :
    (shift dx dy cells).length = cells.length := by
  simp [shift]

/-- A pattern inside the 4 x 4 box placed at `(x, y)` fits a grid that has the box. -/
theorem fit_box (cells : List (Int × Int))
    (hbox : ∀ c ∈ cells, 0 ≤ c.1 ∧ c.1 ≤ 3 ∧ 0 ≤ c.2 ∧ c.2 ≤ 3) (w h x y : Int)
    (hx : 0 ≤ x) (hxw : x + 3 < w) (hy : 0 ≤ y) (hyh : y + 3 < h) :
    ∀ c ∈ cells, inside w h (c.1 + x) (c.2 + y) := by
  intro c hc
  obtain ⟨h1, h2, h3, h4⟩ := hbox c hc
  exact ⟨by omega, by omega, by omega, by omega⟩

/-- The four steps of a glider at `(x, y)` on a grid that contains the 4 x 4 box at
`(x, y)`: every step completes, the live cells are the successive phases, and after
the fourth they are the glider at `(x + 1, y + 1)`. -/
theorem glider_chain (s : State) (x y : Int) (h : LiveExactly s (gliderAt x y))
    (hxw : x + 3 < s.width) (hyh : y + 3 < s.height) :
    ∃ t1 t2 t3 t4, updateGrid s = some t1 ∧ updateGrid t1 = some t2 ∧
      updateGrid t2 = some t3 ∧ updateGrid t3 = some t4 ∧
      LiveExactly t1 (shift x y glider1) ∧ LiveExactly t2 (shift x y glider2) ∧
      LiveExactly t3 (shift x y glider3) ∧ LiveExactly t4 (gliderAt (x + 1) (y + 1)) ∧
      t4.width = s.width ∧ t4.height = s.height ∧
      t4.generation = wrapInt (s.generation + 4) := by
  have hin := h.2.2.1
  have hx0 := hin (x, y + 2) (by simp [gliderAt])
  have hy0 := hin (x + 1, y) (by simp [gliderAt])
  simp only at hx0 hy0
  have h0 : LiveExactly s (shift x y glider0) := by rw [← gliderAt_eq]; exact h
  obtain ⟨t1, hu1, hl1, hw1, hh1, hg1⟩ := step_shift glider0 glider1 plane_glider0 s x y h0
    (fit_box glider1 (by decide) _ _ x y hx0.1 hxw hy0.2.2.1 hyh)
  obtain ⟨t2, hu2, hl2, hw2, hh2, hg2⟩ := step_shift glider1 glider2 plane_glider1 t1 x y hl1
    (by rw [hw1, hh1]; exact fit_box glider2 (by decide) _ _ x y hx0.1 hxw hy0.2.2.1 hyh)
  obtain ⟨t3, hu3, hl3, hw3, hh3, hg3⟩ := step_shift glider2 glider3 plane_glider2 t2 x y hl2
    (by
      rw [hw2, hh2, hw1, hh1]
      exact fit_box glider3 (by decide) _ _ x y hx0.1 hxw hy0.2.2.1 hyh)
  obtain ⟨t4, hu4, hl4, hw4, hh4, hg4⟩ := step_shift glider3 (shift 1 1 glider0)
    plane_glider3 t3 x y hl3
    (by
      rw [hw3, hh3, hw2, hh2, hw1, hh1]
      exact fit_box (shift 1 1 glider0) (by decide) _ _ x y hx0.1 hxw hy0.2.2.1 hyh)
  rw [← gliderAt_succ_eq] at hl4
  refine ⟨t1, t2, t3, t4, hu1, hu2, hu3, hu4, hl1, hl2, hl3, hl4, ?_, ?_, ?_⟩
  · rw [hw4, hw3, hw2, hw1]
  · rw [hh4, hh3, hh2, hh1]
  · rw [hg4, hg3, hg2, hg1, wrapInt_add (s.generation + 1) 1,
      wrapInt_add (s.generation + 1 + 1) 1, wrapInt_add (s.generation + 1 + 1 + 1) 1]
    congr 1
    ring

/-- Four steps move the glider by `(1, 1)`. -/
theorem glider_four (s : State) (x y : Int) (h : LiveExactly s (gliderAt x y))
    (hxw : x + 3 < s.width) (hyh : y + 3 < s.height) :
    ∃ t, updateGridN 4 s = some t ∧ LiveExactly t (gliderAt (x + 1) (y + 1)) ∧
      t.width = s.width ∧ t.height = s.height ∧
      t.generation = wrapInt (s.generation + 4) := by
  obtain ⟨t1, t2, t3, t4, hu1, hu2, hu3, hu4, _, _, _, hl4, hw, hh, hg⟩ :=
    glider_chain s x y h hxw hyh
  refine ⟨t4, ?_, hl4, hw, hh, hg⟩
  simp only [updateGridN, hu1, hu2, hu3, hu4, Option.some_bind]

/-- While the box of the glider stays inside the grid, `4 * m` steps move it by
`(m, m)`. -/
theorem glider_shift (m : Nat) (s : State) (x y : Int) (h : LiveExactly s (gliderAt x y))
    (hxw : x + 2 + (m : Int) < s.width) (hyh : y + 2 + (m : Int) < s.height) :
    ∃ t, updateGridN (4 * m) s = some t ∧
      LiveExactly t (gliderAt (x + (m : Int)) (y + (m : Int))) ∧
      t.width = s.width ∧ t.height = s.height := by
  induction m with
  | zero => exact ⟨s, rfl, by simpa using h, rfl, rfl⟩
  | succ k ih =>
    obtain ⟨t, ht, hl, hw, hh⟩ := ih (by push_cast at hxw; omega)
      (by push_cast at hyh; omega)
    obtain ⟨u, hu, hlu, hwu, hhu, _⟩ := glider_four t _ _ hl
      (by rw [hw]; push_cast at hxw; omega) (by rw [hh]; push_cast at hyh; omega)
    refine ⟨u, ?_, ?_, by rw [hwu, hw], by rw [hhu, hh]⟩
    · have e : 4 * (k + 1) = 4 * k + 4 := by ring
      rw [e, updateGridN_add, ht]
      exact hu
    · have e1 : x + ((k + 1 : Nat) : Int) = x + (k : Int) + 1 := by push_cast; ring
      have e2 : y + ((k + 1 : Nat) : Int) = y + (k : Int) + 1 := by push_cast; ring
      rw [e1, e2]
      exact hlu

/-- The population stays 5 through the phases of a glider whose 4 x 4 box is inside
the grid. -/
theorem glider_phase_population (s : State) (x y : Int) (h : LiveExactly s (gliderAt x y))
    (hxw : x + 3 < s.width) (hyh : y + 3 < s.height) (r : Nat) (hr : r ≤ 3) :
    ∃ u, updateGridN r s = some u ∧ getPopulation u = some 5 := by
  obtain ⟨t1, t2, t3, t4, hu1, hu2, hu3, _, hl1, hl2, hl3, _, _, _, _⟩ :=
    glider_chain s x y h hxw hyh
  have hp : ∀ (u : State) (cells : List (Int × Int)), cells.Nodup → cells.length = 5 →
      LiveExactly u (shift x y cells) → getPopulation u = some 5 := by
    intro u cells hnd hlen hl
    rw [getPopulation_liveExactly u _ hl (nodup_shift x y cells hnd), length_shift, hlen]
    rfl
  have h0 : LiveExactly s (shift x y glider0) := by rw [← gliderAt_eq]; exact h
  have hcases : r = 0 ∨ r = 1 ∨ r = 2 ∨ r = 3 := by omega
  rcases hcases with rfl | rfl | rfl | rfl
  · exact ⟨s, rfl, hp s glider0 (by decide) rfl h0⟩
  · exact ⟨t1, by simp only [updateGridN, hu1, Option.some_bind],
      hp t1 glider1 (by decide) rfl hl1⟩
  · exact ⟨t2, by simp only [updateGridN, hu1, hu2, Option.some_bind],
      hp t2 glider2 (by decide) rfl hl2⟩
  · exact ⟨t3, by simp only [updateGridN, hu1, hu2, hu3, Option.some_bind],
      hp t3 glider3 (by decide) rfl hl3⟩

theorem loadGlider_eq_stamp_at (g : Grid) (x y : Int) :
    loadGlider g x y = stamp g (gliderAt x y) := by
  simp [loadGlider, stamp, gliderAt]

/-- C14: for every grid whose live cells are exactly the five cells written by
`loadGlider(x, y)`, with `x ≥ 0`, `y ≥ 0`, `x + 3 < width` and `y + 3 < height`, four
consecutive `updateGrid` calls complete and yield a grid whose live cells are exactly
the cells `loadGlider(x + 1, y + 1)` would write, and nothing else; `generation` has
grown by 4 as long as the counter stays within the `int` range. -/
theorem C14_glider_translates (s : State) (x y : Int) (h : LiveExactly s (gliderAt x y))
    (hxw : x + 3 < s.width) (hyh : y + 3 < s.height) :
    0 ≤ x ∧ 0 ≤ y ∧
    (∀ g : Grid, loadGlider g x y = stamp g (gliderAt x y) ∧
      loadGlider g (x + 1) (y + 1) = stamp g (gliderAt (x + 1) (y + 1))) ∧
    ∃ t, updateGridN 4 s = some t ∧ LiveExactly t (gliderAt (x + 1) (y + 1)) ∧
      WellFormed t ∧ (∀ a b : Int, liveAt t a b ↔ (a, b) ∈ gliderAt (x + 1) (y + 1)) ∧
      t.grid = paint s.width s.height (gliderAt (x + 1) (y + 1)) ∧
      t.width = s.width ∧ t.height = s.height ∧
      (intMin ≤ s.generation → s.generation + 4 ≤ intMax →
        t.generation = s.generation + 4) := by
  have hx0 := h.2.2.1 (x, y + 2) (by simp [gliderAt])
  have hy0 := h.2.2.1 (x + 1, y) (by simp [gliderAt])
  simp only at hx0 hy0
  obtain ⟨t, ht, hl, hw, hh, hg⟩ := glider_four s x y h hxw hyh
  obtain ⟨hwf, _, hlive⟩ := liveExactly_spec t _ hl
  refine ⟨hx0.1, hy0.2.2.1,
    fun g => ⟨loadGlider_eq_stamp_at g x y, loadGlider_eq_stamp_at g (x + 1) (y + 1)⟩,
    t, ht, hl, hwf, hlive, ?_, hw, hh, ?_⟩
  · rw [hl.2.2.2, hw, hh]
  · intro h1 h2
    rw [hg]
    exact wrapInt_of_inRange _ (by omega) h2

/-- C14 on a 4 x 4 grid with the glider at `(0, 0)`: after four steps it is the glider
at `(1, 1)`. -/
theorem C14_glider_translates_witness :
    LiveExactly gliderState (gliderAt 0 0) ∧
      (updateGridN 4 gliderState).map (fun t => t.grid) =
        some [[0, 0, 0, 0], [0, 0, 1, 0], [0, 0, 0, 1], [0, 1, 1, 1]] ∧
      ∃ t, updateGridN 4 gliderState = some t ∧ LiveExactly t (gliderAt (0 + 1) (0 + 1)) :=
  ⟨by decide, by decide,
    match (C14_glider_translates gliderState 0 0 (by decide) (by decide)
      (by decide)).2.2.2 with
    | ⟨t, h1, h2, _⟩ => ⟨t, h1, h2⟩⟩

/-! ## The population of the loaded glider -/

theorem glider_cells_eq (cx cy : Int) :
    specPatternCells "glider" cx cy = gliderAt (cx - 1) (cy - 1) := by
  simp [specPatternCells, gliderAt]
  omega

/-- Whenever `loadPattern("glider")` completes on a rectangular grid, the grid is at
least 3 x 3 and the live cells are exactly the glider written by
`loadGlider(width / 2 - 1, height / 2 - 1)`. -/
theorem loadPattern_glider_liveExactly (draws : Nat → Bool) (s t : State)
    (hr : Rect s.grid s.width s.height) (ht : loadPattern draws s "glider" = some t) :
    LiveExactly t (gliderAt (s.width / 2 - 1) (s.height / 2 - 1)) ∧
      t.width = s.width ∧ t.height = s.height ∧ 3 ≤ s.width ∧ 3 ≤ s.height ∧
      t.generation = 0 := by
  rw [loadPattern_eq_stamp draws s "glider" hr (by decide)] at ht
  simp only [Option.map_eq_some'] at ht
  obtain ⟨g, hg, rfl⟩ := ht
  have hin := stamp_inside _ _ g _ _ (rect_zeros s hr) hg
  have c1 := hin (Int.tdiv s.width 2 - 1, Int.tdiv s.height 2 + 1)
    (by simp [specPatternCells])
  have c2 := hin (Int.tdiv s.width 2 + 1, Int.tdiv s.height 2)
    (by simp [specPatternCells])
  have c3 := hin (Int.tdiv s.width 2, Int.tdiv s.height 2 - 1)
    (by simp [specPatternCells])
  simp only at c1 c2 c3
  have hw3 : 3 ≤ s.width := by omega
  have hh3 : 3 ≤ s.height := by omega
  have hcx : Int.tdiv s.width 2 = s.width / 2 := Int.tdiv_eq_ediv (by omega) (by decide)
  have hcy : Int.tdiv s.height 2 = s.height / 2 := Int.tdiv_eq_ediv (by omega) (by decide)
  rw [hcx, hcy] at hg hin
  rw [glider_cells_eq] at hg hin
  obtain ⟨g', hg', hrect, hread⟩ := stamp_spec _ _ s.width s.height (rect_zeros s hr) hin
  rw [hg] at hg'
  cases hg'
  refine ⟨⟨?_, ?_, hin, ?_⟩, rfl, rfl, hw3, hh3, rfl⟩
  · show 0 ≤ s.width
    omega
  · show 0 ≤ s.height
    omega
  show g = paint s.width s.height _
  unfold paint
  apply grid_eq_tabulate _ _ _ _ hrect
  intro x y hx hxw hy hyh
  rw [hread x y, readCell_tabulate _ _ _ x y hx (by omega) hy (by omega)]
  split <;> rfl

/-- C15 (as amended): for the grid produced by `loadPattern("glider")` and every number
of steps `n` up to `4 * min (width - width / 2 - 2) (height - height / 2 - 2)`, that
is, while the box of the glider has not reached the bottom or right edge (76 steps at
the default 170 x 42), `n` consecutive `updateGrid` calls complete and
`getPopulation` is exactly 5. -/
theorem C15_glider_population (draws : Nat → Bool) (s t : State)
    (hr : Rect s.grid s.width s.height) (ht : loadPattern draws s "glider" = some t)
    (n : Nat)
    (hn : (n : Int) ≤
      4 * min (s.width - s.width / 2 - 2) (s.height - s.height / 2 - 2)) :
    ∃ u, updateGridN n t = some u ∧ getPopulation u = some 5 := by
  obtain ⟨hl, hw, hh, hw3, hh3, _⟩ := loadPattern_glider_liveExactly draws s t hr ht
  have hsplit : n = 4 * (n / 4) + n % 4 := (Nat.div_add_mod n 4).symm
  have hr4 : n % 4 < 4 := Nat.mod_lt n (by decide)
  by_cases hzero : n % 4 = 0
  · have hj : ((n / 4 : Nat) : Int) ≤
        min (s.width - s.width / 2 - 2) (s.height - s.height / 2 - 2) := by omega
    have hj1 := le_trans hj (min_le_left _ _)
    have hj2 := le_trans hj (min_le_right _ _)
    obtain ⟨u, hu, hlu, _, _⟩ := glider_shift (n / 4) t _ _ hl
      (by rw [hw]; omega) (by rw [hh]; omega)
    refine ⟨u, ?_, ?_⟩
    · rw [hsplit, hzero, Nat.add_zero]
      exact hu
    · have hnd : (gliderAt (s.width / 2 - 1 + ((n / 4 : Nat) : Int))
          (s.height / 2 - 1 + ((n / 4 : Nat) : Int))).Nodup := by
        rw [gliderAt_eq]
        exact nodup_shift _ _ _ (by decide)
      rw [getPopulation_liveExactly u _ hlu hnd]
      rfl
  · have hj : ((n / 4 : Nat) : Int) + 1 ≤
        min (s.width - s.width / 2 - 2) (s.height - s.height / 2 - 2) := by omega
    have hj1 := le_trans hj (min_le_left _ _)
    have hj2 := le_trans hj (min_le_right _ _)
    obtain ⟨u, hu, hlu, hwu, hhu⟩ := glider_shift (n / 4) t _ _ hl
      (by rw [hw]; omega) (by rw [hh]; omega)
    obtain ⟨v, hv, hpop⟩ := glider_phase_population u _ _ hlu
      (by rw [hwu, hw]; omega) (by rw [hhu, hh]; omega) (n % 4) (by omega)
    refine ⟨v, ?_, hpop⟩
    rw [hsplit, updateGridN_add, hu]
    exact hv

/-- C15 on the 6 x 6 all-dead grid: the bound is 4 steps. -/
theorem C15_glider_population_witness :
    loadPattern (fun _ => false) sixState "glider" = some sixGliderState ∧
      ∃ u, updateGridN 4 sixGliderState = some u ∧ getPopulation u = some 5 :=
  ⟨by decide,
    C15_glider_population (fun _ => false) sixState sixGliderState
      (by decide) (by decide) 4 (by decide)⟩

/-- At the default size 170 x 42 the loaded glider reaches the bottom edge after 76
steps, and the 77th step leaves 4 live cells. -/
theorem glider_default_77 (draws : Nat → Bool) (s : State)
    (hr : Rect s.grid s.width s.height) (hw : s.width = 170) (hh : s.height = 42) :
    ∃ t u, loadPattern draws s "glider" = some t ∧ updateGridN 77 t = some u ∧
      getPopulation u = some 4 := by
  obtain ⟨t, ht⟩ := (loadPattern_isSome_iff draws s "glider" hr (by decide)).mpr
    (by rw [hw, hh]; decide)
  obtain ⟨hl, hwt, hht, _, _, _⟩ := loadPattern_glider_liveExactly draws s t hr ht
  have ex : s.width / 2 - 1 = 84 := by rw [hw]; decide
  have ey : s.height / 2 - 1 = 20 := by rw [hh]; decide
  rw [ex, ey] at hl
  obtain ⟨u, hu, hlu, hwu, hhu⟩ := glider_shift 19 t 84 20 hl
    (by rw [hwt, hw]; decide) (by rw [hht, hh]; decide)
  have hwu' : u.width = 170 := by rw [hwu, hwt, hw]
  have hhu' : u.height = 42 := by rw [hhu, hht, hh]
  have hnext := next_check (inside 170 42)
    (gliderAt (84 + ((19 : Nat) : Int)) (20 + ((19 : Nat) : Int)))
    [(103, 40), (105, 40), (104, 41), (105, 41)] 102 106 38 43
    (by decide) (by decide) (by decide)
  obtain ⟨hv, hlv⟩ := updateGrid_liveExactly u _
    [(103, 40), (105, 40), (104, 41), (105, 41)] hlu
    (by rw [hwu', hhu']; exact hnext)
  refine ⟨t, { u with
      grid := paint u.width u.height [(103, 40), (105, 40), (104, 41), (105, 41)],
      generation := wrapInt (u.generation + 1) }, ht, ?_, ?_⟩
  · have e : 77 = 4 * 19 + 1 := by decide
    rw [e, updateGridN_add, hu]
    simp only [Option.some_bind, updateGridN_one]
    exact hv
  · rw [getPopulation_liveExactly _ _ hlv (by decide)]
    rfl

/-- C15 (counterexample to "for every number of steps"): on the 6 x 6 grid the glider
loaded by `loadPattern("glider")` has population 4 after 5 steps; and at the default
size, from the initial state, `loadPattern("glider")` followed by 77 steps leaves
population 4. -/
theorem C15_edge_counterexample :
    loadPattern (fun _ => false) sixState "glider" = some sixGliderState ∧
    (updateGridN 4 sixGliderState).bind getPopulation = some 5 ∧
    (updateGridN 5 sixGliderState).bind getPopulation = some 4 ∧
    ∃ s0 t u, initialState (fun _ => false) = some s0 ∧
      loadPattern (fun _ => false) s0 "glider" = some t ∧
      updateGridN 77 t = some u ∧ getPopulation u = some 4 := by
  refine ⟨by decide, by decide, by decide, ?_⟩
  obtain ⟨s0, h0, hwf, hw, hh, _⟩ := initialState_spec (fun _ => false)
  obtain ⟨t, u, ht, hu, hp⟩ := glider_default_77 (fun _ => false) s0 hwf.1 hw hh
  exact ⟨s0, t, u, h0, ht, hu, hp⟩

end GameOfLife
